import Mathlib

/-! OpenDDW `DDSManager`: topic-group registry, QoS registration, filter replacement,
domain join and teardown.

A shallow embedding of `src/src/dds_manager.cpp`.  Every C++ member function becomes a
Lean function that takes the manager state and the state of the participant runtime and
returns the C++ return value together with the new states.  A result of `none` stands for a run that does not return to
its caller: it dereferences a null `shared_ptr<TopicGroup>` or a null participant,
throws, or exits the process.

The participant runtime (OpenDDS) is external to the repository.  It is modelled by
`Runtime`: a script of return codes that decides which of the next calls fail, a counter for
fresh object references, and the log of every call the manager issued, in order.  A method
invoked through a nil entity handle whose result is not used is logged with a nil receiver;
whether the process gets past such a call is the runtime's `survivesNilCall`; the theorems
about `replaceFilter` say what holds in either case.  `replaceFilterRun` gives the state a
run of `replaceFilter` leaves, also when the run ends at such a call and returns nothing.
-/

namespace OpenDDW

/-! ## Values exchanged with the participant runtime -/

/-- `DDS::ReturnCode_t`, the codes listed by `DDSManager::getErrorName`. -/
inductive ReturnCode
  | RETCODE_OK
  | RETCODE_ERROR
  | RETCODE_UNSUPPORTED
  | RETCODE_BAD_PARAMETER
  | RETCODE_PRECONDITION_NOT_MET
  | RETCODE_OUT_OF_RESOURCES
  | RETCODE_NOT_ENABLED
  | RETCODE_IMMUTABLE_POLICY
  | RETCODE_INCONSISTENT_POLICY
  | RETCODE_ALREADY_DELETED
  | RETCODE_TIMEOUT
  | RETCODE_NO_DATA
  | RETCODE_ILLEGAL_OPERATION
  deriving DecidableEq, Repr

/-- A non-nil object reference (`DDS::Topic_var`, `DDS::Publisher_var`, ...).  A `_var`
that may be nil is an `Option Ref`. -/
abbrev Ref := Nat

/-- `DDS::TopicQos`; the policy values are kept as one code. -/
structure TopicQos where
  policies : Nat
  deriving DecidableEq, Repr

/-- `DDS::PublisherQos`. -/
structure PublisherQos where
  policies : Nat
  deriving DecidableEq, Repr

/-- `DDS::SubscriberQos`. -/
structure SubscriberQos where
  policies : Nat
  deriving DecidableEq, Repr

/-- `DDS::DataWriterQos`. -/
structure DataWriterQos where
  policies : Nat
  deriving DecidableEq, Repr

/-- `DDS::Duration_t`. -/
structure Duration_t where
  sec : Int
  nanosec : Nat
  deriving DecidableEq, Repr

/-- `DDS::DataReaderQos`: the time-based-filter minimum separation (written by
`setMaxDataRate`) and one code for all other policies. -/
structure DataReaderQos where
  minimum_separation : Duration_t
  policies : Nat
  deriving DecidableEq, Repr

/-- `DDS::ContentFilteredTopic_var` (non-nil): the object reference and the name the
filter topic was created with (`get_name()`). -/
structure ContentFilteredTopic where
  ref : Ref
  name : String
  deriving DecidableEq, Repr

/-- `DDS::TopicDescription`: what a reader is bound to, the base topic or a
content-filter topic. -/
inductive TopicDescription
  | topic (t : Ref)
  | filtered (c : ContentFilteredTopic)
  deriving DecidableEq, Repr

/-- `DDS::DataReader_var` (non-nil): the object reference and the topic description the
reader was created on (`get_topicdescription()`). -/
structure DataReader where
  ref : Ref
  topicdescription : Option TopicDescription
  deriving DecidableEq, Repr

/-- `DDS::DomainParticipant_var` (non-nil): the object reference and the domain the
participant was created for (`get_domain_id()`). -/
structure DomainParticipant where
  ref : Ref
  domain_id : Int
  deriving DecidableEq, Repr

/-- `DDS::ContentFilteredTopic::_narrow`: nil unless the description is a filter topic. -/
def narrow : Option TopicDescription → Option ContentFilteredTopic
  | some (TopicDescription.filtered c) => some c
  | _ => none

/-- One call issued by the manager, as seen by the participant runtime, the transport
registry or a delivery worker.  A receiver or argument that may be nil is an `Option`.
Queries without effect (`get_topicdescription`, `get_name`, `get_domain_id`) are not
logged, except `get_name` when it is invoked through a nil topic handle. -/
inductive Event
  | create_participant (domainID : Int)
  | get_config (name : String)
  | create_config (name : String)
  | create_inst (name : String) (transportType : String)
  | bind_config (name : String) (participant : Ref)
  | get_name (topic : Option Ref)
  | create_subscriber (qos : SubscriberQos)
  | create_publisher (qos : PublisherQos)
  | create_contentfilteredtopic (name : String) (related : Option Ref) (expression : String)
      (params : List String)
  | create_datareader (subscriber : Ref) (desc : Option TopicDescription) (qos : DataReaderQos)
      (listener : Nat)
  | create_datawriter (publisher : Ref) (topic : Option Ref) (qos : DataWriterQos)
      (listener : Nat)
  | delete_contained_entities (reader : Option DataReader)
  | delete_datareader (subscriber : Ref) (reader : Option DataReader)
  | delete_datawriter (publisher : Ref) (writer : Ref)
  | delete_publisher (publisher : Ref)
  | delete_subscriber (subscriber : Ref)
  | delete_contentfilteredtopic (c : ContentFilteredTopic)
  | delete_topic (topic : Ref)
  | reader_set_qos (reader : DataReader) (qos : DataReaderQos)
  | writer_set_qos (writer : Ref) (qos : DataWriterQos)
  | publisher_set_qos (publisher : Ref) (qos : PublisherQos)
  | subscriber_set_qos (subscriber : Ref) (qos : SubscriberQos)
  | set_expression_parameters (c : ContentFilteredTopic) (params : List String)
  | emitter_stop (emitter : Nat)
  | emitter_setReader (emitter : Nat) (reader : DataReader)
  | emitter_run (emitter : Nat)
  deriving DecidableEq, Repr

/-- The participant runtime as the manager sees it.  `script` holds the return codes of
the next calls that can fail (a call past the end of the script succeeds); a create call
returns nil exactly when its code is not `RETCODE_OK`.  `next` is the next fresh object
reference and `log` lists the calls issued so far, oldest first.  `survivesNilCall` says
whether a method invoked through a nil handle returns (the C++ standard gives such a call no
meaning); when it does not, the run ends there. -/
structure Runtime where
  script : List ReturnCode
  next : Ref
  log : List Event
  survivesNilCall : Bool
  deriving DecidableEq, Repr

namespace Runtime

/-- Record a call that has no result the manager looks at. -/
def record (rt : Runtime) (e : Event) : Runtime :=
  { rt with log := rt.log ++ [e] }

/-- Record a call and take its return code from the script. -/
def call (rt : Runtime) (e : Event) : ReturnCode × Runtime :=
  match rt.script with
  | [] => (ReturnCode.RETCODE_OK, { rt with log := rt.log ++ [e] })
  | r :: rest => (r, { rt with script := rest, log := rt.log ++ [e] })

/-- Record a create call; on `RETCODE_OK` a fresh reference is returned, else nil. -/
def create (rt : Runtime) (e : Event) : Option Ref × Runtime :=
  match rt.script with
  | [] => (some rt.next, { rt with next := rt.next + 1, log := rt.log ++ [e] })
  | r :: rest =>
    if r = ReturnCode.RETCODE_OK then
      (some rt.next, { rt with script := rest, next := rt.next + 1, log := rt.log ++ [e] })
    else
      (none, { rt with script := rest, log := rt.log ++ [e] })

/-- `Subscriber::create_datareader`: the reader returned remembers the topic description
it was created on; no reader is created on a nil topic description. -/
def create_datareader (rt : Runtime) (subscriber : Ref) (desc : Option TopicDescription)
    (qos : DataReaderQos) (listener : Nat) : Option DataReader × Runtime :=
  match desc with
  | none => (none, (rt.call (Event.create_datareader subscriber none qos listener)).2)
  | some d =>
    match rt.create (Event.create_datareader subscriber (some d) qos listener) with
    | (none, rt1) => (none, rt1)
    | (some r, rt1) => (some { ref := r, topicdescription := some d }, rt1)

/-- `DomainParticipant::create_contentfilteredtopic`: the filter topic returned remembers
its name. -/
def create_contentfilteredtopic (rt : Runtime) (name : String) (related : Option Ref)
    (expression : String) (params : List String) : Option ContentFilteredTopic × Runtime :=
  match rt.create (Event.create_contentfilteredtopic name related expression params) with
  | (none, rt1) => (none, rt1)
  | (some r, rt1) => (some { ref := r, name := name }, rt1)

/-- A method invoked through a nil handle: logged, and the run goes on only in a runtime
that survives it.  The runtime never sees the call, so no return code is taken. -/
def nilCall (rt : Runtime) (e : Event) : Option Runtime :=
  if rt.survivesNilCall then some (rt.record e) else none

end Runtime

/-! ## String-keyed maps

`dds_manager.h` is not part of the sources; the maps of the manager (`m_topics`,
`readers`, `filteredTopics`, `emitters`, `m_readerListeners`) are used through
`find`, `operator[]`, `emplace`, `erase`, `empty`, `clear` and iteration only.  They are
kept as association lists in which a key occurs at most once as far as these operations
are concerned: lookups take the first entry of a key. -/

/-- `m.find(k)`: the value stored under `k`, or `none` for `end()`. -/
def mapFind {V : Type} (m : List (String × V)) (k : String) : Option V :=
  match m with
  | [] => none
  | (k1, v) :: rest => if k1 = k then some v else mapFind rest k

/-- `m[k] = v`: overwrite the entry of `k` in place, or add one. -/
def mapAssign {V : Type} (m : List (String × V)) (k : String) (v : V) : List (String × V) :=
  match m with
  | [] => [(k, v)]
  | (k1, v1) :: rest => if k1 = k then (k1, v) :: rest else (k1, v1) :: mapAssign rest k v

/-- `m.emplace(k, v)`: add the entry only when `k` is absent; an existing entry stays. -/
def mapEmplace {V : Type} (m : List (String × V)) (k : String) (v : V) : List (String × V) :=
  match mapFind m k with
  | some _ => m
  | none => m ++ [(k, v)]

/-- `m.erase(m.find(k))`: remove the entry of `k`. -/
def mapErase {V : Type} (m : List (String × V)) (k : String) : List (String × V) :=
  match m with
  | [] => []
  | (k1, v1) :: rest => if k1 = k then rest else (k1, v1) :: mapErase rest k

/-- The names stored in a map, in iteration order. -/
def mapKeys {V : Type} (m : List (String × V)) : List String :=
  m.map Prod.fst

/-! ## Manager state -/

/-- `GenericReaderListener`: the identity of the listener object and the handler it was
given by `SetHandler`. -/
structure GenericReaderListener where
  id : Nat
  handler : Option Nat
  deriving DecidableEq, Repr

/-- `GenericWriterListener`. -/
structure GenericWriterListener where
  id : Nat
  handler : Option Nat
  deriving DecidableEq, Repr

/-- `EmitterBase`, the delivery worker bound to one reader, as far as
`isRunning/stop/setReader/run` show it. -/
structure Emitter where
  id : Nat
  running : Bool
  reader : Option DataReader
  deriving DecidableEq, Repr

/-- `DDSManager::TopicGroup`: the fields the member functions of `dds_manager.cpp` use.
`qosPreset` is `-1` while no profile has been registered.  The maps hold non-nil values:
readers and filter topics are stored only after their nil checks (lines 693-705, 728-739,
1081-1103, 1140-1164), and the workers of `emitters` are stored by `addCallback`
(`dds_manager.h`, not under src/), taken to store a worker it has made. -/
structure TopicGroup where
  domain : Option Ref
  topic : Option Ref
  publisher : Option Ref
  subscriber : Option Ref
  writer : Option Ref
  qosPreset : Int
  topicQos : TopicQos
  dataReaderQos : DataReaderQos
  dataWriterQos : DataWriterQos
  pubQos : PublisherQos
  subQos : SubscriberQos
  readers : List (String × DataReader)
  filteredTopics : List (String × ContentFilteredTopic)
  emitters : List (String × Emitter)
  m_readerListeners : List (String × GenericReaderListener)
  m_writerListener : Option GenericWriterListener
  deriving DecidableEq, Repr

/-- The state of one `DDSManager`: the registry `m_topics` (a stored `shared_ptr` may be
null), the participant, the listener handlers, the join parameters, and `allocated`, the
identity given to the next listener object made by `std::make_unique`. -/
structure DDSManager where
  m_topics : List (String × Option TopicGroup)
  m_domainParticipant : Option DomainParticipant
  m_rlHandler : Option Nat
  m_wlHandler : Option Nat
  m_domainID : Int
  m_config : String
  m_monitor : Option Ref
  allocated : Nat
  deriving DecidableEq, Repr

/-- Store a group under `topicName`: writes made through the `shared_ptr<TopicGroup>`
taken from `m_topics[topicName]` are writes to the object held by the map. -/
def DDSManager.setGroup (m : DDSManager) (topicName : String) (g : TopicGroup) : DDSManager :=
  { m with m_topics := mapAssign m.m_topics topicName (some g) }

/-- Lines 677-742 of `createSubscriber`: the listener is made, the filter topic numbered
`0` is created when a filter was given, the reader is created on it or on the base topic,
and reader and listener are stored under the reader name. -/
def createNamedReader (m : DDSManager) (topicName readerName filter : String)
    (filterParams : List String) (topic subscriber : Ref) (g1 : TopicGroup) (rt1 : Runtime) :
    Option (Bool × DDSManager × Runtime) :=
  let readerListener : GenericReaderListener := { id := m.allocated, handler := m.m_rlHandler }
  let m1 : DDSManager := { m with allocated := m.allocated + 1 }
  if filter ≠ "" then
    -- Create a new filtered topic if requested
    let filterName := topicName ++ "_" ++ readerName ++ "_0"
    match m.m_domainParticipant with
    | none => none
    | some _ =>
      match rt1.create_contentfilteredtopic filterName (some topic) filter filterParams with
      | (none, rt2) => some (false, m1.setGroup topicName g1, rt2)
      | (some filteredTopic, rt2) =>
        let g2 : TopicGroup :=
          { g1 with filteredTopics := mapAssign g1.filteredTopics filterName filteredTopic }
        match rt2.create_datareader subscriber (some (TopicDescription.filtered filteredTopic))
            g2.dataReaderQos readerListener.id with
        | (none, rt3) => some (false, m1.setGroup topicName g2, rt3)
        | (some reader, rt3) =>
          -- Store the data reader with the reference name
          let g3 : TopicGroup :=
            { g2 with
              readers := mapAssign g2.readers readerName reader,
              m_readerListeners := mapEmplace g2.m_readerListeners readerName readerListener }
          some (true, m1.setGroup topicName g3, rt3)
  else
    match rt1.create_datareader subscriber (some (TopicDescription.topic topic))
        g1.dataReaderQos readerListener.id with
    | (none, rt3) => some (false, m1.setGroup topicName g1, rt3)
    | (some reader, rt3) =>
      -- Store the data reader with the reference name
      let g3 : TopicGroup :=
        { g1 with
          readers := mapAssign g1.readers readerName reader,
          m_readerListeners := mapEmplace g1.m_readerListeners readerName readerListener }
      some (true, m1.setGroup topicName g3, rt3)

/-- `DDSManager::createSubscriber` (dds_manager.cpp 618-744). -/
def createSubscriber (m : DDSManager) (rt : Runtime) (topicName readerName filter : String)
    (filterParams : List String) : Option (Bool × DDSManager × Runtime) :=
  -- Make sure the data reader name is valid
  if readerName = "" then some (false, m, rt) else
  -- Make sure this topic has been registered
  match mapFind m.m_topics topicName with
  | none => some (false, m, rt)
  | some none => some (false, m, rt)
  | some (some topicGroup) =>
    match topicGroup.topic with
    | none => some (false, m, rt)
    | some topic =>
      match mapFind topicGroup.m_readerListeners readerName with
      | some _ => some (false, m, rt)
      | none =>
        -- Create the subscriber if we don't already have one
        match topicGroup.subscriber with
        | some subscriber =>
          createNamedReader m topicName readerName filter filterParams topic subscriber
            topicGroup rt
        | none =>
          match m.m_domainParticipant with
          | none => none
          | some _ =>
            match rt.create (Event.create_subscriber topicGroup.subQos) with
            | (none, rt1) => some (false, m, rt1)
            | (some subscriber, rt1) =>
              createNamedReader m topicName readerName filter filterParams topic subscriber
                { topicGroup with subscriber := some subscriber } rt1

/-! ## QoS profiles -/

/-- Modelled from the spec: `qos_dictionary.h` is not under src/.  It is the "QoS Profile
Table", a pure lookup from a profile to the QoS value of each entity kind; the entries are
the ones `dds_manager.cpp` reads (`QosDictionary::Topic::latestReliable()`, ...). -/
structure QosDictionary where
  Topic_latestReliableTransient : TopicQos
  Topic_latestReliable : TopicQos
  Topic_strictReliable : TopicQos
  Topic_bestEffort : TopicQos
  DataReader_latestReliableTransient : DataReaderQos
  DataReader_latestReliable : DataReaderQos
  DataReader_strictReliable : DataReaderQos
  DataReader_bestEffort : DataReaderQos
  DataWriter_latestReliableTransient : DataWriterQos
  DataWriter_latestReliable : DataWriterQos
  DataWriter_strictReliable : DataWriterQos
  DataWriter_bestEffort : DataWriterQos
  Publisher_defaultQos : PublisherQos
  Subscriber_defaultQos : SubscriberQos
  deriving DecidableEq, Repr

/-- Modelled from the spec: `std_qos.idl` (`STD_QOS::QosType`) is not under src/.  A value
of the enumeration is its number, as printed by `static_cast<uint32_t>(qosType)`; the
four profile ids are numbered from zero in the order of the `switch` of `registerQos`. -/
abbrev QosType := Nat

/-- `STD_QOS::QosType::LATEST_RELIABLE_TRANSIENT`. -/
def LATEST_RELIABLE_TRANSIENT : QosType := 0

/-- `STD_QOS::QosType::LATEST_RELIABLE`. -/
def LATEST_RELIABLE : QosType := 1

/-- `STD_QOS::QosType::STRICT_RELIABLE`. -/
def STRICT_RELIABLE : QosType := 2

/-- `STD_QOS::QosType::BEST_EFFORT`. -/
def BEST_EFFORT : QosType := 3

/-- `DDSManager::TopicGroup::TopicGroup()` (dds_manager.cpp 1607-1620). -/
def TopicGroup.new (qd : QosDictionary) : TopicGroup :=
  { domain := none, topic := none, publisher := none, subscriber := none, writer := none,
    qosPreset := -1,
    topicQos := qd.Topic_latestReliableTransient,
    dataReaderQos := qd.DataReader_latestReliableTransient,
    dataWriterQos := qd.DataWriter_latestReliableTransient,
    pubQos := qd.Publisher_defaultQos,
    subQos := qd.Subscriber_defaultQos,
    readers := [], filteredTopics := [], emitters := [], m_readerListeners := [],
    m_writerListener := none }

/-- The first lines of every QoS setter: `if (m_topics.find(topicName) == m_topics.end())
m_topics[topicName] = std::make_shared<TopicGroup>();`. -/
def ensureGroup (qd : QosDictionary) (m : DDSManager) (topicName : String) : DDSManager :=
  match mapFind m.m_topics topicName with
  | none => m.setGroup topicName (TopicGroup.new qd)
  | some _ => m

/-- `DDSManager::setTopicQos` (dds_manager.cpp 1455-1465): stores the value; no call into
the runtime is made. -/
def setTopicQos (qd : QosDictionary) (m : DDSManager) (topicName : String) (qos : TopicQos) :
    Option DDSManager :=
  let m1 := ensureGroup qd m topicName
  match mapFind m1.m_topics topicName with
  | some (some g) => some (m1.setGroup topicName { g with topicQos := qos })
  | _ => none

/-- `DDSManager::setPublisherQos` (dds_manager.cpp 1484-1499). -/
def setPublisherQos (qd : QosDictionary) (m : DDSManager) (rt : Runtime) (topicName : String)
    (qos : PublisherQos) : Option (DDSManager × Runtime) :=
  let m1 := ensureGroup qd m topicName
  match mapFind m1.m_topics topicName with
  | some (some g) =>
    let rt1 :=
      match g.publisher with
      | some p => (rt.call (Event.publisher_set_qos p qos)).2
      | none => rt
    some (m1.setGroup topicName { g with pubQos := qos }, rt1)
  | _ => none

/-- `DDSManager::setSubscriberQos` (dds_manager.cpp 1518-1533). -/
def setSubscriberQos (qd : QosDictionary) (m : DDSManager) (rt : Runtime) (topicName : String)
    (qos : SubscriberQos) : Option (DDSManager × Runtime) :=
  let m1 := ensureGroup qd m topicName
  match mapFind m1.m_topics topicName with
  | some (some g) =>
    let rt1 :=
      match g.subscriber with
      | some sb => (rt.call (Event.subscriber_set_qos sb qos)).2
      | none => rt
    some (m1.setGroup topicName { g with subQos := qos }, rt1)
  | _ => none

/-- `DDSManager::setWriterQos` (dds_manager.cpp 1552-1567). -/
def setWriterQos (qd : QosDictionary) (m : DDSManager) (rt : Runtime) (topicName : String)
    (qos : DataWriterQos) : Option (DDSManager × Runtime) :=
  let m1 := ensureGroup qd m topicName
  match mapFind m1.m_topics topicName with
  | some (some g) =>
    let rt1 :=
      match g.writer with
      | some w => (rt.call (Event.writer_set_qos w qos)).2
      | none => rt
    some (m1.setGroup topicName { g with dataWriterQos := qos }, rt1)
  | _ => none

/-- The loop of `setReaderQos` over `readers`: `iter->second->set_qos(qos)`, the return
code is not looked at. -/
def setReaderQosLoop (qos : DataReaderQos) : List (String × DataReader) → Runtime → Runtime
  | [], rt => rt
  | (_, r) :: rest, rt => setReaderQosLoop qos rest (rt.call (Event.reader_set_qos r qos)).2

/-- `DDSManager::setReaderQos` (dds_manager.cpp 1586-1603). -/
def setReaderQos (qd : QosDictionary) (m : DDSManager) (rt : Runtime) (topicName : String)
    (qos : DataReaderQos) : Option (DDSManager × Runtime) :=
  let m1 := ensureGroup qd m topicName
  match mapFind m1.m_topics topicName with
  | some (some g) =>
    some (m1.setGroup topicName { g with dataReaderQos := qos },
      setReaderQosLoop qos g.readers rt)
  | _ => none

/-- One `case` of the `switch` in `registerQos`: the three setter calls in source order. -/
def applyPreset (qd : QosDictionary) (m : DDSManager) (rt : Runtime) (topicName : String)
    (tq : TopicQos) (rq : DataReaderQos) (wq : DataWriterQos) : Option (DDSManager × Runtime) :=
  match setTopicQos qd m topicName tq with
  | none => none
  | some m1 =>
    match setReaderQos qd m1 rt topicName rq with
    | none => none
    | some (m2, rt2) => setWriterQos qd m2 rt2 topicName wq

/-- `DDSManager::registerQos` (dds_manager.cpp 489-552). -/
def registerQos (qd : QosDictionary) (m : DDSManager) (rt : Runtime) (topicName : String)
    (qosType : QosType) : Option (Bool × DDSManager × Runtime) :=
  -- Make sure the topic has been created
  match mapFind m.m_topics topicName with
  | none => some (false, m, rt)
  | some none => none
  | some (some topicGroup) =>
    -- If the QoS is already registered, we're done
    if topicGroup.qosPreset ≠ -1 then some (true, m, rt) else
    -- Apply the QoS preset; the outer `none` is the `default:` label
    let applied : Option (Option (DDSManager × Runtime)) :=
      if qosType = LATEST_RELIABLE_TRANSIENT then
        some (applyPreset qd m rt topicName qd.Topic_latestReliableTransient
          qd.DataReader_latestReliableTransient qd.DataWriter_latestReliableTransient)
      else if qosType = LATEST_RELIABLE then
        some (applyPreset qd m rt topicName qd.Topic_latestReliable
          qd.DataReader_latestReliable qd.DataWriter_latestReliable)
      else if qosType = STRICT_RELIABLE then
        some (applyPreset qd m rt topicName qd.Topic_strictReliable
          qd.DataReader_strictReliable qd.DataWriter_strictReliable)
      else if qosType = BEST_EFFORT then
        some (applyPreset qd m rt topicName qd.Topic_bestEffort
          qd.DataReader_bestEffort qd.DataWriter_bestEffort)
      else none
    match applied with
    | none => some (false, m, rt)
    | some none => none
    | some (some (m1, rt1)) =>
      -- topicGroup->qosPreset = static_cast<int>(qosType), through the pointer taken above
      match mapFind m1.m_topics topicName with
      | some (some g1) =>
        some (true, m1.setGroup topicName { g1 with qosPreset := (qosType : Int) }, rt1)
      | _ => none

/-! ## Publisher creation and lookups -/

/-- `DDSManager::createPublisher` (dds_manager.cpp 748-821). -/
def createPublisher (m : DDSManager) (rt : Runtime) (topicName : String) :
    Option (Bool × DDSManager × Runtime) :=
  -- Make sure this topic has been registered
  match mapFind m.m_topics topicName with
  | none => some (false, m, rt)
  | some none => some (false, m, rt)
  | some (some topicGroup) =>
    match topicGroup.topic with
    | none => some (false, m, rt)
    | some topic =>
      -- Create the publisher if one does not already exist
      match topicGroup.publisher with
      | some _ => some (true, m, rt)
      | none =>
        match m.m_domainParticipant with
        | none => none
        | some _ =>
          match rt.create (Event.create_publisher topicGroup.pubQos) with
          | (none, rt1) =>
            some (false, m.setGroup topicName { topicGroup with publisher := none }, rt1)
          | (some publisher, rt1) =>
            let g1 : TopicGroup := { topicGroup with publisher := some publisher }
            -- Create the data writer
            let writerListener : GenericWriterListener := { id := m.allocated, handler := none }
            let m1 : DDSManager := { m with allocated := m.allocated + 1 }
            match rt1.create (Event.create_datawriter publisher (some topic) g1.dataWriterQos
                writerListener.id) with
            | (none, rt2) =>
              some (false, m1.setGroup topicName { g1 with writer := none }, rt2)
            | (some writer, rt2) =>
              let g2 : TopicGroup :=
                { g1 with
                  writer := some writer,
                  m_writerListener := some { writerListener with handler := m.m_wlHandler } }
              some (true, m1.setGroup topicName g2, rt2)

/-- `DDSManager::getReader` (dds_manager.cpp 1322-1355). -/
def getReader (m : DDSManager) (topicName readerName : String) : Option DataReader :=
  if readerName = "" then none else
  match mapFind m.m_topics topicName with
  | none => none
  | some none => none
  | some (some g) =>
    if g.readers = [] then none else
    mapFind g.readers readerName

/-- `DDSManager::getWriter` (dds_manager.cpp 1381-1406). -/
def getWriter (m : DDSManager) (topicName : String) : Option Ref :=
  match mapFind m.m_topics topicName with
  | none => none
  | some none => none
  | some (some g) => g.writer

/-- `DDSManager::getPublisher` (dds_manager.cpp 1410-1421); the outer `none` is the
dereference of a null group. -/
def getPublisher (m : DDSManager) (topicName : String) : Option (Option Ref) :=
  match mapFind m.m_topics topicName with
  | none => some none
  | some none => none
  | some (some g) => some g.publisher

/-- `DDSManager::getSubscriber` (dds_manager.cpp 1425-1436); the outer `none` is the
dereference of a null group. -/
def getSubscriber (m : DDSManager) (topicName : String) : Option (Option Ref) :=
  match mapFind m.m_topics topicName with
  | none => some none
  | some none => none
  | some (some g) => some g.subscriber

/-- `DDSManager::getReaderQos` (dds_manager.cpp 1571-1582); the outer `none` is the
dereference of a null group. -/
def getReaderQos (qd : QosDictionary) (m : DDSManager) (topicName : String) :
    Option DataReaderQos :=
  match mapFind m.m_topics topicName with
  | none => some qd.DataReader_latestReliableTransient
  | some none => none
  | some (some g) => some g.dataReaderQos

/-- `DDSManager::getTopicQos` (dds_manager.cpp 1440-1451); the outer `none` is the
dereference of a null group. -/
def getTopicQos (qd : QosDictionary) (m : DDSManager) (topicName : String) : Option TopicQos :=
  match mapFind m.m_topics topicName with
  | none => some qd.Topic_latestReliableTransient
  | some none => none
  | some (some g) => some g.topicQos

/-- `DDSManager::getPublisherQos` (dds_manager.cpp 1469-1480); the outer `none` is the
dereference of a null group. -/
def getPublisherQos (qd : QosDictionary) (m : DDSManager) (topicName : String) :
    Option PublisherQos :=
  match mapFind m.m_topics topicName with
  | none => some qd.Publisher_defaultQos
  | some none => none
  | some (some g) => some g.pubQos

/-- `DDSManager::getSubscriberQos` (dds_manager.cpp 1503-1514); the outer `none` is the
dereference of a null group. -/
def getSubscriberQos (qd : QosDictionary) (m : DDSManager) (topicName : String) :
    Option SubscriberQos :=
  match mapFind m.m_topics topicName with
  | none => some qd.Subscriber_defaultQos
  | some none => none
  | some (some g) => some g.subQos

/-- `DDSManager::getWriterQos` (dds_manager.cpp 1537-1548); the outer `none` is the
dereference of a null group. -/
def getWriterQos (qd : QosDictionary) (m : DDSManager) (topicName : String) :
    Option DataWriterQos :=
  match mapFind m.m_topics topicName with
  | none => some qd.DataWriter_latestReliableTransient
  | some none => none
  | some (some g) => some g.dataWriterQos

/-! ## Filter replacement -/

/-- The character of a decimal digit. -/
def digitChar (d : Nat) : Char :=
  match d with
  | 0 => '0'
  | 1 => '1'
  | 2 => '2'
  | 3 => '3'
  | 4 => '4'
  | 5 => '5'
  | 6 => '6'
  | 7 => '7'
  | 8 => '8'
  | _ => '9'

/-- The decimal digits of a natural number, most significant first; `fuel` bounds the
number of digits. -/
def natDigitsAux : Nat → Nat → List Char
  | 0, _ => []
  | fuel + 1, n =>
    if n < 10 then [digitChar n]
    else natDigitsAux fuel (n / 10) ++ [digitChar (n % 10)]

/-- The decimal digits of a natural number. -/
def natDigits (n : Nat) : List Char :=
  natDigitsAux (n + 1) n

/-- `std::to_string(int)`. -/
def to_string (i : Int) : String :=
  match i with
  | Int.ofNat n => String.mk (natDigits n)
  | Int.negSucc n => String.mk ('-' :: natDigits (n + 1))

/-- The range of a C++ `int` (32 bits). -/
def inIntRange (i : Int) : Prop :=
  -2147483648 ≤ i ∧ i ≤ 2147483647

instance (i : Int) : Decidable (inIntRange i) := by
  unfold inIntRange
  exact instDecidableAnd

/-- `isspace` of the C locale. -/
def isspace (c : Char) : Bool :=
  c = ' ' || c = '\t' || c = '\n' || c = Char.ofNat 11 || c = Char.ofNat 12 || c = '\r'

/-- The value of a run of decimal digits. -/
def digitsValue (ds : List Char) : Nat :=
  ds.foldl (fun acc c => 10 * acc + (c.toNat - 48)) 0

/-- The optional sign read by `std::stoi`: whether it is a minus, and what follows. -/
def readSign (cs : List Char) : Bool × List Char :=
  match cs with
  | [] => (false, [])
  | c :: r => if c = '-' then (true, r) else if c = '+' then (false, r) else (false, c :: r)

/-- `std::stoi(str)`: leading white space, an optional sign, then as many decimal digits
as follow.  `none` when it throws (`invalid_argument` without a digit, `out_of_range` when
the value is not an `int`). -/
def stoi (str : String) : Option Int :=
  let cs := str.data.dropWhile isspace
  let signed := readSign cs
  let ds := signed.2.takeWhile Char.isDigit
  if ds = [] then none
  else
    let v : Int := digitsValue ds
    let r : Int := if signed.1 then -v else v
    if inIntRange r then some r else none

/-- `name.substr(name.find_last_of("_") + 1)`: what follows the last underscore, the whole
string when there is none (`npos + 1` is `0`). -/
def afterLastUnderscore (name : String) : String :=
  String.mk (name.data.reverse.takeWhile (fun c => c ≠ '_')).reverse

/-- A value stored in a C++ `int`: 32 bits, two's complement.  The increments of the
sources are formed in `int`; past `INT_MAX` the stored value wraps around (the C++ standard
leaves the overflow undefined, the compilers the project is built with wrap). -/
def wrapInt32 (x : Int) : Int :=
  (x + 2147483648) % 4294967296 - 2147483648

/-- Lines 1059-1066 of `replaceFilter`: `counter` starts at `0`, is replaced by the number
parsed off the previous filter name when there is one, and is incremented.  `none` when
`std::stoi` throws. -/
def nextCounter (existingFilterName : String) : Option Int :=
  let parsed : Option Int :=
    if existingFilterName ≠ "" then stoi (afterLastUnderscore existingFilterName) else some 0
  match parsed with
  | none => none
  | some counter => some (wrapInt32 (counter + 1))

/-- Lines 1024-1045 of `replaceFilter`: the first entry of `filteredTopics` that holds the
reader's filter topic is deleted from the runtime and, when the runtime reports
`RETCODE_OK`, erased from the map. -/
def deleteFilteredTopic (topicDesc : ContentFilteredTopic) :
    List (String × ContentFilteredTopic) → Runtime →
      List (String × ContentFilteredTopic) × Runtime
  | [], rt => ([], rt)
  | (k, v) :: rest, rt =>
    if v.ref ≠ topicDesc.ref then
      ((k, v) :: (deleteFilteredTopic topicDesc rest rt).1,
        (deleteFilteredTopic topicDesc rest rt).2)
    else
      match rt.call (Event.delete_contentfilteredtopic topicDesc) with
      | (ReturnCode.RETCODE_OK, rt1) => (rest, rt1)
      | (_, rt1) => ((k, v) :: rest, rt1)

/-- Lines 981-992 of `replaceFilter`: the delivery worker bound to the reader, if there is
one, is stopped when it is running. -/
def stopEmitter (topicGroup : TopicGroup) (rt : Runtime) (readerName : String) :
    Option Emitter × TopicGroup × Runtime :=
  match mapFind topicGroup.emitters readerName with
  | none => (none, topicGroup, rt)
  | some e =>
    if e.running then
      let e1 : Emitter := { e with running := false }
      let g : TopicGroup :=
        { topicGroup with emitters := mapAssign topicGroup.emitters readerName e1 }
      (some e1, g, rt.record (Event.emitter_stop e.id))
    else (some e, topicGroup, rt)

/-- Lines 1016-1046 of `replaceFilter`: the name of the old filter topic is remembered and
the filter topic is deleted, when the old reader had one and the participant exists. -/
def removeOldFilter (m : DDSManager) (topicDesc : Option ContentFilteredTopic)
    (g : TopicGroup) (rt : Runtime) : String × TopicGroup × Runtime :=
  match topicDesc, m.m_domainParticipant with
  | some c, some _ =>
    let r := deleteFilteredTopic c g.filteredTopics rt
    (c.name, { g with filteredTopics := r.1 }, r.2)
  | _, _ => ("", g, rt)

/-- Lines 1114-1174 of `replaceFilter`: a listener is made and emplaced under the reader
name, the new reader is created with the listener found under that name, stored under the
same name, and the delivery worker is restarted on it. -/
def createReplacementReader (m : DDSManager) (topicName readerName : String)
    (subscriber : Ref) (emitter : Option Emitter) (targetTopic : Option TopicDescription)
    (g2 : TopicGroup) (rt5 : Runtime) : Option (Bool × DDSManager × Runtime) :=
  let readerListener : GenericReaderListener := { id := m.allocated, handler := m.m_rlHandler }
  let m1 : DDSManager := { m with allocated := m.allocated + 1 }
  let listeners := mapEmplace g2.m_readerListeners readerName readerListener
  let g3 : TopicGroup := { g2 with m_readerListeners := listeners }
  match mapFind listeners readerName with
  | none => none
  | some attached =>
    match rt5.create_datareader subscriber targetTopic g3.dataReaderQos attached.id with
    | (none, rt6) => some (false, m1.setGroup topicName g3, rt6)
    | (some newReader, rt6) =>
      -- Store the data reader with the reference name
      let g4 : TopicGroup :=
        { g3 with readers := mapAssign g3.readers readerName newReader }
      -- Restart the emitter thread with the new reader if it existed
      match emitter with
      | none => some (true, m1.setGroup topicName g4, rt6)
      | some e =>
        let e1 : Emitter := { e with reader := some newReader, running := true }
        let g5 : TopicGroup :=
          { g4 with emitters := mapAssign g4.emitters readerName e1 }
        some (true, m1.setGroup topicName g5,
          (rt6.record (Event.emitter_setReader e.id newReader)).record (Event.emitter_run e.id))

/-- Lines 1049-1112 of `replaceFilter`, reached with a nil reader handle: the repeated
deletion calls, then the new filter topic when a filter was given, and the new reader. -/
def rebuildReader (m : DDSManager) (topicName readerName filter : String)
    (subscriber : Ref) (emitter : Option Emitter) (existingFilterName : String)
    (g1 : TopicGroup) (rt2 : Runtime) : Option (Bool × DDSManager × Runtime) :=
  -- dataReader->delete_contained_entities(); subscriber->delete_datareader(dataReader);
  match rt2.nilCall (Event.delete_contained_entities none) with
  | none => none
  | some rt3 =>
    let rt4 := (rt3.call (Event.delete_datareader subscriber none)).2
    -- Create a new filtered topic if requested
    if filter ≠ "" then
      match nextCounter existingFilterName with
      | none => none
      | some counter =>
        let filterName := topicName ++ "_" ++ readerName ++ "_" ++ to_string counter
        match m.m_domainParticipant with
        | none => none
        | some _ =>
          match rt4.create_contentfilteredtopic filterName g1.topic filter [] with
          | (none, rt5) => some (false, m.setGroup topicName g1, rt5)
          | (some filteredTopic, rt5) =>
            let g2 : TopicGroup :=
              { g1 with filteredTopics :=
                  mapAssign g1.filteredTopics filterName filteredTopic }
            createReplacementReader m topicName readerName subscriber emitter
              (some (TopicDescription.filtered filteredTopic)) g2 rt5
    else
      -- If we're not creating a filtered topic, use the non-filtered topic
      createReplacementReader m topicName readerName subscriber emitter
        (g1.topic.map TopicDescription.topic) g1 rt4

/-- `DDSManager::replaceFilter` (dds_manager.cpp 929-1176).  Line 1009 sets the local
reader handle to nil, so the call of line 1050 goes through a nil handle and line 1051
passes nil to the subscriber. -/
def replaceFilter (m : DDSManager) (rt : Runtime) (topicName readerName filter : String) :
    Option (Bool × DDSManager × Runtime) :=
  -- Make sure the data reader name is valid
  if readerName = "" then some (false, m, rt) else
  -- Has the subscriber already been registered?
  match getSubscriber m topicName with
  | none => none
  | some none => some (false, m, rt)
  | some (some subscriber) =>
    -- Make sure this data reader exists
    match getReader m topicName readerName with
    | none => some (false, m, rt)
    | some dataReader =>
      match mapFind m.m_topics topicName with
      | none => none
      | some none => none
      | some (some topicGroup) =>
        match mapFind topicGroup.m_readerListeners readerName with
        | none => some (false, m, rt)
        | some _ =>
          -- Stop the emitter if it exists (exists for callbacks)
          match stopEmitter topicGroup rt readerName with
          | (emitter, g0, rt0) =>
            let topicDesc := narrow dataReader.topicdescription
            -- delete the contained entities, then the reader
            match rt0.call (Event.delete_contained_entities (some dataReader)) with
            | (ReturnCode.RETCODE_OK, rt1) =>
              match rt1.call (Event.delete_datareader subscriber (some dataReader)) with
              | (ReturnCode.RETCODE_OK, rt2) =>
                -- Remove this content filtered topic from the domain if it exists
                let removed := removeOldFilter m topicDesc g0 rt2
                rebuildReader m topicName readerName filter subscriber emitter removed.1
                  removed.2.1 removed.2.2
              | (_, rt2) => some (false, m.setGroup topicName g0, rt2)
            | (_, rt1) => some (false, m.setGroup topicName g0, rt1)

/-- How a run of `replaceFilter` ends: the value returned, `none` when the run ends without
returning (a call through a nil handle that is not survived, the dereference of a null
group or participant, an exception of `std::stoi`), and the registry and the runtime as the
run leaves them.  The log of the runtime lists the calls issued up to that point. -/
structure RunEnd where
  returned : Option Bool
  manager : DDSManager
  runtime : Runtime

/-- What the caller of a run gets: the value returned with the state left, nothing when
the run did not return. -/
def RunEnd.result (r : RunEnd) : Option (Bool × DDSManager × Runtime) :=
  r.returned.map (fun b => (b, r.manager, r.runtime))

/-- Lines 1114-1174 of `replaceFilter` as a run: `createReplacementReader` with the state
at the point where the run ends. -/
def createReplacementReaderRun (m : DDSManager) (topicName readerName : String)
    (subscriber : Ref) (emitter : Option Emitter) (targetTopic : Option TopicDescription)
    (g2 : TopicGroup) (rt5 : Runtime) : RunEnd :=
  let readerListener : GenericReaderListener := { id := m.allocated, handler := m.m_rlHandler }
  let m1 : DDSManager := { m with allocated := m.allocated + 1 }
  let listeners := mapEmplace g2.m_readerListeners readerName readerListener
  let g3 : TopicGroup := { g2 with m_readerListeners := listeners }
  match mapFind listeners readerName with
  | none => { returned := none, manager := m1.setGroup topicName g3, runtime := rt5 }
  | some attached =>
    match rt5.create_datareader subscriber targetTopic g3.dataReaderQos attached.id with
    | (none, rt6) =>
      { returned := some false, manager := m1.setGroup topicName g3, runtime := rt6 }
    | (some newReader, rt6) =>
      -- Store the data reader with the reference name
      let g4 : TopicGroup :=
        { g3 with readers := mapAssign g3.readers readerName newReader }
      -- Restart the emitter thread with the new reader if it existed
      match emitter with
      | none => { returned := some true, manager := m1.setGroup topicName g4, runtime := rt6 }
      | some e =>
        let e1 : Emitter := { e with reader := some newReader, running := true }
        let g5 : TopicGroup :=
          { g4 with emitters := mapAssign g4.emitters readerName e1 }
        { returned := some true, manager := m1.setGroup topicName g5,
          runtime :=
            (rt6.record (Event.emitter_setReader e.id newReader)).record
              (Event.emitter_run e.id) }

/-- Lines 1049-1112 of `replaceFilter` as a run: `rebuildReader` with the state at the
point where the run ends.  When the call of line 1050 through the nil reader handle is not
survived, the run ends there, before any creation. -/
def rebuildReaderRun (m : DDSManager) (topicName readerName filter : String)
    (subscriber : Ref) (emitter : Option Emitter) (existingFilterName : String)
    (g1 : TopicGroup) (rt2 : Runtime) : RunEnd :=
  -- dataReader->delete_contained_entities(); subscriber->delete_datareader(dataReader);
  match rt2.nilCall (Event.delete_contained_entities none) with
  | none => { returned := none, manager := m.setGroup topicName g1, runtime := rt2 }
  | some rt3 =>
    let rt4 := (rt3.call (Event.delete_datareader subscriber none)).2
    -- Create a new filtered topic if requested
    if filter ≠ "" then
      match nextCounter existingFilterName with
      | none => { returned := none, manager := m.setGroup topicName g1, runtime := rt4 }
      | some counter =>
        let filterName := topicName ++ "_" ++ readerName ++ "_" ++ to_string counter
        match m.m_domainParticipant with
        | none => { returned := none, manager := m.setGroup topicName g1, runtime := rt4 }
        | some _ =>
          match rt4.create_contentfilteredtopic filterName g1.topic filter [] with
          | (none, rt5) =>
            { returned := some false, manager := m.setGroup topicName g1, runtime := rt5 }
          | (some filteredTopic, rt5) =>
            let g2 : TopicGroup :=
              { g1 with filteredTopics :=
                  mapAssign g1.filteredTopics filterName filteredTopic }
            createReplacementReaderRun m topicName readerName subscriber emitter
              (some (TopicDescription.filtered filteredTopic)) g2 rt5
    else
      -- If we're not creating a filtered topic, use the non-filtered topic
      createReplacementReaderRun m topicName readerName subscriber emitter
        (g1.topic.map TopicDescription.topic) g1 rt4

/-- `DDSManager::replaceFilter` (dds_manager.cpp 929-1176) as a run: the same steps as
`replaceFilter`, with the state at the point where the run ends also when it does not
return. -/
def replaceFilterRun (m : DDSManager) (rt : Runtime) (topicName readerName filter : String) :
    RunEnd :=
  -- Make sure the data reader name is valid
  if readerName = "" then { returned := some false, manager := m, runtime := rt } else
  -- Has the subscriber already been registered?
  match getSubscriber m topicName with
  | none => { returned := none, manager := m, runtime := rt }
  | some none => { returned := some false, manager := m, runtime := rt }
  | some (some subscriber) =>
    -- Make sure this data reader exists
    match getReader m topicName readerName with
    | none => { returned := some false, manager := m, runtime := rt }
    | some dataReader =>
      match mapFind m.m_topics topicName with
      | none => { returned := none, manager := m, runtime := rt }
      | some none => { returned := none, manager := m, runtime := rt }
      | some (some topicGroup) =>
        match mapFind topicGroup.m_readerListeners readerName with
        | none => { returned := some false, manager := m, runtime := rt }
        | some _ =>
          -- Stop the emitter if it exists (exists for callbacks)
          match stopEmitter topicGroup rt readerName with
          | (emitter, g0, rt0) =>
            let topicDesc := narrow dataReader.topicdescription
            -- delete the contained entities, then the reader
            match rt0.call (Event.delete_contained_entities (some dataReader)) with
            | (ReturnCode.RETCODE_OK, rt1) =>
              match rt1.call (Event.delete_datareader subscriber (some dataReader)) with
              | (ReturnCode.RETCODE_OK, rt2) =>
                -- Remove this content filtered topic from the domain if it exists
                let removed := removeOldFilter m topicDesc g0 rt2
                rebuildReaderRun m topicName readerName filter subscriber emitter removed.1
                  removed.2.1 removed.2.2
              | (_, rt2) =>
                { returned := some false, manager := m.setGroup topicName g0, runtime := rt2 }
            | (_, rt1) =>
              { returned := some false, manager := m.setGroup topicName g0, runtime := rt1 }

/-- Lines 1233-1245 of `replaceFilterParams`: the first entry of `filteredTopics` that
holds the reader's filter topic is given the new parameters; the status is true when the
runtime reports `RETCODE_OK`, and no later entry is looked at. -/
def updateParameters (topicDesc : ContentFilteredTopic) (filterParams : List String) :
    List (String × ContentFilteredTopic) → Runtime → Bool × Runtime
  | [], rt => (false, rt)
  | (_, v) :: rest, rt =>
    if v.ref ≠ topicDesc.ref then updateParameters topicDesc filterParams rest rt
    else
      match rt.call (Event.set_expression_parameters v filterParams) with
      | (ReturnCode.RETCODE_OK, rt1) => (true, rt1)
      | (_, rt1) => (false, rt1)

/-- `DDSManager::replaceFilterParams` (dds_manager.cpp 1178-1248). -/
def replaceFilterParams (m : DDSManager) (rt : Runtime) (topicName readerName : String)
    (filterParams : List String) : Option (Bool × DDSManager × Runtime) :=
  -- Make sure the data reader name is valid
  if readerName = "" then some (false, m, rt) else
  -- Has the subscriber already been registered?
  match getSubscriber m topicName with
  | none => none
  | some none => some (false, m, rt)
  | some (some _) =>
    -- Make sure this data reader exists
    match getReader m topicName readerName with
    | none => some (false, m, rt)
    | some dataReader =>
      -- Get the ContentFilteredTopic
      match mapFind m.m_topics topicName with
      | none => none
      | some none => none
      | some (some topicGroup) =>
        -- Update this content filtered topic if it exists
        match narrow dataReader.topicdescription with
        | none => some (false, m, rt)
        | some topicDesc =>
          let r := updateParameters topicDesc filterParams topicGroup.filteredTopics rt
          some (r.1, m, r.2)

/-- The value stored in a `CORBA::ULong` (32 bits) when an `int` is assigned to it. -/
def toULong (x : Int) : Nat :=
  (x % 4294967296).toNat

/-- `DDSManager::setMaxDataRate` (dds_manager.cpp 1252-1296).  The product
`rate * 1000000` is formed in `int` and assigned to the `unsigned long` field `nanosec`;
the return code of `set_qos` is not looked at. -/
def setMaxDataRate (qd : QosDictionary) (m : DDSManager) (rt : Runtime)
    (topicName readerName : String) (rate : Int) : Option (Bool × DDSManager × Runtime) :=
  if rate < 1 then some (false, m, rt) else
  -- Make sure the data reader was created
  match getReader m topicName readerName with
  | none => some (false, m, rt)
  | some reader =>
    -- Create a time based filter for this data reader
    match getReaderQos qd m topicName with
    | none => none
    | some qos =>
      let qos1 : DataReaderQos :=
        { qos with
          minimum_separation := { sec := 0, nanosec := toULong (wrapInt32 (rate * 1000000)) } }
      -- Apply the time based filter ONLY to the specified data reader
      some (true, m, (rt.call (Event.reader_set_qos reader qos1)).2)

/-! ## Teardown -/

/-- The reader loop of `~TopicGroup` (dds_manager.cpp 1628-1639):
`subscriber->delete_datareader(iter->second)` for every entry; a refusal is only logged. -/
def deleteReaders (subscriber : Ref) : List (String × DataReader) → Runtime → Runtime
  | [], rt => rt
  | (_, r) :: rest, rt =>
    deleteReaders subscriber rest (rt.call (Event.delete_datareader subscriber (some r))).2

/-- The worker loop of `~TopicGroup` (dds_manager.cpp 1678-1682): `emiter.second->stop()`
for every entry. -/
def stopEmitters : List (String × Emitter) → Runtime → Runtime
  | [], rt => rt
  | (_, e) :: rest, rt => stopEmitters rest (rt.record (Event.emitter_stop e.id))

/-- The filter-topic loop of `~TopicGroup` (dds_manager.cpp 1686-1704):
`domain->delete_contentfilteredtopic(iter.second)` for every entry; a refusal is only
logged. -/
def deleteFilteredTopics : List (String × ContentFilteredTopic) → Runtime → Runtime
  | [], rt => rt
  | (_, c) :: rest, rt =>
    deleteFilteredTopics rest (rt.call (Event.delete_contentfilteredtopic c)).2

/-- The error branch shared by the writer, publisher and subscriber deletions of
`~TopicGroup`: the message evaluates `topic->get_name()`, through a nil handle when the
group has no topic. -/
def reportWithTopicName (topic : Option Ref) (rc : ReturnCode) (rt : Runtime) : Option Runtime :=
  if rc ≠ ReturnCode.RETCODE_OK then
    match topic with
    | some _ => some rt
    | none => rt.nilCall (Event.get_name none)
  else some rt

/-- `~TopicGroup`, lines 1626-1641: the readers are deleted when there is a subscriber. -/
def TopicGroup.deleteReadersStage (g : TopicGroup) (rt : Runtime) : Runtime :=
  match g.subscriber with
  | some subscriber => if g.readers ≠ [] then deleteReaders subscriber g.readers rt else rt
  | none => rt

/-- `~TopicGroup`, lines 1643-1652: the writer is deleted when publisher and writer exist. -/
def TopicGroup.deleteWriterStage (g : TopicGroup) (rt : Runtime) : Option Runtime :=
  match g.publisher, g.writer with
  | some publisher, some writer =>
    reportWithTopicName g.topic (rt.call (Event.delete_datawriter publisher writer)).1
      (rt.call (Event.delete_datawriter publisher writer)).2
  | _, _ => some rt

/-- `~TopicGroup`, lines 1654-1663: the publisher is deleted when domain and publisher
exist. -/
def TopicGroup.deletePublisherStage (g : TopicGroup) (rt : Runtime) : Option Runtime :=
  match g.domain, g.publisher with
  | some _, some publisher =>
    reportWithTopicName g.topic (rt.call (Event.delete_publisher publisher)).1
      (rt.call (Event.delete_publisher publisher)).2
  | _, _ => some rt

/-- `~TopicGroup`, lines 1665-1674: the subscriber is deleted when domain and subscriber
exist. -/
def TopicGroup.deleteSubscriberStage (g : TopicGroup) (rt : Runtime) : Option Runtime :=
  match g.domain, g.subscriber with
  | some _, some subscriber =>
    reportWithTopicName g.topic (rt.call (Event.delete_subscriber subscriber)).1
      (rt.call (Event.delete_subscriber subscriber)).2
  | _, _ => some rt

/-- `~TopicGroup`, lines 1684-1705: the filter topics are deleted when the domain exists. -/
def TopicGroup.deleteFiltersStage (g : TopicGroup) (rt : Runtime) : Runtime :=
  match g.domain with
  | some _ => if g.filteredTopics ≠ [] then deleteFilteredTopics g.filteredTopics rt else rt
  | none => rt

/-- `~TopicGroup`, lines 1707-1716: the topic is deleted when domain and topic exist. -/
def TopicGroup.deleteTopicStage (g : TopicGroup) (rt : Runtime) : Runtime :=
  match g.domain, g.topic with
  | some _, some topic => (rt.call (Event.delete_topic topic)).2
  | _, _ => rt

/-- `DDSManager::TopicGroup::~TopicGroup` (dds_manager.cpp 1623-1721): the stages of the
destructor in source order: readers, writer, publisher, subscriber, delivery workers
(lines 1676-1682), filter topics, topic.  No return code changes what follows. -/
def TopicGroup.destroy (g : TopicGroup) (rt : Runtime) : Option Runtime :=
  match g.deleteWriterStage (g.deleteReadersStage rt) with
  | none => none
  | some rt2 =>
    match g.deletePublisherStage rt2 with
    | none => none
    | some rt3 =>
      match g.deleteSubscriberStage rt3 with
      | none => none
      | some rt4 =>
        some (g.deleteTopicStage (g.deleteFiltersStage (stopEmitters g.emitters rt4)))

/-- `DDSManager::unregisterTopic` (dds_manager.cpp 556-578).  The group erased from the
map is destroyed when the function returns. -/
def unregisterTopic (m : DDSManager) (rt : Runtime) (topicName : String) :
    Option (Bool × DDSManager × Runtime) :=
  -- Make sure this topic has been registered
  match mapFind m.m_topics topicName with
  | none => some (false, m, rt)
  | some none => some (false, m, rt)
  | some (some savePtrToDelete) =>
    let m1 : DDSManager := { m with m_topics := mapErase m.m_topics topicName }
    match savePtrToDelete.destroy rt with
    | none => none
    | some rt1 => some (true, m1, rt1)

/-- The tasks started by `cleanUpTopicsForOneManager`, one `unregisterTopic` per name, run
one after the other; `allClear` accumulates `allClear && f.get()`. -/
def runUnregisterTasks : List String → Bool → DDSManager → Runtime →
    Option (Bool × DDSManager × Runtime)
  | [], allClear, m, rt => some (allClear, m, rt)
  | name :: rest, allClear, m, rt =>
    match unregisterTopic m rt name with
    | none => none
    | some (ok, m1, rt1) => runUnregisterTasks rest (allClear && ok) m1 rt1

/-- `m_topics.clear()`: every group still held by the map is destroyed. -/
def destroyAll : List (String × Option TopicGroup) → Runtime → Option Runtime
  | [], rt => some rt
  | (_, none) :: rest, rt => destroyAll rest rt
  | (_, some g) :: rest, rt =>
    match g.destroy rt with
    | none => none
    | some rt1 => destroyAll rest rt1

/-- `DDSManager::cleanUpTopicsForOneManager` (dds_manager.cpp 118-146): a task is started
for every entry that holds a group, the results are and-ed, and the map is cleared. -/
def cleanUpTopicsForOneManager (m : DDSManager) (rt : Runtime) :
    Option (Bool × DDSManager × Runtime) :=
  let names := (m.m_topics.filter (fun e => e.2.isSome)).map Prod.fst
  match runUnregisterTasks names true m rt with
  | none => none
  | some (allClear, m1, rt1) =>
    match destroyAll m1.m_topics rt1 with
    | none => none
    | some rt2 => some (allClear, { m1 with m_topics := [] }, rt2)

/-! ## Domain join -/

/-- `OpenDDS::DCPS::TransportInst` as far as `joinDomain` reads and writes it: name,
transport type, host and port of the multicast group address, and one code for every other
parameter (buffer sizes, heartbeat period, NAK timing, TTL, ...). -/
structure TransportInst where
  name : String
  transport_type_ : String
  multicast_group_host : String
  multicast_group_port : Nat
  settings : Nat
  deriving DecidableEq, Repr

/-- `OpenDDS::DCPS::TransportConfig`: a named list of transport instances. -/
structure TransportConfig where
  name : String
  instances_ : List TransportInst
  deriving DecidableEq, Repr

/-- What `joinDomain` reads and writes outside the manager object: the global counter map
`g_transportInstances`, the transport registry (its named configurations, the global
configuration, and the configuration bound to each participant), and whether the
configuration heap opens, the configuration file imports, and the participant factory is
available. -/
structure Process where
  g_transportInstances : List (Int × Int)
  transportConfigs : List TransportConfig
  global_config : TransportConfig
  bindings : List (Ref × TransportConfig)
  heapOpens : Bool
  configFileImports : Bool
  factoryAvailable : Bool
  deriving DecidableEq, Repr

/-- `g_transportInstances.find(domainID)`. -/
def instanceFind (g : List (Int × Int)) (domainID : Int) : Option Int :=
  match g with
  | [] => none
  | (d, c) :: rest => if d = domainID then some c else instanceFind rest domainID

/-- `g_transportInstances[domainID] = c`. -/
def instanceAssign (g : List (Int × Int)) (domainID : Int) (c : Int) : List (Int × Int) :=
  match g with
  | [] => [(domainID, c)]
  | (d, c1) :: rest =>
    if d = domainID then (d, c) :: rest else (d, c1) :: instanceAssign rest domainID c

/-- Lines 349-354 of `joinDomain`: the counter of the domain is incremented, or set to `1`
when the domain has none; the pair returned is the new map and the new counter. -/
def nextInstance (g : List (Int × Int)) (domainID : Int) : List (Int × Int) × Int :=
  match instanceFind g domainID with
  | some c => (instanceAssign g domainID (wrapInt32 (c + 1)), wrapInt32 (c + 1))
  | none => (instanceAssign g domainID 1, 1)

/-- Line 381 of `joinDomain`: the configuration name of an instance of a domain. -/
def configName (domainID : Int) (instance_ : Int) : String :=
  "config-" ++ to_string domainID ++ "-" ++ to_string instance_

/-- Lines 395-398 of `joinDomain`: `uint16_t rtpsPort = PB + DG *
static_cast<uint16_t>(domainID) + D2`; the sum is formed in `int` and stored in 16 bits. -/
def rtpsPort (domainID : Int) : Nat :=
  ((7400 + 250 * (domainID % 65536) + 1) % 65536).toNat

/-- `TransportRegistry::get_config(name)`. -/
def get_config (configs : List TransportConfig) (name : String) : Option TransportConfig :=
  configs.find? (fun c => c.name = name)

/-- `std::string::operator<` on the characters of two strings: lexicographic order. -/
def charsLt : List Char → List Char → Bool
  | [], [] => false
  | [], _ :: _ => true
  | _ :: _, [] => false
  | a :: as, b :: bs =>
    if a.toNat < b.toNat then true
    else if b.toNat < a.toNat then false
    else charsLt as bs

/-- `TransportConfig::sorted_insert`: the instance goes before the first instance whose
name is not smaller than its own. -/
def sorted_insert (inst : TransportInst) : List TransportInst → List TransportInst
  | [] => [inst]
  | i :: rest =>
    if charsLt i.name.data inst.name.data then i :: sorted_insert inst rest
    else inst :: i :: rest

/-- The loop of lines 404-466 of `joinDomain` over the instances of the global
configuration: an `rtps_udp` instance is copied into a new instance whose multicast port is
`rtpsPort`, any other instance is inserted as it is. -/
def deriveInstances (domainID : Int) (instance_ : Int) :
    List TransportInst → List TransportInst → Runtime → List TransportInst × Runtime
  | [], acc, rt => (acc, rt)
  | transportInstance :: rest, acc, rt =>
    if transportInstance.transport_type_ = "rtps_udp" then
      let transportName :=
        transportInstance.transport_type_ ++ "-" ++ to_string domainID ++ "-" ++
          to_string instance_
      let newRtpsTransport : TransportInst :=
        { name := transportName,
          transport_type_ := transportInstance.transport_type_,
          multicast_group_host := transportInstance.multicast_group_host,
          multicast_group_port := rtpsPort domainID,
          settings := transportInstance.settings }
      deriveInstances domainID instance_ rest (sorted_insert newRtpsTransport acc)
        (rt.record (Event.create_inst transportName transportInstance.transport_type_))
    else
      deriveInstances domainID instance_ rest (sorted_insert transportInstance acc) rt

/-- `DDSManager::joinDomain` (dds_manager.cpp 196-473).  `onAdd` and `onRemove` say whether
the callbacks are non-null.  An unopenable configuration heap exits the process and a
configuration file that cannot be imported throws: both are `none`. -/
def joinDomain (m : DDSManager) (p : Process) (rt : Runtime) (domainID : Int) (config : String)
    (onAdd onRemove : Bool) : Option (Bool × DDSManager × Process × Runtime) :=
  match m.m_domainParticipant with
  | some participant =>
    -- already instantiated: an error for a different domain, done for the same one
    if domainID ≠ participant.domain_id then some (false, m, p, rt) else some (true, m, p, rt)
  | none =>
    let m1 : DDSManager := { m with m_domainID := domainID, m_config := config }
    if p.heapOpens = false then none
    else if p.configFileImports = false then none
    else if p.factoryAvailable = false then some (false, m1, p, rt)
    else
      match rt.create (Event.create_participant domainID) with
      | (none, rt1) => some (false, m1, p, rt1)
      | (some ref, rt1) =>
        let m2 : DDSManager :=
          { m1 with m_domainParticipant := some { ref := ref, domain_id := domainID } }
        -- Add the monitor only if there is an add or remove participant function
        let m3 : DDSManager :=
          if onAdd || onRemove then
            { m2 with m_monitor := some m2.allocated, allocated := m2.allocated + 1 }
          else m2
        -- count this instance of the domain
        match nextInstance p.g_transportInstances domainID with
        | (instances, instance_) =>
          let p1 : Process := { p with g_transportInstances := instances }
          if config ≠ "" then
            -- If the user set a config section of the INI file, use it and we're done
            let rt2 := rt1.record (Event.get_config config)
            match get_config p1.transportConfigs config with
            | none => some (false, m3, p1, rt2)
            | some configTest =>
              some (true, m3, { p1 with bindings := (ref, configTest) :: p1.bindings },
                rt2.record (Event.bind_config config ref))
          else
            let name := configName domainID instance_
            -- Use the existing config if it has already been created
            let rt2 := rt1.record (Event.get_config name)
            match get_config p1.transportConfigs name with
            | some _ => some (true, m3, p1, rt2)
            | none =>
              let rt3 := rt2.record (Event.create_config name)
              let derived := deriveInstances domainID instance_ p1.global_config.instances_ [] rt3
              let newConfig : TransportConfig := { name := name, instances_ := derived.1 }
              -- Force this domain participant to use the new config
              some (true, m3,
                { p1 with
                  transportConfigs := p1.transportConfigs ++ [newConfig],
                  bindings := (ref, newConfig) :: p1.bindings },
                derived.2.record (Event.bind_config name ref))

/-- Sequential join attempts for one domain id, each by its own manager, without a named
configuration section; a session is the manager and whether `onAdd` and `onRemove` are
non-null.  The results are collected in order. -/
def joinAll (domainID : Int) :
    List (DDSManager × Bool × Bool) → Process → Runtime → Option (List Bool × Process × Runtime)
  | [], p, rt => some ([], p, rt)
  | (m, onAdd, onRemove) :: rest, p, rt =>
    match joinDomain m p rt domainID "" onAdd onRemove with
    | none => none
    | some (ok, _, p1, rt1) =>
      match joinAll domainID rest p1 rt1 with
      | none => none
      | some (oks, p2, rt2) => some (ok :: oks, p2, rt2)

/-- The configuration names looked up in the transport registry, in the order of the
lookups (`transportReg->get_config(name)`). -/
def derivedNames (log : List Event) : List String :=
  log.filterMap (fun e =>
    match e with
    | Event.get_config name => some name
    | _ => none)

/-- The instance counter of a domain in `g_transportInstances`, `0` when the domain has
none yet. -/
def currentInstance (g : List (Int × Int)) (domainID : Int) : Int :=
  (instanceFind g domainID).getD 0

/-! ## Discovery polling (dds_simple.h) -/

/-- The state `DDSSimpleManager` adds to `DDSManager`: the map from type name to the topic
name its publisher was created with. -/
structure DDSSimpleManager where
  manager : DDSManager
  m_pubMap : List (String × String)

/-- The writer's runtime and the steady clock as `GetNumberOfSubscribers` sees them:
`counts k` is the matched count reported by the poll number `k` (the initial check is poll
`0`), and `elapsed k` is the time in milliseconds read off the clock after the sleep number
`k + 1`. -/
structure Discovery where
  counts : Nat → Int
  elapsed : Nat → Int

/-- The loop of `GetNumberOfSubscribers` (dds_simple.h 305-314) after `k` sleeps, with the
time read last and the count reported last; every iteration takes one unit of fuel, and so
does the test that ends the loop. -/
def pollUntil (d : Discovery) (min_count max_wait : Int) : Nat → Nat → Int → Int → Option Int
  | 0, _, _, _ => none
  | fuel + 1, k, timeWaited, current_count =>
    if timeWaited < max_wait then
      -- Sleep for the increment time, read the clock, poll
      if d.counts (k + 1) ≥ min_count then some (d.counts (k + 1))
      else pollUntil d min_count max_wait fuel (k + 1) (d.elapsed k) (d.counts (k + 1))
    else some current_count

/-- `DDSSimpleManager::GetNumberOfSubscribers` (dds_simple.h 262-328): `return false` is
the count `0`. -/
def GetNumberOfSubscribers (sm : DDSSimpleManager) (d : Discovery) (topic_name : String)
    (min_count max_wait : Int) (fuel : Nat) : Option Int :=
  match mapFind sm.m_pubMap topic_name with
  | none => some 0
  | some temp =>
    match getWriter sm.manager temp with
    | none => some 0
    | some _ =>
      -- Initial check
      if d.counts 0 ≥ min_count then some (d.counts 0)
      else pollUntil d min_count max_wait fuel 0 0 (d.counts 0)

/-- `DDSSimpleManager::WaitForSubscriber` (dds_simple.h 248-252). -/
def WaitForSubscriber (sm : DDSSimpleManager) (d : Discovery) (topic_name : String)
    (timeToWait : Int) (fuel : Nat) : Option Bool :=
  (GetNumberOfSubscribers sm d topic_name 1 timeToWait fuel).map (fun n => decide (n > 0))

/-! ## Sample states used to instantiate the theorems -/

/-- A manager that has not joined a domain. -/
def freshManager : DDSManager :=
  { m_topics := [], m_domainParticipant := none, m_rlHandler := none, m_wlHandler := none,
    m_domainID := 0, m_config := "", m_monitor := none, allocated := 0 }

/-- A process in which nothing was joined yet: the global configuration holds an
`rtps_udp` instance and a `tcp` instance. -/
def sampleProcess : Process :=
  { g_transportInstances := [],
    transportConfigs := [],
    global_config :=
      { name := "global",
        instances_ :=
          [⟨"the_rtps_transport", "rtps_udp", "239.255.0.1", 7401, 1⟩,
           ⟨"the_tcp_transport", "tcp", "", 0, 2⟩] },
    bindings := [], heapOpens := true, configFileImports := true, factoryAvailable := true }

/-- The process `sampleProcess` after 2147483646 joins of domain 0. -/
def lateProcess : Process :=
  { sampleProcess with g_transportInstances := [(0, 2147483646)] }


/-- A QoS table with a different code in every entry. -/
def sampleQos : QosDictionary :=
  { Topic_latestReliableTransient := { policies := 1 },
    Topic_latestReliable := { policies := 2 },
    Topic_strictReliable := { policies := 3 },
    Topic_bestEffort := { policies := 4 },
    DataReader_latestReliableTransient :=
      { minimum_separation := { sec := 0, nanosec := 0 }, policies := 5 },
    DataReader_latestReliable :=
      { minimum_separation := { sec := 0, nanosec := 0 }, policies := 6 },
    DataReader_strictReliable :=
      { minimum_separation := { sec := 0, nanosec := 0 }, policies := 7 },
    DataReader_bestEffort :=
      { minimum_separation := { sec := 0, nanosec := 0 }, policies := 8 },
    DataWriter_latestReliableTransient := { policies := 9 },
    DataWriter_latestReliable := { policies := 10 },
    DataWriter_strictReliable := { policies := 11 },
    DataWriter_bestEffort := { policies := 12 },
    Publisher_defaultQos := { policies := 13 },
    Subscriber_defaultQos := { policies := 14 } }


/-- A runtime in which every call succeeds. -/
def rtOk : Runtime := { script := [], next := 100, log := [], survivesNilCall := true }

/-- A group as `TopicGroup::TopicGroup()` leaves it, with every QoS code zero, after the
topic handle `1` was stored for domain handle `0`. -/
def sampleGroup : TopicGroup :=
  { domain := some 0, topic := some 1, publisher := none, subscriber := none, writer := none,
    qosPreset := -1, topicQos := { policies := 0 },
    dataReaderQos := { minimum_separation := { sec := 0, nanosec := 0 }, policies := 0 },
    dataWriterQos := { policies := 0 }, pubQos := { policies := 0 },
    subQos := { policies := 0 }, readers := [], filteredTopics := [], emitters := [],
    m_readerListeners := [], m_writerListener := none }

/-- A joined manager whose registry holds `sampleGroup` under the name `T`. -/
def sampleManager : DDSManager :=
  { m_topics := [("T", some sampleGroup)],
    m_domainParticipant := some { ref := 0, domain_id := 0 }, m_rlHandler := none,
    m_wlHandler := none, m_domainID := 0, m_config := "", m_monitor := none, allocated := 0 }

/-- The group of `sampleManager` after `createSubscriber(T, R)` without a filter. -/
def sampleReaderGroup : TopicGroup :=
  { sampleGroup with
    subscriber := some 100,
    readers := [("R", { ref := 101, topicdescription := some (TopicDescription.topic 1) })],
    m_readerListeners := [("R", { id := 0, handler := none })] }

/-- The manager `sampleManager` after `createSubscriber(T, R)` without a filter. -/
def sampleReaderManager : DDSManager :=
  { sampleManager with m_topics := [("T", some sampleReaderGroup)], allocated := 1 }

/-- The group of `sampleManager` with the profile `STRICT_RELIABLE` registered. -/
def samplePresetGroup : TopicGroup :=
  { sampleGroup with qosPreset := 2 }

/-- A manager whose topic `T` has a registered profile. -/
def samplePresetManager : DDSManager :=
  { sampleManager with m_topics := [("T", some samplePresetGroup)] }

/-- The runtime that goes with `sampleReaderManager`: every call succeeds, nil calls are
survived, and the references up to `101` are taken. -/
def sampleReaderRuntime : Runtime :=
  { script := [], next := 102, log := [], survivesNilCall := true }

/-- A group with a publisher and writer, a subscriber with the reader `R`, a running
delivery worker for `R`, and one filter topic. -/
def workerGroup : TopicGroup :=
  { sampleGroup with
    publisher := some 10,
    writer := some 11,
    subscriber := some 100,
    readers := [("R", ⟨101, some (TopicDescription.filtered ⟨99, "T_R_0"⟩)⟩)],
    filteredTopics := [("T_R_0", ⟨99, "T_R_0"⟩)],
    emitters := [("R", { id := 7, running := true, reader := none })],
    m_readerListeners := [("R", { id := 0, handler := none })] }

/-- A runtime that creates the publisher and then refuses to create the writer. -/
def rtWriterFails : Runtime :=
  { script := [ReturnCode.RETCODE_OK, ReturnCode.RETCODE_ERROR], next := 100, log := [],
    survivesNilCall := true }

/-- A runtime that refuses the next call with `RETCODE_PRECONDITION_NOT_MET`. -/
def rtRefuses : Runtime :=
  { script := [ReturnCode.RETCODE_PRECONDITION_NOT_MET], next := 100, log := [],
    survivesNilCall := true }

/-- A manager whose topic `T` holds `workerGroup`. -/
def workerManager : DDSManager :=
  { sampleManager with m_topics := [("T", some workerGroup)], allocated := 1 }

/-- A runtime that answers its next calls with the given codes; the references up to `101`
are taken and nil calls are survived. -/
def rtScript (codes : List ReturnCode) : Runtime :=
  { script := codes, next := 102, log := [], survivesNilCall := true }

/-- A group with a publisher, a writer and the writer's listener. -/
def writerGroup : TopicGroup :=
  { sampleGroup with
    publisher := some 10, writer := some 11,
    m_writerListener := some { id := 0, handler := none } }

/-- A manager whose topic `T` holds `writerGroup`. -/
def writerManager : DDSManager :=
  { sampleManager with m_topics := [("T", some writerGroup)], allocated := 1 }

/-- A simple manager whose type `T` publishes on the topic `T` of `writerManager`. -/
def sampleSimpleManager : DDSSimpleManager :=
  { manager := writerManager, m_pubMap := [("T", "T")] }

/-- A clock that reads exactly 100 ms more after every sleep. -/
def exactClock (k : Nat) : Int := 100 * ((k : Int) + 1)

/-- A writer that reports no match at the first three polls and one match from the fourth
poll on, on the clock `exactClock`. -/
def lateMatch : Discovery :=
  { counts := fun k => if k < 3 then 0 else 1, elapsed := exactClock }

/-- A writer that reports one match from the third poll on, on the clock `exactClock`. -/
def thirdPollMatch : Discovery :=
  { counts := fun k => if k < 2 then 0 else 1, elapsed := exactClock }

/-- A writer that never reports a match, on the clock `exactClock`. -/
def noMatch : Discovery :=
  { counts := fun _ => 0, elapsed := exactClock }

/-- A writer with one match from the start, on the clock `exactClock`. -/
def matched : Discovery :=
  { counts := fun _ => 1, elapsed := exactClock }

/-! ## Predicates used in the statements -/

/-- The stage of `~TopicGroup` a logged call belongs to, numbered in source order: reader
deletion 0, writer 1, publisher 2, subscriber 3, worker stop 4, filter-topic deletion 5,
topic deletion 6.  Other calls have no stage. -/
def destroyStage : Event → Option Nat
  | Event.delete_datareader _ _ => some 0
  | Event.delete_datawriter _ _ => some 1
  | Event.delete_publisher _ => some 2
  | Event.delete_subscriber _ => some 3
  | Event.emitter_stop _ => some 4
  | Event.delete_contentfilteredtopic _ => some 5
  | Event.delete_topic _ => some 6
  | _ => none

/-- The stage the spec gives a logged call: worker stop 0, reader deletion 1, writer 2,
publisher 3, subscriber 4, filter-topic deletion 5, topic deletion 6. -/
def specStage : Event → Option Nat
  | Event.emitter_stop _ => some 0
  | Event.delete_datareader _ _ => some 1
  | Event.delete_datawriter _ _ => some 2
  | Event.delete_publisher _ => some 3
  | Event.delete_subscriber _ => some 4
  | Event.delete_contentfilteredtopic _ => some 5
  | Event.delete_topic _ => some 6
  | _ => none

/-- A list of calls follows a stage numbering when the stages of its calls never
decrease. -/
def FollowsOrder (stage : Event → Option Nat) (calls : List Event) : Prop :=
  (calls.filterMap stage).Pairwise (fun a b => a ≤ b)


/-- The precondition `createSubscriber` checks on the topic: the registry maps the name
to a non-null group that holds a topic handle. -/
def topicCreated (m : DDSManager) (topicName : String) : Prop :=
  ∃ g, mapFind m.m_topics topicName = some (some g) ∧ g.topic ≠ none

/-- A reader is registered under `readerName` in group `g` when `createSubscriber` has
stored it (dds_manager.cpp 739-740): its handle is in `readers` and its listener in
`m_readerListeners`. -/
def readerRegistered (g : TopicGroup) (readerName : String) : Prop :=
  (mapFind g.readers readerName).isSome = true ∧
    (mapFind g.m_readerListeners readerName).isSome = true

/-- The runtime after `setWriterQos`: `set_qos` reaches the writer when there is one. -/
def afterWriterSetQos (g : TopicGroup) (rt : Runtime) (q : DataWriterQos) : Runtime :=
  match g.writer with
  | some w => (rt.call (Event.writer_set_qos w q)).2
  | none => rt

/-- The outcome C10 describes for `registerQos(t, P)` on a group `g`: the call returns
true; the group then stored under `t` has the given topic, reader and writer QoS and
`qosPreset = P`; its publisher and subscriber QoS, its entity handles and its maps are
those of `g`. -/
def AppliedProfile (t : String) (g : TopicGroup) (P : QosType) (tq : TopicQos)
    (rq : DataReaderQos) (wq : DataWriterQos)
    (res : Option (Bool × DDSManager × Runtime)) : Prop :=
  ∃ m1 rt1 g1, res = some (true, m1, rt1) ∧ mapFind m1.m_topics t = some (some g1) ∧
    g1.topicQos = tq ∧ g1.dataReaderQos = rq ∧ g1.dataWriterQos = wq ∧
    g1.qosPreset = (P : Int) ∧
    g1.pubQos = g.pubQos ∧ g1.subQos = g.subQos ∧
    g1.domain = g.domain ∧ g1.topic = g.topic ∧ g1.publisher = g.publisher ∧
    g1.subscriber = g.subscriber ∧ g1.writer = g.writer ∧ g1.readers = g.readers ∧
    g1.filteredTopics = g.filteredTopics ∧ g1.emitters = g.emitters ∧
    g1.m_readerListeners = g.m_readerListeners ∧ g1.m_writerListener = g.m_writerListener

/-- The name of the content-filter topic a reader is bound to (`get_name()` of its narrowed
topic description), the empty string when it is bound to the base topic. -/
def filterNameOf (r : DataReader) : String :=
  match narrow r.topicdescription with
  | some c => c.name
  | none => ""

/-- The profile identifiers `registerQos` knows (dds_manager.cpp 514-543). -/
def knownProfile (q : QosType) : Prop :=
  q = LATEST_RELIABLE_TRANSIENT ∨ q = LATEST_RELIABLE ∨ q = STRICT_RELIABLE ∨ q = BEST_EFFORT

/-- The return code the runtime gives to the next call. -/
def Runtime.nextCode (rt : Runtime) : ReturnCode :=
  (rt.call (Event.get_name none)).1

/-- The return code the runtime gives to the call number `i + 1` from now. -/
def Runtime.codeAt (rt : Runtime) (i : Nat) : ReturnCode :=
  rt.script.getD i ReturnCode.RETCODE_OK

/-- Calls that create or delete an entity of the participant. -/
def isCreateOrDelete : Event → Bool
  | Event.create_participant _ => true
  | Event.create_subscriber _ => true
  | Event.create_publisher _ => true
  | Event.create_contentfilteredtopic _ _ _ _ => true
  | Event.create_datareader _ _ _ _ => true
  | Event.create_datawriter _ _ _ _ => true
  | Event.delete_contained_entities _ => true
  | Event.delete_datareader _ _ => true
  | Event.delete_datawriter _ _ => true
  | Event.delete_publisher _ => true
  | Event.delete_subscriber _ => true
  | Event.delete_contentfilteredtopic _ => true
  | Event.delete_topic _ => true
  | _ => false

/-- Calls that delete or create a content-filter topic, or create a reader. -/
def isFilterOrReaderChange : Event → Bool
  | Event.create_contentfilteredtopic _ _ _ _ => true
  | Event.delete_contentfilteredtopic _ => true
  | Event.create_datareader _ _ _ _ => true
  | _ => false

/-- The entity deletions of `~TopicGroup` that C20 places before `delete_topic`. -/
def isEntityDeletion : Event → Bool
  | Event.delete_datareader _ _ => true
  | Event.delete_datawriter _ _ => true
  | Event.delete_publisher _ => true
  | Event.delete_subscriber _ => true
  | _ => false

/-- Whether a call is `delete_topic`. -/
def isDeleteTopic : Event → Bool
  | Event.delete_topic _ => true
  | _ => false

/-- The number of create calls `createSubscriber` issues before it creates the reader: one
for the subscriber when the group has none, one for the filter topic when a filter was
given. -/
def createsBeforeReader (g : TopicGroup) (filter : String) : Nat :=
  (if g.subscriber = none then 1 else 0) + (if filter = "" then 0 else 1)

/-- Successive `replaceFilter` calls on one reader, one per filter expression of the list.
The result lists, per call, the name of the filter topic the reader is bound to after it
(the empty string when it is bound to the base topic); `none` when a call does not return
true. -/
def replaceMany (topicName readerName : String) :
    List String → DDSManager → Runtime → Option (List String × DDSManager × Runtime)
  | [], m, rt => some ([], m, rt)
  | f :: fs, m, rt =>
    match replaceFilter m rt topicName readerName f with
    | some (true, m1, rt1) =>
      match getReader m1 topicName readerName with
      | none => none
      | some r =>
        match replaceMany topicName readerName fs m1 rt1 with
        | none => none
        | some (ns, m2, rt2) => some (filterNameOf r :: ns, m2, rt2)
    | _ => none

/-- The names of the content-filter topics whose creation a log records, oldest first. -/
def createdFilterNames (log : List Event) : List String :=
  log.filterMap (fun e =>
    match e with
    | Event.create_contentfilteredtopic name _ _ _ => some name
    | _ => none)

/-- The group the QoS setters work on: the one the name maps to, or a new one. -/
def groupOrNew (qd : QosDictionary) (m : DDSManager) (topicName : String) : TopicGroup :=
  match mapFind m.m_topics topicName with
  | some (some g) => g
  | _ => TopicGroup.new qd

/-- The runtime after `setPublisherQos`: `set_qos` reaches the publisher when there is
one. -/
def afterPublisherSetQos (g : TopicGroup) (rt : Runtime) (q : PublisherQos) : Runtime :=
  match g.publisher with
  | some p => (rt.call (Event.publisher_set_qos p q)).2
  | none => rt

/-- The runtime after `setSubscriberQos`: `set_qos` reaches the subscriber when there is
one. -/
def afterSubscriberSetQos (g : TopicGroup) (rt : Runtime) (q : SubscriberQos) : Runtime :=
  match g.subscriber with
  | some sb => (rt.call (Event.subscriber_set_qos sb q)).2
  | none => rt

/-- What a QoS setter leaves in the registry: the name maps to the group `g1`, and every
other name maps to what it mapped to. -/
def SetterFrame (m m1 : DDSManager) (topicName : String) (g1 : TopicGroup) : Prop :=
  mapFind m1.m_topics topicName = some (some g1) ∧
    ∀ u, u ≠ topicName → mapFind m1.m_topics u = mapFind m.m_topics u

/-- The time `timeWaited` holds when the poll number `k` is made: `0` at the initial check,
the clock reading after the sleep number `k` afterwards. -/
def timeAt (d : Discovery) : Nat → Int
  | 0 => 0
  | k + 1 => d.elapsed k

/-- The poll number `k` is made, unless an earlier poll ended the wait, when the loop test
`timeWaited < max_wait` held before each of the sleeps that precede it. -/
def pollMade (d : Discovery) (max_wait : Int) (k : Nat) : Prop :=
  ∀ j, j < k → timeAt d j < max_wait

/-- The result `r` of a wait that polls the discovery `d`: the count of the first poll made
that reports at least `min_count`, or, when the test `timeWaited < max_wait` fails first,
the count of the last poll made. -/
def PollOutcome (d : Discovery) (min_count max_wait r : Int) : Prop :=
  (∃ n, pollMade d max_wait n ∧ min_count ≤ d.counts n ∧
      (∀ j, j < n → d.counts j < min_count) ∧ r = d.counts n) ∨
    (∃ n, pollMade d max_wait n ∧ max_wait ≤ timeAt d n ∧
      (∀ j, j ≤ n → d.counts j < min_count) ∧ r = d.counts n)

/-- The position of a call in the protocol of `replaceFilter`: worker stop 0, deletion of
the entities contained in the old reader 1, deletion of the old reader 2, deletion of the
old filter topic 3, the repeated deletions through the nil handle 4 and 5, creation of
the new filter topic 6, creation of the new reader 7, worker restart 8 and 9. -/
def replaceStage : Event → Option Nat
  | Event.emitter_stop _ => some 0
  | Event.delete_contained_entities (some _) => some 1
  | Event.delete_datareader _ (some _) => some 2
  | Event.delete_contentfilteredtopic _ => some 3
  | Event.delete_contained_entities none => some 4
  | Event.delete_datareader _ none => some 5
  | Event.create_contentfilteredtopic _ _ _ _ => some 6
  | Event.create_datareader _ _ _ _ => some 7
  | Event.emitter_setReader _ _ => some 8
  | Event.emitter_run _ => some 9
  | _ => none

/-- The invariant of a Topic Group: the reader names are the names of the reader
listeners, and the empty string is not among them. -/
def GroupInv (g : TopicGroup) : Prop :=
  mapKeys g.readers = mapKeys g.m_readerListeners ∧ "" ∉ mapKeys g.readers

/-- Every group the registry maps a name to satisfies `GroupInv`. -/
def RegistryInv (m : DDSManager) : Prop :=
  ∀ t g, mapFind m.m_topics t = some (some g) → GroupInv g

/-- The operations of the manager that work on the readers of a group or on its QoS. -/
inductive Op
  | createSubscriber (topicName readerName filter : String) (filterParams : List String)
  | replaceFilter (topicName readerName filter : String)
  | replaceFilterParams (topicName readerName : String) (filterParams : List String)
  | setMaxDataRate (topicName readerName : String) (rate : Int)
  | setTopicQos (topicName : String) (qos : TopicQos)
  | setPublisherQos (topicName : String) (qos : PublisherQos)
  | setSubscriberQos (topicName : String) (qos : SubscriberQos)
  | setReaderQos (topicName : String) (qos : DataReaderQos)
  | setWriterQos (topicName : String) (qos : DataWriterQos)

/-- The state one operation leaves, whatever it returns; `none` when it does not return. -/
def applyOp (qd : QosDictionary) : Op → DDSManager → Runtime → Option (DDSManager × Runtime)
  | Op.createSubscriber t R f ps, m, rt => (createSubscriber m rt t R f ps).map (fun r => r.2)
  | Op.replaceFilter t R f, m, rt => (replaceFilter m rt t R f).map (fun r => r.2)
  | Op.replaceFilterParams t R ps, m, rt =>
    (replaceFilterParams m rt t R ps).map (fun r => r.2)
  | Op.setMaxDataRate t R rate, m, rt => (setMaxDataRate qd m rt t R rate).map (fun r => r.2)
  | Op.setTopicQos t q, m, rt => (setTopicQos qd m t q).map (fun m1 => (m1, rt))
  | Op.setPublisherQos t q, m, rt => setPublisherQos qd m rt t q
  | Op.setSubscriberQos t q, m, rt => setSubscriberQos qd m rt t q
  | Op.setReaderQos t q, m, rt => setReaderQos qd m rt t q
  | Op.setWriterQos t q, m, rt => setWriterQos qd m rt t q

/-- A sequence of operations, each applied to the state the one before left. -/
def runOps (qd : QosDictionary) : List Op → DDSManager → Runtime → Option (DDSManager × Runtime)
  | [], m, rt => some (m, rt)
  | op :: rest, m, rt =>
    match applyOp qd op m rt with
    | none => none
    | some (m1, rt1) => runOps qd rest m1 rt1

/-! ## Map lemmas -/

theorem mapFind_mapAssign_self {V : Type} (l : List (String × V)) (k : String) (v : V) :
    mapFind (mapAssign l k v) k = some v := by
  induction l with
  | nil => simp [mapAssign, mapFind]
  | cons hd tl ih =>
    obtain ⟨k1, v1⟩ := hd
    by_cases h : k1 = k
    · simp [mapAssign, mapFind, h]
    · simp [mapAssign, mapFind, h, ih]

theorem mapFind_mapAssign_ne {V : Type} (l : List (String × V)) (k k2 : String) (v : V)
    (hne : k2 ≠ k) : mapFind (mapAssign l k v) k2 = mapFind l k2 := by
  induction l with
  | nil =>
    have : ¬ k = k2 := fun h => hne h.symm
    simp [mapAssign, mapFind, this]
  | cons hd tl ih =>
    obtain ⟨k1, v1⟩ := hd
    by_cases h : k1 = k
    · subst h
      have : ¬ k1 = k2 := fun h => hne h.symm
      simp [mapAssign, mapFind, this]
    · by_cases h2 : k1 = k2
      · subst h2
        simp [mapAssign, mapFind, h]
      · simp [mapAssign, mapFind, h, h2, ih]

theorem mapAssign_mapAssign {V : Type} (l : List (String × V)) (k : String) (v w : V) :
    mapAssign (mapAssign l k v) k w = mapAssign l k w := by
  induction l with
  | nil => simp [mapAssign]
  | cons hd tl ih =>
    obtain ⟨k1, v1⟩ := hd
    by_cases h : k1 = k
    · simp [mapAssign, h]
    · simp [mapAssign, h, ih]

theorem mapKeys_mapAssign_of_find {V : Type} (l : List (String × V)) (k : String) (v v0 : V)
    (h : mapFind l k = some v0) : mapKeys (mapAssign l k v) = mapKeys l := by
  induction l with
  | nil => simp [mapFind] at h
  | cons hd tl ih =>
    obtain ⟨k1, v1⟩ := hd
    by_cases hk : k1 = k
    · simp [mapAssign, mapKeys, hk]
    · have h2 : mapFind tl k = some v0 := by simpa [mapFind, hk] using h
      have := ih h2
      simp only [mapKeys] at this
      simp [mapAssign, mapKeys, hk, this]

theorem mapEmplace_of_find {V : Type} (l : List (String × V)) (k : String) (v v0 : V)
    (h : mapFind l k = some v0) : mapEmplace l k v = l := by
  simp [mapEmplace, h]

theorem mapFind_append_of_none {V : Type} (l l2 : List (String × V)) (k : String)
    (h : mapFind l k = none) : mapFind (l ++ l2) k = mapFind l2 k := by
  induction l with
  | nil => rfl
  | cons hd tl ih =>
    obtain ⟨k1, v1⟩ := hd
    by_cases hk : k1 = k
    · simp [mapFind, hk] at h
    · have h2 : mapFind tl k = none := by simpa [mapFind, hk] using h
      simp [mapFind, hk, ih h2]

theorem mapFind_mapEmplace_self {V : Type} (l : List (String × V)) (k : String) (v : V) :
    (mapFind (mapEmplace l k v) k).isSome = true := by
  unfold mapEmplace
  cases h : mapFind l k with
  | some v0 => simp [h]
  | none => simp [mapFind_append_of_none l _ k h, mapFind]

theorem find_setGroup (m : DDSManager) (t : String) (g : TopicGroup) :
    mapFind (m.setGroup t g).m_topics t = some (some g) := by
  simp [DDSManager.setGroup, mapFind_mapAssign_self]

theorem setGroup_setGroup (m : DDSManager) (t : String) (g g2 : TopicGroup) :
    (m.setGroup t g).setGroup t g2 = m.setGroup t g2 := by
  simp [DDSManager.setGroup, mapAssign_mapAssign]

theorem ensureGroup_of_find (qd : QosDictionary) (m : DDSManager) (t : String)
    (x : Option TopicGroup) (h : mapFind m.m_topics t = some x) : ensureGroup qd m t = m := by
  simp [ensureGroup, h]

/-! ## Setter lemmas (the group exists) -/

theorem setTopicQos_of_find (qd : QosDictionary) (m : DDSManager) (t : String) (g : TopicGroup)
    (q : TopicQos) (h : mapFind m.m_topics t = some (some g)) :
    setTopicQos qd m t q = some (m.setGroup t { g with topicQos := q }) := by
  simp [setTopicQos, ensureGroup_of_find qd m t _ h, h]

theorem setReaderQos_of_find (qd : QosDictionary) (m : DDSManager) (rt : Runtime) (t : String)
    (g : TopicGroup) (q : DataReaderQos) (h : mapFind m.m_topics t = some (some g)) :
    setReaderQos qd m rt t q =
      some (m.setGroup t { g with dataReaderQos := q }, setReaderQosLoop q g.readers rt) := by
  simp [setReaderQos, ensureGroup_of_find qd m t _ h, h]

theorem setWriterQos_of_find (qd : QosDictionary) (m : DDSManager) (rt : Runtime) (t : String)
    (g : TopicGroup) (q : DataWriterQos) (h : mapFind m.m_topics t = some (some g)) :
    setWriterQos qd m rt t q =
      some (m.setGroup t { g with dataWriterQos := q }, afterWriterSetQos g rt q) := by
  simp [setWriterQos, ensureGroup_of_find qd m t _ h, h, afterWriterSetQos]

theorem applyPreset_of_find (qd : QosDictionary) (m : DDSManager) (rt : Runtime) (t : String)
    (g : TopicGroup) (tq : TopicQos) (rq : DataReaderQos) (wq : DataWriterQos)
    (h : mapFind m.m_topics t = some (some g)) :
    applyPreset qd m rt t tq rq wq =
      some (m.setGroup t { g with topicQos := tq, dataReaderQos := rq, dataWriterQos := wq },
        afterWriterSetQos g (setReaderQosLoop rq g.readers rt) wq) := by
  unfold applyPreset
  rw [setTopicQos_of_find qd m t g tq h]
  simp only
  rw [setReaderQos_of_find qd _ rt t _ rq (find_setGroup m t _)]
  simp only
  rw [setWriterQos_of_find qd _ _ t _ wq (find_setGroup _ t _)]
  simp [setGroup_setGroup, afterWriterSetQos]

/-- What `registerQos` returns when the group exists, no profile is registered yet and the
`switch` reaches the case that applies `tq`, `rq`, `wq`. -/
theorem registerQos_applied (qd : QosDictionary) (m : DDSManager) (rt : Runtime) (t : String)
    (g : TopicGroup) (q : QosType) (tq : TopicQos) (rq : DataReaderQos) (wq : DataWriterQos)
    (h : mapFind m.m_topics t = some (some g)) :
    (match (some (applyPreset qd m rt t tq rq wq) :
        Option (Option (DDSManager × Runtime))) with
      | none => some (false, m, rt)
      | some none => none
      | some (some (m1, rt1)) =>
        match mapFind m1.m_topics t with
        | some (some g1) =>
          some (true, m1.setGroup t { g1 with qosPreset := (q : Int) }, rt1)
        | _ => none) =
      some (true,
        m.setGroup t
          { g with topicQos := tq, dataReaderQos := rq, dataWriterQos := wq,
                   qosPreset := (q : Int) },
        afterWriterSetQos g (setReaderQosLoop rq g.readers rt) wq) := by
  rw [applyPreset_of_find qd m rt t g tq rq wq h]
  simp [find_setGroup, setGroup_setGroup]

/-! ## Decimal rendering and parsing -/

theorem digitChar_isDigit (d : Nat) : (digitChar d).isDigit = true := by
  unfold digitChar
  split <;> rfl

theorem digitChar_toNat (d : Nat) (h : d < 10) : (digitChar d).toNat - 48 = d := by
  interval_cases d <;> rfl

theorem natDigitsAux_isDigit (fuel n : Nat) :
    ∀ c ∈ natDigitsAux fuel n, c.isDigit = true := by
  induction fuel generalizing n with
  | zero => simp [natDigitsAux]
  | succ fuel ih =>
    intro c hc
    unfold natDigitsAux at hc
    split at hc
    · simp only [List.mem_singleton] at hc
      rw [hc]
      exact digitChar_isDigit n
    · simp only [List.mem_append, List.mem_singleton] at hc
      rcases hc with hc | hc
      · exact ih _ c hc
      · rw [hc]
        exact digitChar_isDigit _

theorem natDigitsAux_ne_nil (fuel n : Nat) (h : n < fuel) : natDigitsAux fuel n ≠ [] := by
  cases fuel with
  | zero => omega
  | succ fuel =>
    unfold natDigitsAux
    split <;> simp

theorem digitsValue_append (l : List Char) (c : Char) :
    digitsValue (l ++ [c]) = 10 * digitsValue l + (c.toNat - 48) := by
  simp [digitsValue, List.foldl_append]

theorem natDigitsAux_value (fuel n : Nat) (h : n < fuel) :
    digitsValue (natDigitsAux fuel n) = n := by
  induction fuel generalizing n with
  | zero => omega
  | succ fuel ih =>
    unfold natDigitsAux
    split
    · rename_i h10
      simp [digitsValue, digitChar_toNat n h10]
    · rename_i h10
      rw [digitsValue_append, ih (n / 10) (by omega), digitChar_toNat _ (Nat.mod_lt _ (by omega))]
      omega

theorem isDigit_not_special (c : Char) (h : c.isDigit = true) :
    isspace c = false ∧ c ≠ '-' ∧ c ≠ '+' ∧ c ≠ '_' := by
  refine ⟨?_, ?_, ?_, ?_⟩
  · by_contra hs
    simp only [isspace, Bool.not_eq_false, Bool.or_eq_true, decide_eq_true_eq] at hs
    rcases hs with ((((hs | hs) | hs) | hs) | hs) | hs <;> (rw [hs] at h; revert h; decide)
  · intro hc; rw [hc] at h; revert h; decide
  · intro hc; rw [hc] at h; revert h; decide
  · intro hc; rw [hc] at h; revert h; decide

theorem takeWhile_all {α : Type} (p : α → Bool) (l : List α) (h : ∀ x ∈ l, p x = true) :
    l.takeWhile p = l := by
  induction l with
  | nil => rfl
  | cons a t ih =>
    have ha : p a = true := h a (List.mem_cons_self a t)
    simp [List.takeWhile, ha, ih (fun x hx => h x (List.mem_cons_of_mem a hx))]

/-- Parsing back the digits of a natural number gives the number, with either sign. -/
theorem stoi_digits (n : Nat) :
    stoi (String.mk (natDigits n)) = (if inIntRange (n : Int) then some (n : Int) else none) ∧
    stoi (String.mk ('-' :: natDigits n)) =
      (if inIntRange (-(n : Int)) then some (-(n : Int)) else none) := by
  have hall := natDigitsAux_isDigit (n + 1) n
  have hne := natDigitsAux_ne_nil (n + 1) n (by omega)
  have hval := natDigitsAux_value (n + 1) n (by omega)
  have htake : (natDigits n).takeWhile Char.isDigit = natDigits n := takeWhile_all _ _ hall
  cases hd : natDigits n with
  | nil => exact absurd hd hne
  | cons c r =>
    have hc : c.isDigit = true := hall c (by unfold natDigits at hd; rw [hd]; simp)
    obtain ⟨hsp, hm, hp, -⟩ := isDigit_not_special c hc
    rw [hd] at htake
    have hval2 : digitsValue (c :: r) = n := by rw [← hd]; exact hval
    constructor
    · unfold stoi
      simp only [List.dropWhile, hsp, readSign, hm, hp, if_false, htake]
      simp [hval2]
    · unfold stoi
      have : isspace '-' = false := by decide
      simp only [List.dropWhile, this, readSign, if_true, htake]
      simp [hval2]

/-- `std::stoi(std::to_string(k))` is `k` for every `int` value `k`. -/
theorem stoi_to_string (k : Int) (h : inIntRange k) : stoi (to_string k) = some k := by
  cases k with
  | ofNat n =>
    unfold to_string
    simp only
    have h2 : inIntRange (n : Int) := h
    rw [(stoi_digits n).1, if_pos h2]
    rfl
  | negSucc n =>
    unfold to_string
    simp only
    rw [(stoi_digits (n + 1)).2]
    have e : -((n + 1 : Nat) : Int) = Int.negSucc n := (Int.negSucc_eq n).symm
    rw [e, if_pos h]

theorem to_string_ne_empty (k : Int) : to_string k ≠ "" := by
  intro h
  have hd : (to_string k).data = [] := by rw [h]
  cases k with
  | ofNat n =>
    simp only [to_string] at hd
    exact natDigitsAux_ne_nil (n + 1) n (by omega) hd
  | negSucc n => simp [to_string] at hd

theorem to_string_injective (a b : Int) (ha : inIntRange a) (hb : inIntRange b)
    (h : to_string a = to_string b) : a = b := by
  have h1 := stoi_to_string a ha
  rw [h, stoi_to_string b hb] at h1
  exact (Option.some.inj h1).symm

theorem configName_injective (d a b : Int) (ha : inIntRange a) (hb : inIntRange b)
    (h : configName d a = configName d b) : a = b := by
  unfold configName at h
  have hd := congrArg String.data h
  simp only [String.data_append, List.append_assoc, List.append_cancel_left_eq] at hd
  exact to_string_injective a b ha hb (String.ext hd)

/-! ## Properties of `createSubscriber` -/

/-- C1: in each precondition-error case (empty reader name; topic without a group or whose
group has no topic handle; reader name already registered under the topic)
`createSubscriber` returns false, and the manager state (topic map and every group in it)
and the runtime (no call issued) are exactly as before. -/
theorem createSubscriber_precondition_error (m : DDSManager) (rt : Runtime)
    (topicName readerName filter : String) (filterParams : List String)
    (h : readerName = "" ∨ ¬ topicCreated m topicName ∨
      ∃ g, mapFind m.m_topics topicName = some (some g) ∧ readerRegistered g readerName) :
    createSubscriber m rt topicName readerName filter filterParams = some (false, m, rt) := by
  unfold createSubscriber
  by_cases hr : readerName = ""
  · simp [hr]
  · rw [if_neg hr]
    rcases h with h | h | ⟨g, hg, -, hl⟩
    · exact absurd h hr
    · cases hf : mapFind m.m_topics topicName with
      | none => rfl
      | some og =>
        cases og with
        | none => rfl
        | some g =>
          cases ht : g.topic with
          | none => simp [ht]
          | some t =>
            exact absurd ⟨g, hf, by simp [ht]⟩ h
    · rw [hg]
      cases ht : g.topic with
      | none => simp [ht]
      | some t =>
        cases hl2 : mapFind g.m_readerListeners readerName with
        | none => simp [hl2] at hl
        | some l => simp [ht, hl2]

theorem createSubscriber_precondition_error_witness :
    (∃ g, mapFind sampleReaderManager.m_topics "T" = some (some g) ∧ readerRegistered g "R") ∧
      createSubscriber sampleReaderManager rtOk "T" "R" "x > 1" [] =
        some (false, sampleReaderManager, rtOk) :=
  ⟨⟨sampleReaderGroup, rfl, rfl, rfl⟩,
    createSubscriber_precondition_error sampleReaderManager rtOk "T" "R" "x > 1" []
      (Or.inr (Or.inr ⟨sampleReaderGroup, rfl, rfl, rfl⟩))⟩

/-! ## Properties of `registerQos` -/

/-- C2: when the group of topic `t` already has a registered profile (`qosPreset` is not
the unset value `-1`), `registerQos(t, q)` returns true for every profile id `q` and leaves
the manager and the runtime exactly as they were (so `qosPreset` and the topic, reader and
writer QoS are unchanged); and from every state, whatever a first `registerQos(t, q)` call
returns, a second call with the same arguments returns the same value and changes
nothing. -/
theorem registerQos_first_wins (qd : QosDictionary) :
    (∀ (m : DDSManager) (rt : Runtime) (t : String) (g : TopicGroup) (q : QosType),
        mapFind m.m_topics t = some (some g) → g.qosPreset ≠ -1 →
          registerQos qd m rt t q = some (true, m, rt)) ∧
    (∀ (m : DDSManager) (rt : Runtime) (t : String) (q : QosType)
        (r : Bool × DDSManager × Runtime),
        registerQos qd m rt t q = some r → registerQos qd r.2.1 r.2.2 t q = some r) := by
  have first : ∀ (m : DDSManager) (rt : Runtime) (t : String) (g : TopicGroup) (q : QosType),
      mapFind m.m_topics t = some (some g) → g.qosPreset ≠ -1 →
        registerQos qd m rt t q = some (true, m, rt) := by
    intro m rt t g q h hp
    simp [registerQos, h, hp]
  refine ⟨first, ?_⟩
  intro m rt t q r hr
  cases hf : mapFind m.m_topics t with
  | none =>
    have : r = (false, m, rt) := by simpa [registerQos, hf] using hr.symm
    subst this
    simp [registerQos, hf]
  | some og =>
    cases og with
    | none => simp [registerQos, hf] at hr
    | some g =>
      by_cases hp : g.qosPreset = -1
      · have done : ∀ (tq : TopicQos) (rq : DataReaderQos) (wq : DataWriterQos),
            r = (true,
              m.setGroup t
                { g with topicQos := tq, dataReaderQos := rq, dataWriterQos := wq,
                         qosPreset := (q : Int) },
              afterWriterSetQos g (setReaderQosLoop rq g.readers rt) wq) →
            registerQos qd r.2.1 r.2.2 t q = some r := by
          intro tq rq wq hr2
          subst hr2
          refine first _ _ t _ q (find_setGroup m t _) ?_
          simp only
          omega
        unfold registerQos at hr
        simp only [hf, hp, ne_eq, not_true_eq_false, if_false] at hr
        by_cases h0 : q = LATEST_RELIABLE_TRANSIENT
        · rw [if_pos h0, registerQos_applied qd m rt t g q _ _ _ hf] at hr
          exact done _ _ _ (Option.some.inj hr).symm
        · rw [if_neg h0] at hr
          by_cases h1 : q = LATEST_RELIABLE
          · rw [if_pos h1, registerQos_applied qd m rt t g q _ _ _ hf] at hr
            exact done _ _ _ (Option.some.inj hr).symm
          · rw [if_neg h1] at hr
            by_cases h2 : q = STRICT_RELIABLE
            · rw [if_pos h2, registerQos_applied qd m rt t g q _ _ _ hf] at hr
              exact done _ _ _ (Option.some.inj hr).symm
            · rw [if_neg h2] at hr
              by_cases h3 : q = BEST_EFFORT
              · rw [if_pos h3, registerQos_applied qd m rt t g q _ _ _ hf] at hr
                exact done _ _ _ (Option.some.inj hr).symm
              · rw [if_neg h3] at hr
                have : r = (false, m, rt) := (Option.some.inj hr).symm
                subst this
                simp [registerQos, hf, hp, h0, h1, h2, h3]
      · have : r = (true, m, rt) := by
          rw [first m rt t g q hf hp] at hr
          exact (Option.some.inj hr).symm
        subst this
        exact first m rt t g q hf hp

theorem registerQos_first_wins_witness :
    (mapFind samplePresetManager.m_topics "T" = some (some samplePresetGroup) ∧
      samplePresetGroup.qosPreset ≠ -1 ∧
      registerQos sampleQos samplePresetManager rtOk "T" BEST_EFFORT =
        some (true, samplePresetManager, rtOk)) ∧
    (registerQos sampleQos sampleManager rtOk "T" BEST_EFFORT =
        some (true, sampleManager.setGroup "T"
          { sampleGroup with
            topicQos := sampleQos.Topic_bestEffort,
            dataReaderQos := sampleQos.DataReader_bestEffort,
            dataWriterQos := sampleQos.DataWriter_bestEffort,
            qosPreset := 3 }, rtOk) ∧
      registerQos sampleQos
          (sampleManager.setGroup "T"
            { sampleGroup with
              topicQos := sampleQos.Topic_bestEffort,
              dataReaderQos := sampleQos.DataReader_bestEffort,
              dataWriterQos := sampleQos.DataWriter_bestEffort,
              qosPreset := 3 }) rtOk "T" BEST_EFFORT =
        some (true, sampleManager.setGroup "T"
          { sampleGroup with
            topicQos := sampleQos.Topic_bestEffort,
            dataReaderQos := sampleQos.DataReader_bestEffort,
            dataWriterQos := sampleQos.DataWriter_bestEffort,
            qosPreset := 3 }, rtOk)) :=
  ⟨⟨rfl, by decide,
      (registerQos_first_wins sampleQos).1 samplePresetManager rtOk "T" samplePresetGroup
        BEST_EFFORT rfl (by decide)⟩,
    ⟨by rfl,
      (registerQos_first_wins sampleQos).2 sampleManager rtOk "T" BEST_EFFORT _ (by rfl)⟩⟩

/-- C10: when the group `g` of topic `t` has no registered profile (`qosPreset = -1`),
`registerQos(t, P)` returns true for each of the four profile ids `P`; afterwards the
group's topic, reader and writer QoS are the table's values for `P` and `qosPreset` is
`P`, while the publisher and subscriber QoS, every entity handle and every map of the
group are unchanged. -/
theorem registerQos_applies_profile (qd : QosDictionary) (m : DDSManager) (rt : Runtime)
    (t : String) (g : TopicGroup) (h : mapFind m.m_topics t = some (some g))
    (hp : g.qosPreset = -1) :
    AppliedProfile t g LATEST_RELIABLE_TRANSIENT qd.Topic_latestReliableTransient
        qd.DataReader_latestReliableTransient qd.DataWriter_latestReliableTransient
        (registerQos qd m rt t LATEST_RELIABLE_TRANSIENT) ∧
      AppliedProfile t g LATEST_RELIABLE qd.Topic_latestReliable
        qd.DataReader_latestReliable qd.DataWriter_latestReliable
        (registerQos qd m rt t LATEST_RELIABLE) ∧
      AppliedProfile t g STRICT_RELIABLE qd.Topic_strictReliable
        qd.DataReader_strictReliable qd.DataWriter_strictReliable
        (registerQos qd m rt t STRICT_RELIABLE) ∧
      AppliedProfile t g BEST_EFFORT qd.Topic_bestEffort
        qd.DataReader_bestEffort qd.DataWriter_bestEffort
        (registerQos qd m rt t BEST_EFFORT) := by
  have key : ∀ (P : QosType) (tq : TopicQos) (rq : DataReaderQos) (wq : DataWriterQos),
      registerQos qd m rt t P =
        some (true,
          m.setGroup t
            { g with topicQos := tq, dataReaderQos := rq, dataWriterQos := wq,
                     qosPreset := (P : Int) },
          afterWriterSetQos g (setReaderQosLoop rq g.readers rt) wq) →
      AppliedProfile t g P tq rq wq (registerQos qd m rt t P) := by
    intro P tq rq wq hr
    exact ⟨_, _, _, hr, find_setGroup m t _, rfl, rfl, rfl, rfl, rfl, rfl, rfl, rfl, rfl, rfl,
      rfl, rfl, rfl, rfl, rfl, rfl⟩
  have pick : ∀ (P : QosType), registerQos qd m rt t P =
      (match (if P = LATEST_RELIABLE_TRANSIENT then
          some (applyPreset qd m rt t qd.Topic_latestReliableTransient
            qd.DataReader_latestReliableTransient qd.DataWriter_latestReliableTransient)
        else if P = LATEST_RELIABLE then
          some (applyPreset qd m rt t qd.Topic_latestReliable
            qd.DataReader_latestReliable qd.DataWriter_latestReliable)
        else if P = STRICT_RELIABLE then
          some (applyPreset qd m rt t qd.Topic_strictReliable
            qd.DataReader_strictReliable qd.DataWriter_strictReliable)
        else if P = BEST_EFFORT then
          some (applyPreset qd m rt t qd.Topic_bestEffort
            qd.DataReader_bestEffort qd.DataWriter_bestEffort)
        else none : Option (Option (DDSManager × Runtime))) with
      | none => some (false, m, rt)
      | some none => none
      | some (some (m1, rt1)) =>
        match mapFind m1.m_topics t with
        | some (some g1) =>
          some (true, m1.setGroup t { g1 with qosPreset := (P : Int) }, rt1)
        | _ => none) := by
    intro P
    unfold registerQos
    simp only [h, hp, ne_eq, not_true_eq_false, if_false]
  refine ⟨key _ _ _ _ ?_, key _ _ _ _ ?_, key _ _ _ _ ?_, key _ _ _ _ ?_⟩
  · rw [pick, if_pos rfl, registerQos_applied qd m rt t g _ _ _ _ h]
  · rw [pick, if_neg (by decide), if_pos rfl, registerQos_applied qd m rt t g _ _ _ _ h]
  · rw [pick, if_neg (by decide), if_neg (by decide), if_pos rfl,
      registerQos_applied qd m rt t g _ _ _ _ h]
  · rw [pick, if_neg (by decide), if_neg (by decide), if_neg (by decide), if_pos rfl,
      registerQos_applied qd m rt t g _ _ _ _ h]

theorem registerQos_applies_profile_witness :
    (mapFind sampleManager.m_topics "T" = some (some sampleGroup) ∧
      sampleGroup.qosPreset = -1) ∧
    AppliedProfile "T" sampleGroup STRICT_RELIABLE sampleQos.Topic_strictReliable
      sampleQos.DataReader_strictReliable sampleQos.DataWriter_strictReliable
      (registerQos sampleQos sampleManager rtOk "T" STRICT_RELIABLE) :=
  ⟨⟨rfl, rfl⟩,
    (registerQos_applies_profile sampleQos sampleManager rtOk "T" sampleGroup rfl rfl).2.2.1⟩

/-! ## Properties of `replaceFilter` -/

theorem create_datareader_some (rt rt1 : Runtime) (subscriber : Ref)
    (desc : Option TopicDescription) (qos : DataReaderQos) (listener : Nat) (r : DataReader)
    (h : rt.create_datareader subscriber desc qos listener = (some r, rt1)) :
    r.topicdescription = desc := by
  unfold Runtime.create_datareader at h
  cases desc with
  | none => simp at h
  | some d =>
    simp only at h
    split at h
    · simp at h
    · simp only [Prod.mk.injEq, Option.some.injEq] at h
      rw [← h.1]

theorem stopEmitter_fields (g : TopicGroup) (rt : Runtime) (R : String) :
    (stopEmitter g rt R).2.1.readers = g.readers ∧
      (stopEmitter g rt R).2.1.filteredTopics = g.filteredTopics ∧
      (stopEmitter g rt R).2.1.m_readerListeners = g.m_readerListeners ∧
      (stopEmitter g rt R).2.1.topic = g.topic := by
  unfold stopEmitter
  cases mapFind g.emitters R with
  | none => simp
  | some e =>
    by_cases hr : e.running = true
    · simp [hr]
    · simp [hr]

theorem removeOldFilter_fields (m : DDSManager) (c : Option ContentFilteredTopic)
    (g : TopicGroup) (rt : Runtime) :
    (removeOldFilter m c g rt).2.1.readers = g.readers ∧
      (removeOldFilter m c g rt).2.1.m_readerListeners = g.m_readerListeners ∧
      (removeOldFilter m c g rt).2.1.topic = g.topic := by
  unfold removeOldFilter
  cases c with
  | none => simp
  | some c =>
    cases m.m_domainParticipant with
    | none => simp
    | some d => simp

theorem create_contentfilteredtopic_some (rt rt1 : Runtime) (name : String)
    (related : Option Ref) (expression : String) (params : List String)
    (c : ContentFilteredTopic)
    (h : rt.create_contentfilteredtopic name related expression params = (some c, rt1)) :
    c.name = name := by
  unfold Runtime.create_contentfilteredtopic at h
  split at h
  · simp at h
  · simp only [Prod.mk.injEq, Option.some.injEq] at h
    rw [← h.1]

theorem mem_mapKeys_of_find {V : Type} (l : List (String × V)) (k : String) (v : V)
    (h : mapFind l k = some v) : k ∈ mapKeys l := by
  induction l with
  | nil => simp [mapFind] at h
  | cons hd tl ih =>
    obtain ⟨k1, v1⟩ := hd
    by_cases hk : k1 = k
    · simp [mapKeys, hk]
    · have h2 : mapFind tl k = some v := by simpa [mapFind, hk] using h
      have := ih h2
      simp only [mapKeys] at this
      simp [mapKeys, this]

theorem getReader_eq (m : DDSManager) (t R : String) (g : TopicGroup) (hR : R ≠ "")
    (hg : mapFind m.m_topics t = some (some g)) : getReader m t R = mapFind g.readers R := by
  unfold getReader
  rw [if_neg hR, hg]
  simp only
  split
  · rename_i he
    rw [he]
    rfl
  · rfl

theorem wrapInt32_of_inRange (x : Int) (h : inIntRange x) : wrapInt32 x = x := by
  unfold inIntRange at h
  unfold wrapInt32
  omega

theorem call_log (rt : Runtime) (e : Event) : (rt.call e).2.log = rt.log ++ [e] := by
  unfold Runtime.call
  split <;> rfl

theorem call_survives (rt : Runtime) (e : Event) :
    (rt.call e).2.survivesNilCall = rt.survivesNilCall := by
  unfold Runtime.call
  split <;> rfl

theorem record_log (rt : Runtime) (e : Event) : (rt.record e).log = rt.log ++ [e] := rfl

theorem nilCall_log (rt rt1 : Runtime) (e : Event) (h : rt.nilCall e = some rt1) :
    rt1.log = rt.log ++ [e] ∧ rt1.survivesNilCall = rt.survivesNilCall := by
  unfold Runtime.nilCall at h
  split at h
  · cases h
    exact ⟨rfl, rfl⟩
  · simp at h

theorem deleteReaders_log (subscriber : Ref) (l : List (String × DataReader)) (rt : Runtime) :
    (deleteReaders subscriber l rt).log =
        rt.log ++ l.map (fun x => Event.delete_datareader subscriber (some x.2)) ∧
      (deleteReaders subscriber l rt).survivesNilCall = rt.survivesNilCall := by
  induction l generalizing rt with
  | nil => simp [deleteReaders]
  | cons hd tl ih =>
    obtain ⟨k, r⟩ := hd
    simp only [deleteReaders, List.map_cons]
    rw [(ih _).1, (ih _).2, call_log, call_survives]
    simp

theorem stopEmitters_log (l : List (String × Emitter)) (rt : Runtime) :
    (stopEmitters l rt).log = rt.log ++ l.map (fun x => Event.emitter_stop x.2.id) ∧
      (stopEmitters l rt).survivesNilCall = rt.survivesNilCall := by
  induction l generalizing rt with
  | nil => simp [stopEmitters]
  | cons hd tl ih =>
    obtain ⟨k, e⟩ := hd
    simp only [stopEmitters, List.map_cons]
    rw [(ih _).1, (ih _).2, record_log]
    simp [Runtime.record]

theorem deleteFilteredTopics_log (l : List (String × ContentFilteredTopic)) (rt : Runtime) :
    (deleteFilteredTopics l rt).log =
        rt.log ++ l.map (fun x => Event.delete_contentfilteredtopic x.2) ∧
      (deleteFilteredTopics l rt).survivesNilCall = rt.survivesNilCall := by
  induction l generalizing rt with
  | nil => simp [deleteFilteredTopics]
  | cons hd tl ih =>
    obtain ⟨k, c⟩ := hd
    simp only [deleteFilteredTopics, List.map_cons]
    rw [(ih _).1, (ih _).2, call_log, call_survives]
    simp

theorem reportWithTopicName_log (topic : Option Ref) (rc : ReturnCode) (rt rt1 : Runtime)
    (h : reportWithTopicName topic rc rt = some rt1) :
    (rt1.log = rt.log ∨ rt1.log = rt.log ++ [Event.get_name none]) ∧
      rt1.survivesNilCall = rt.survivesNilCall := by
  unfold reportWithTopicName at h
  split at h
  · split at h
    · cases h
      exact ⟨Or.inl rfl, rfl⟩
    · have := nilCall_log _ _ _ h
      exact ⟨Or.inr this.1, this.2⟩
  · cases h
    exact ⟨Or.inl rfl, rfl⟩

theorem reportWithTopicName_total (topic : Option Ref) (rc : ReturnCode) (rt : Runtime)
    (h : topic ≠ none ∨ rt.survivesNilCall = true) :
    ∃ rt1, reportWithTopicName topic rc rt = some rt1 := by
  unfold reportWithTopicName
  split
  · cases topic with
    | some t => exact ⟨_, rfl⟩
    | none =>
      rcases h with h | h
      · exact absurd rfl h
      · simp [Runtime.nilCall, h]
  · exact ⟨_, rfl⟩

/-- A stage that issues the call `e` and then possibly reports with the topic name adds to
the log calls of the stage of `e` or of no stage. -/
theorem reported_stage (i : Nat) (topic : Option Ref) (rt rt1 : Runtime) (e : Event)
    (he : destroyStage e = some i)
    (h : reportWithTopicName topic (rt.call e).1 (rt.call e).2 = some rt1) :
    ∃ P, rt1.log = rt.log ++ P ∧ rt1.survivesNilCall = rt.survivesNilCall ∧
      ∀ x ∈ P, destroyStage x = some i ∨ destroyStage x = none := by
  obtain ⟨hlog, hs⟩ := reportWithTopicName_log _ _ _ _ h
  rw [call_log] at hlog
  rw [call_survives] at hs
  rcases hlog with hlog | hlog
  · refine ⟨[e], hlog, hs, ?_⟩
    intro x hx
    simp only [List.mem_singleton] at hx
    rw [hx]
    exact Or.inl he
  · refine ⟨[e, Event.get_name none], by rw [hlog]; simp, hs, ?_⟩
    intro x hx
    simp only [List.mem_cons, List.mem_singleton, List.not_mem_nil, or_false] at hx
    rcases hx with hx | hx
    · rw [hx]; exact Or.inl he
    · rw [hx]; exact Or.inr rfl

theorem deleteReadersStage_log (g : TopicGroup) (rt : Runtime) :
    ∃ P, (g.deleteReadersStage rt).log = rt.log ++ P ∧
      (g.deleteReadersStage rt).survivesNilCall = rt.survivesNilCall ∧
      (∀ x ∈ P, destroyStage x = some 0 ∨ destroyStage x = none) ∧
      (∀ subscriber, g.subscriber = some subscriber → ∀ e ∈ g.readers,
        Event.delete_datareader subscriber (some e.2) ∈ P) := by
  unfold TopicGroup.deleteReadersStage
  cases hs : g.subscriber with
  | none => exact ⟨[], by simp, rfl, by simp, by simp⟩
  | some subscriber =>
    by_cases he : g.readers = []
    · refine ⟨[], by simp [he], by simp [he], by simp, ?_⟩
      intro s _ e hmem
      rw [he] at hmem
      simp at hmem
    · refine ⟨_, by simp only [ne_eq, he, not_false_eq_true, if_true]
                    exact (deleteReaders_log subscriber g.readers rt).1,
        by simp only [ne_eq, he, not_false_eq_true, if_true]
           exact (deleteReaders_log subscriber g.readers rt).2, ?_, ?_⟩
      · intro x hx
        simp only [List.mem_map] at hx
        obtain ⟨a, -, ha⟩ := hx
        rw [← ha]
        exact Or.inl rfl
      · intro s hseq e hmem
        cases hseq
        exact List.mem_map.mpr ⟨e, hmem, rfl⟩

theorem deleteWriterStage_log (g : TopicGroup) (rt rt1 : Runtime)
    (h : g.deleteWriterStage rt = some rt1) :
    ∃ P, rt1.log = rt.log ++ P ∧ rt1.survivesNilCall = rt.survivesNilCall ∧
      ∀ x ∈ P, destroyStage x = some 1 ∨ destroyStage x = none := by
  unfold TopicGroup.deleteWriterStage at h
  split at h
  · exact reported_stage 1 _ _ _ _ (by rfl) h
  · cases h
    exact ⟨[], by simp, rfl, by simp⟩

theorem deletePublisherStage_log (g : TopicGroup) (rt rt1 : Runtime)
    (h : g.deletePublisherStage rt = some rt1) :
    ∃ P, rt1.log = rt.log ++ P ∧ rt1.survivesNilCall = rt.survivesNilCall ∧
      ∀ x ∈ P, destroyStage x = some 2 ∨ destroyStage x = none := by
  unfold TopicGroup.deletePublisherStage at h
  split at h
  · exact reported_stage 2 _ _ _ _ (by rfl) h
  · cases h
    exact ⟨[], by simp, rfl, by simp⟩

theorem deleteSubscriberStage_log (g : TopicGroup) (rt rt1 : Runtime)
    (h : g.deleteSubscriberStage rt = some rt1) :
    ∃ P, rt1.log = rt.log ++ P ∧ rt1.survivesNilCall = rt.survivesNilCall ∧
      ∀ x ∈ P, destroyStage x = some 3 ∨ destroyStage x = none := by
  unfold TopicGroup.deleteSubscriberStage at h
  split at h
  · exact reported_stage 3 _ _ _ _ (by rfl) h
  · cases h
    exact ⟨[], by simp, rfl, by simp⟩

theorem deleteFiltersStage_log (g : TopicGroup) (rt : Runtime) :
    ∃ P, (g.deleteFiltersStage rt).log = rt.log ++ P ∧
      ∀ x ∈ P, destroyStage x = some 5 ∨ destroyStage x = none := by
  unfold TopicGroup.deleteFiltersStage
  cases g.domain with
  | none => exact ⟨[], by simp, by simp⟩
  | some d =>
    by_cases he : g.filteredTopics = []
    · exact ⟨[], by simp [he], by simp⟩
    · refine ⟨_, by simp only [ne_eq, he, not_false_eq_true, if_true]
                    exact (deleteFilteredTopics_log g.filteredTopics rt).1, ?_⟩
      intro x hx
      simp only [List.mem_map] at hx
      obtain ⟨a, -, ha⟩ := hx
      rw [← ha]
      exact Or.inl rfl

theorem deleteTopicStage_log (g : TopicGroup) (rt : Runtime) :
    ∃ P, (g.deleteTopicStage rt).log = rt.log ++ P ∧
      ∀ x ∈ P, destroyStage x = some 6 ∨ destroyStage x = none := by
  unfold TopicGroup.deleteTopicStage
  split
  · refine ⟨_, call_log _ _, ?_⟩
    intro x hx
    simp only [List.mem_singleton] at hx
    rw [hx]
    exact Or.inl rfl
  · exact ⟨[], by simp, by simp⟩

/-- A block of calls of stage `i` followed by calls of stages from `i` on, in order, is in
order. -/
theorem followsOrder_block (i : Nat) (P Q : List Event)
    (hP : ∀ x ∈ P, destroyStage x = some i ∨ destroyStage x = none)
    (hQ : FollowsOrder destroyStage Q) (hlo : ∀ n ∈ Q.filterMap destroyStage, i ≤ n) :
    FollowsOrder destroyStage (P ++ Q) ∧ ∀ n ∈ (P ++ Q).filterMap destroyStage, i ≤ n := by
  have hPi : ∀ n ∈ P.filterMap destroyStage, n = i := by
    intro n hn
    simp only [List.mem_filterMap] at hn
    obtain ⟨x, hx, hxn⟩ := hn
    rcases hP x hx with h | h
    · rw [h] at hxn
      exact (Option.some.inj hxn).symm
    · rw [h] at hxn
      cases hxn
  constructor
  · unfold FollowsOrder
    rw [List.filterMap_append, List.pairwise_append]
    refine ⟨?_, hQ, ?_⟩
    · rw [List.pairwise_iff_forall_sublist]
      intro a b hab
      have ha := hPi a (hab.subset (by simp))
      have hb := hPi b (hab.subset (by simp))
      omega
    · intro a ha b hb
      rw [hPi a ha]
      exact hlo b hb
  · intro n hn
    rw [List.filterMap_append, List.mem_append] at hn
    rcases hn with hn | hn
    · rw [hPi n hn]
    · exact hlo n hn

theorem followsOrder_nil_block (i : Nat) (P : List Event)
    (hP : ∀ x ∈ P, destroyStage x = some i ∨ destroyStage x = none) :
    FollowsOrder destroyStage P ∧ ∀ n ∈ P.filterMap destroyStage, i ≤ n := by
  have := followsOrder_block i P [] hP (by simp [FollowsOrder]) (by simp)
  simpa using this

/-- The destructor returns when the group has a topic or the runtime survives a call
through a nil handle. -/
theorem destroy_total (g : TopicGroup) (rt : Runtime)
    (hsurv : g.topic ≠ none ∨ rt.survivesNilCall = true) : ∃ rt1, g.destroy rt = some rt1 := by
  unfold TopicGroup.destroy
  obtain ⟨P0, h0, hs0, -, -⟩ := deleteReadersStage_log g rt
  have t1 : ∃ rt2, g.deleteWriterStage (g.deleteReadersStage rt) = some rt2 := by
    unfold TopicGroup.deleteWriterStage
    split
    · exact reportWithTopicName_total _ _ _ (by rw [call_survives, hs0]; exact hsurv)
    · exact ⟨_, rfl⟩
  obtain ⟨rt2, hw⟩ := t1
  obtain ⟨P1, -, hs1, -⟩ := deleteWriterStage_log g _ rt2 hw
  have t2 : ∃ rt3, g.deletePublisherStage rt2 = some rt3 := by
    unfold TopicGroup.deletePublisherStage
    split
    · exact reportWithTopicName_total _ _ _ (by rw [call_survives, hs1, hs0]; exact hsurv)
    · exact ⟨_, rfl⟩
  obtain ⟨rt3, hp⟩ := t2
  obtain ⟨P2, -, hs2, -⟩ := deletePublisherStage_log g rt2 rt3 hp
  have t3 : ∃ rt4, g.deleteSubscriberStage rt3 = some rt4 := by
    unfold TopicGroup.deleteSubscriberStage
    split
    · exact reportWithTopicName_total _ _ _
        (by rw [call_survives, hs2, hs1, hs0]; exact hsurv)
    · exact ⟨_, rfl⟩
  obtain ⟨rt4, hsub⟩ := t3
  rw [hw]
  simp only
  rw [hp]
  simp only
  rw [hsub]
  exact ⟨_, rfl⟩

/-- C4 (amended): the calls issued by the destruction of a Topic Group follow the fixed
order of the source: delete readers, delete the writer, delete the publisher, delete the
subscriber, stop the delivery workers, delete the filter-topic variants, delete the topic.
Every reader is deleted when the group has a subscriber, every delivery worker is stopped,
and the destructor returns when the group has a topic or the runtime survives a call
through a nil handle. -/
theorem destroy_follows_source_order (g : TopicGroup) (rt : Runtime) :
    (∀ rt1, g.destroy rt = some rt1 →
      ∃ calls, rt1.log = rt.log ++ calls ∧ FollowsOrder destroyStage calls ∧
        (∀ subscriber, g.subscriber = some subscriber → ∀ e ∈ g.readers,
          Event.delete_datareader subscriber (some e.2) ∈ calls) ∧
        (∀ e ∈ g.emitters, Event.emitter_stop e.2.id ∈ calls)) ∧
    (g.topic ≠ none ∨ rt.survivesNilCall = true → ∃ rt1, g.destroy rt = some rt1) := by
  constructor
  · intro rt1 h
    unfold TopicGroup.destroy at h
    obtain ⟨P0, h0, hs0, hP0, hreaders⟩ := deleteReadersStage_log g rt
    split at h
    · simp at h
    · rename_i rt2 hw
      obtain ⟨P1, h1, hs1, hP1⟩ := deleteWriterStage_log g _ rt2 hw
      split at h
      · simp at h
      · rename_i rt3 hp
        obtain ⟨P2, h2, hs2, hP2⟩ := deletePublisherStage_log g rt2 rt3 hp
        split at h
        · simp at h
        · rename_i rt4 hsub
          obtain ⟨P3, h3, hs3, hP3⟩ := deleteSubscriberStage_log g rt3 rt4 hsub
          obtain ⟨P5, h5, hP5⟩ := deleteFiltersStage_log g (stopEmitters g.emitters rt4)
          obtain ⟨P6, h6, hP6⟩ :=
            deleteTopicStage_log g (g.deleteFiltersStage (stopEmitters g.emitters rt4))
          have h4 := (stopEmitters_log g.emitters rt4).1
          have hP4 : ∀ x ∈ g.emitters.map (fun x => Event.emitter_stop x.2.id),
              destroyStage x = some 4 ∨ destroyStage x = none := by
            intro x hx
            simp only [List.mem_map] at hx
            obtain ⟨a, -, ha⟩ := hx
            rw [← ha]
            exact Or.inl rfl
          cases h
          refine ⟨P0 ++ (P1 ++ (P2 ++ (P3 ++
            (g.emitters.map (fun x => Event.emitter_stop x.2.id) ++ (P5 ++ P6))))), ?_, ?_, ?_, ?_⟩
          · rw [h6, h5, h4, h3, h2, h1, h0]
            simp only [List.append_assoc]
          · have o6 := followsOrder_nil_block 6 P6 hP6
            have o5 := followsOrder_block 5 P5 P6 hP5 o6.1 (fun n hn => by
              have := o6.2 n hn; omega)
            have o4 := followsOrder_block 4 _ _ hP4 o5.1 (fun n hn => by
              have := o5.2 n hn; omega)
            have o3 := followsOrder_block 3 P3 _ hP3 o4.1 (fun n hn => by
              have := o4.2 n hn; omega)
            have o2 := followsOrder_block 2 P2 _ hP2 o3.1 (fun n hn => by
              have := o3.2 n hn; omega)
            have o1 := followsOrder_block 1 P1 _ hP1 o2.1 (fun n hn => by
              have := o2.2 n hn; omega)
            exact (followsOrder_block 0 P0 _ hP0 o1.1 (fun n hn => by
              have := o1.2 n hn; omega)).1
          · intro subscriber hs e he
            exact List.mem_append_left _ (hreaders subscriber hs e he)
          · intro e he
            simp only [List.mem_append]
            right; right; right; right; left
            exact List.mem_map.mpr ⟨e, he, rfl⟩
  · exact destroy_total g rt

theorem destroy_follows_source_order_witness :
    ((workerGroup.topic ≠ none ∨ rtOk.survivesNilCall = true) ∧
      ∃ rt1, workerGroup.destroy rtOk = some rt1) ∧
    ∃ rt1, workerGroup.destroy rtOk = some rt1 ∧
      ∃ calls, rt1.log = rtOk.log ++ calls ∧ FollowsOrder destroyStage calls ∧
        (∀ subscriber, workerGroup.subscriber = some subscriber → ∀ e ∈ workerGroup.readers,
          Event.delete_datareader subscriber (some e.2) ∈ calls) ∧
        (∀ e ∈ workerGroup.emitters, Event.emitter_stop e.2.id ∈ calls) :=
  ⟨⟨Or.inr rfl, (destroy_follows_source_order workerGroup rtOk).2 (Or.inr rfl)⟩,
    _, rfl, (destroy_follows_source_order workerGroup rtOk).1 _ rfl⟩

/-- C4 as stated fails: destroying a group that has a reader and a delivery worker deletes
the reader, the writer, the publisher and the subscriber first and stops the worker only
then; the log does not follow the order of the spec. -/
theorem destroy_stops_workers_after_readers :
    (workerGroup.destroy rtOk).map Runtime.log =
        some [Event.delete_datareader 100 (some ⟨101, some (TopicDescription.filtered ⟨99, "T_R_0"⟩)⟩),
          Event.delete_datawriter 10 11,
          Event.delete_publisher 10,
          Event.delete_subscriber 100,
          Event.emitter_stop 7,
          Event.delete_contentfilteredtopic ⟨99, "T_R_0"⟩,
          Event.delete_topic 1] ∧
      ¬ FollowsOrder specStage
        [Event.delete_datareader 100 (some ⟨101, some (TopicDescription.filtered ⟨99, "T_R_0"⟩)⟩),
          Event.delete_datawriter 10 11,
          Event.delete_publisher 10,
          Event.delete_subscriber 100,
          Event.emitter_stop 7,
          Event.delete_contentfilteredtopic ⟨99, "T_R_0"⟩,
          Event.delete_topic 1] := by
  refine ⟨rfl, ?_⟩
  unfold FollowsOrder
  decide

/-! ## Properties of `createPublisher` -/

/-- C5 fails on the code: when the runtime creates the publisher and refuses the writer,
`createPublisher` returns false but the group keeps the publisher (and no writer); the
next `createPublisher` finds the publisher, creates nothing, and returns true while the
group still has no writer. -/
theorem createPublisher_exposes_publisher_without_writer :
    ∃ m1 rt1 g1,
      createPublisher sampleManager rtWriterFails "T" = some (false, m1, rt1) ∧
      mapFind m1.m_topics "T" = some (some g1) ∧
      g1.publisher = some 100 ∧ g1.writer = none ∧
      createPublisher m1 rt1 "T" = some (true, m1, rt1) ∧
      getWriter m1 "T" = none :=
  ⟨_, _, _, rfl, rfl, rfl, rfl, rfl, rfl⟩

/-! ## Properties of `unregisterTopic` and `cleanUpTopicsForOneManager` -/

theorem mapFind_mapErase_ne {V : Type} (l : List (String × V)) (k k2 : String)
    (hne : k2 ≠ k) : mapFind (mapErase l k) k2 = mapFind l k2 := by
  induction l with
  | nil => rfl
  | cons hd tl ih =>
    obtain ⟨k1, v1⟩ := hd
    by_cases h : k1 = k
    · subst h
      have : ¬ k1 = k2 := fun h => hne h.symm
      simp [mapErase, mapFind, this]
    · by_cases h2 : k1 = k2
      · subst h2
        simp [mapErase, mapFind, h]
      · simp [mapErase, mapFind, h, h2, ih]

theorem mem_of_mem_mapErase {V : Type} (l : List (String × V)) (k : String) (x : String × V)
    (h : x ∈ mapErase l k) : x ∈ l := by
  induction l with
  | nil => simp [mapErase] at h
  | cons hd tl ih =>
    obtain ⟨k1, v1⟩ := hd
    by_cases hk : k1 = k
    · simp only [mapErase, hk, if_true] at h
      exact List.mem_cons_of_mem _ h
    · simp only [mapErase, hk, if_false, List.mem_cons] at h
      rcases h with h | h
      · rw [h]; exact List.mem_cons_self _ _
      · exact List.mem_cons_of_mem _ (ih h)

theorem mapKeys_mapErase_sublist {V : Type} (l : List (String × V)) (k : String) :
    (mapKeys (mapErase l k)).Sublist (mapKeys l) := by
  induction l with
  | nil => simp [mapErase, mapKeys]
  | cons hd tl ih =>
    obtain ⟨k1, v1⟩ := hd
    by_cases hk : k1 = k
    · simp only [mapErase, hk, if_true, mapKeys, List.map_cons]
      exact List.sublist_cons_self _ _
    · simp only [mapErase, hk, if_false, mapKeys, List.map_cons]
      exact List.Sublist.cons₂ _ ih

theorem not_mem_mapKeys_mapErase {V : Type} (l : List (String × V)) (k : String)
    (hnd : (mapKeys l).Nodup) : k ∉ mapKeys (mapErase l k) := by
  induction l with
  | nil => simp [mapErase, mapKeys]
  | cons hd tl ih =>
    obtain ⟨k1, v1⟩ := hd
    simp only [mapKeys, List.map_cons, List.nodup_cons] at hnd
    by_cases hk : k1 = k
    · subst hk
      simp only [mapErase, if_true]
      exact hnd.1
    · simp only [mapErase, hk, if_false, mapKeys, List.map_cons, List.mem_cons, not_or]
      exact ⟨fun h => hk h.symm, ih hnd.2⟩

theorem mapFind_of_mem {V : Type} (l : List (String × V)) (k : String) (v : V)
    (hnd : (mapKeys l).Nodup) (h : (k, v) ∈ l) : mapFind l k = some v := by
  induction l with
  | nil => simp at h
  | cons hd tl ih =>
    obtain ⟨k1, v1⟩ := hd
    simp only [mapKeys, List.map_cons, List.nodup_cons] at hnd
    simp only [List.mem_cons, Prod.mk.injEq] at h
    rcases h with ⟨h1, h2⟩ | h
    · simp [mapFind, h1, h2]
    · have hk : k1 ≠ k := by
        intro he
        apply hnd.1
        rw [he]
        exact List.mem_map.mpr ⟨(k, v), h, rfl⟩
      simp [mapFind, hk, ih hnd.2 h]

theorem deleteFiltersStage_survives (g : TopicGroup) (rt : Runtime) :
    (g.deleteFiltersStage rt).survivesNilCall = rt.survivesNilCall := by
  unfold TopicGroup.deleteFiltersStage
  cases g.domain with
  | none => rfl
  | some d =>
    by_cases he : g.filteredTopics = []
    · simp [he]
    · simp only [ne_eq, he, not_false_eq_true, if_true]
      exact (deleteFilteredTopics_log g.filteredTopics rt).2

theorem deleteTopicStage_survives (g : TopicGroup) (rt : Runtime) :
    (g.deleteTopicStage rt).survivesNilCall = rt.survivesNilCall := by
  unfold TopicGroup.deleteTopicStage
  split
  · exact call_survives _ _
  · rfl

theorem destroy_survives (g : TopicGroup) (rt rt1 : Runtime) (h : g.destroy rt = some rt1) :
    rt1.survivesNilCall = rt.survivesNilCall := by
  unfold TopicGroup.destroy at h
  obtain ⟨P0, -, hs0, -, -⟩ := deleteReadersStage_log g rt
  split at h
  · simp at h
  · rename_i rt2 hw
    obtain ⟨P1, -, hs1, -⟩ := deleteWriterStage_log g _ rt2 hw
    split at h
    · simp at h
    · rename_i rt3 hp
      obtain ⟨P2, -, hs2, -⟩ := deletePublisherStage_log g rt2 rt3 hp
      split at h
      · simp at h
      · rename_i rt4 hsub
        obtain ⟨P3, -, hs3, -⟩ := deleteSubscriberStage_log g rt3 rt4 hsub
        cases h
        rw [deleteTopicStage_survives, deleteFiltersStage_survives,
          (stopEmitters_log g.emitters rt4).2, hs3, hs2, hs1, hs0]

theorem mem_of_mapFind {V : Type} (l : List (String × V)) (k : String) (v : V)
    (h : mapFind l k = some v) : (k, v) ∈ l := by
  induction l with
  | nil => simp [mapFind] at h
  | cons hd tl ih =>
    obtain ⟨k1, v1⟩ := hd
    by_cases hk : k1 = k
    · simp only [mapFind, hk, if_true, Option.some.injEq] at h
      rw [hk, h]
      exact List.mem_cons_self _ _
    · have h2 : mapFind tl k = some v := by simpa [mapFind, hk] using h
      exact List.mem_cons_of_mem _ (ih h2)

/-- The tasks of `cleanUpTopicsForOneManager` all return true when each name is mapped to
a group, and they leave only null entries in the map; every destructor returns when the
group holds its topic handle or the runtime survives a call through a nil handle. -/
theorem runUnregisterTasks_true (names : List String) (m : DDSManager) (rt : Runtime)
    (hs : ∀ k g, (k, some g) ∈ m.m_topics → g.topic ≠ none ∨ rt.survivesNilCall = true)
    (hkeys : (mapKeys m.m_topics).Nodup)
    (hnames : names.Nodup)
    (hfound : ∀ n ∈ names, ∃ g, mapFind m.m_topics n = some (some g))
    (hall : ∀ k g, (k, some g) ∈ m.m_topics → k ∈ names) :
    ∃ m1 rt1, runUnregisterTasks names true m rt = some (true, m1, rt1) ∧
      (∀ k g, (k, some g) ∉ m1.m_topics) ∧
      m1.m_domainParticipant = m.m_domainParticipant ∧ m1.m_rlHandler = m.m_rlHandler ∧
      m1.m_wlHandler = m.m_wlHandler ∧ m1.m_domainID = m.m_domainID ∧
      m1.m_config = m.m_config ∧ m1.m_monitor = m.m_monitor ∧ m1.allocated = m.allocated := by
  induction names generalizing m rt with
  | nil =>
    refine ⟨m, rt, rfl, ?_, rfl, rfl, rfl, rfl, rfl, rfl, rfl⟩
    intro k g hmem
    have := hall k g hmem
    simp at this
  | cons n rest ih =>
    obtain ⟨g, hg⟩ := hfound n (List.mem_cons_self _ _)
    obtain ⟨rtd, hd⟩ := destroy_total g rt (hs n g (mem_of_mapFind _ _ _ hg))
    have hsd : rtd.survivesNilCall = rt.survivesNilCall := destroy_survives g rt rtd hd
    have hun : unregisterTopic m rt n =
        some (true, { m with m_topics := mapErase m.m_topics n }, rtd) := by
      simp [unregisterTopic, hg, hd]
    simp only [List.nodup_cons] at hnames
    have step := ih { m with m_topics := mapErase m.m_topics n } rtd
      (by
        intro k g2 hmem
        rw [hsd]
        exact hs k g2 (mem_of_mem_mapErase _ _ _ hmem))
      ((mapKeys_mapErase_sublist m.m_topics n).nodup hkeys) hnames.2
      (by
        intro n2 hn2
        obtain ⟨g2, hg2⟩ := hfound n2 (List.mem_cons_of_mem _ hn2)
        refine ⟨g2, ?_⟩
        have hne : n2 ≠ n := fun he => hnames.1 (he ▸ hn2)
        simp only
        rw [mapFind_mapErase_ne _ _ _ hne, hg2])
      (by
        intro k g2 hmem
        simp only at hmem
        have hin := mem_of_mem_mapErase _ _ _ hmem
        have hk := hall k g2 hin
        simp only [List.mem_cons] at hk
        rcases hk with hk | hk
        · exfalso
          apply not_mem_mapKeys_mapErase m.m_topics n hkeys
          subst hk
          exact List.mem_map.mpr ⟨(k, some g2), hmem, rfl⟩
        · exact hk)
    obtain ⟨m1, rt1, hrun, hnull, h1, h2, h3, h4, h5, h6, h7⟩ := step
    refine ⟨m1, rt1, ?_, hnull, h1, h2, h3, h4, h5, h6, h7⟩
    simp only [runUnregisterTasks, hun, Bool.and_true]
    exact hrun

theorem destroyAll_of_null (l : List (String × Option TopicGroup)) (rt : Runtime)
    (h : ∀ k g, (k, some g) ∉ l) : destroyAll l rt = some rt := by
  induction l with
  | nil => rfl
  | cons hd tl ih =>
    obtain ⟨k, v⟩ := hd
    cases v with
    | none =>
      simp only [destroyAll]
      exact ih (fun k2 g hmem => h k2 g (List.mem_cons_of_mem _ hmem))
    | some g => exact absurd (List.mem_cons_self _ _) (h k g)

/-- C9 (amended): `cleanUpTopicsForOneManager` leaves an empty registry map whatever it
returns; and, in a registry whose names are distinct and whose groups each hold their topic
handle (or with a runtime that survives a call through a nil handle), it returns true
whatever the runtime answers to the delete calls: every `unregisterTopic` task finds its
name mapped to a group and returns true, a delete call the runtime refuses is only
logged. -/
theorem cleanUp_empties_registry (m : DDSManager) (rt : Runtime) :
    (∀ b m1 rt1, cleanUpTopicsForOneManager m rt = some (b, m1, rt1) → m1.m_topics = []) ∧
    ((mapKeys m.m_topics).Nodup →
      (∀ k g, (k, some g) ∈ m.m_topics → g.topic ≠ none ∨ rt.survivesNilCall = true) →
      ∃ rt1, cleanUpTopicsForOneManager m rt = some (true, { m with m_topics := [] }, rt1)) := by
  constructor
  · intro b m1 rt1 h
    unfold cleanUpTopicsForOneManager at h
    simp only at h
    split at h
    · simp at h
    · split at h
      · simp at h
      · simp only [Option.some.injEq, Prod.mk.injEq] at h
        rw [← h.2.1]
  · intro hkeys hs
    have hsub : ((m.m_topics.filter (fun e => e.2.isSome)).map Prod.fst).Sublist
        (mapKeys m.m_topics) := by
      unfold mapKeys
      exact List.Sublist.map _ (List.filter_sublist _)
    obtain ⟨m1, rt1, hrun, hnull, h1, h2, h3, h4, h5, h6, h7⟩ :=
      runUnregisterTasks_true ((m.m_topics.filter (fun e => e.2.isSome)).map Prod.fst) m rt hs
        hkeys (hsub.nodup hkeys)
        (by
          intro n hn
          simp only [List.mem_map, List.mem_filter] at hn
          obtain ⟨⟨k, v⟩, ⟨hmem, hsome⟩, hk⟩ := hn
          simp only at hk hsome
          subst hk
          cases v with
          | none => simp at hsome
          | some g => exact ⟨g, mapFind_of_mem _ _ _ hkeys hmem⟩)
        (by
          intro k g hmem
          exact List.mem_map.mpr ⟨(k, some g), List.mem_filter.mpr ⟨hmem, rfl⟩, rfl⟩)
    refine ⟨rt1, ?_⟩
    unfold cleanUpTopicsForOneManager
    simp only [hrun, destroyAll_of_null _ rt1 hnull]
    cases m1
    cases m
    simp only at h1 h2 h3 h4 h5 h6 h7
    simp [h1, h2, h3, h4, h5, h6, h7]

theorem cleanUp_empties_registry_witness :
    ((mapKeys workerManager.m_topics).Nodup ∧
      (∀ k g, (k, some g) ∈ workerManager.m_topics → g.topic ≠ none ∨
        ({ rtWriterFails with survivesNilCall := false } : Runtime).survivesNilCall = true)) ∧
    (rtWriterFails.call (Event.delete_datareader 100 none)).2.nextCode =
      ReturnCode.RETCODE_ERROR ∧
    (∃ rt1, cleanUpTopicsForOneManager workerManager
        { rtWriterFails with survivesNilCall := false } =
      some (true, { workerManager with m_topics := [] }, rt1)) ∧
    ∃ b m1 rt1, cleanUpTopicsForOneManager workerManager
        { rtWriterFails with survivesNilCall := false } = some (b, m1, rt1) ∧
      m1.m_topics = [] ∧
      rt1.log = [Event.delete_datareader 100
          (some ⟨101, some (TopicDescription.filtered ⟨99, "T_R_0"⟩)⟩),
        Event.delete_datawriter 10 11, Event.delete_publisher 10, Event.delete_subscriber 100,
        Event.emitter_stop 7, Event.delete_contentfilteredtopic ⟨99, "T_R_0"⟩,
        Event.delete_topic 1] :=
  ⟨⟨by decide, by
      intro k g hmem
      simp only [workerManager, sampleManager, List.mem_singleton, Prod.mk.injEq,
        Option.some.injEq] at hmem
      left
      rw [hmem.2]
      decide⟩,
    rfl,
    (cleanUp_empties_registry workerManager { rtWriterFails with survivesNilCall := false }).2
      (by decide) (by
        intro k g hmem
        simp only [workerManager, sampleManager, List.mem_singleton, Prod.mk.injEq,
          Option.some.injEq] at hmem
        left
        rw [hmem.2]
        decide),
    _, _, _, rfl, (cleanUp_empties_registry workerManager
      { rtWriterFails with survivesNilCall := false }).1 _ _ _ rfl, rfl⟩

/-- C9 as stated fails: the runtime refuses the `delete_topic` call of the only topic's
teardown with `RETCODE_PRECONDITION_NOT_MET`, and `cleanUpTopicsForOneManager` returns
true, whether or not the runtime survives a call through a nil handle (no such call is
made: the group holds its topic). -/
theorem cleanUp_true_despite_refused_delete :
    (rtRefuses.call (Event.delete_topic 1)).1 = ReturnCode.RETCODE_PRECONDITION_NOT_MET ∧
    cleanUpTopicsForOneManager sampleManager rtRefuses =
      some (true, { sampleManager with m_topics := [] },
        { script := [], next := 100, log := [Event.delete_topic 1], survivesNilCall := true }) ∧
    cleanUpTopicsForOneManager sampleManager { rtRefuses with survivesNilCall := false } =
      some (true, { sampleManager with m_topics := [] },
        { script := [], next := 100, log := [Event.delete_topic 1], survivesNilCall := false }) :=
  ⟨rfl, rfl, rfl⟩

/-! ## Properties of `joinDomain` -/

theorem mem_sorted_insert (i x : TransportInst) (l : List TransportInst)
    (h : x ∈ sorted_insert i l) : x = i ∨ x ∈ l := by
  induction l with
  | nil =>
    simp only [sorted_insert, List.mem_singleton] at h
    exact Or.inl h
  | cons a t ih =>
    unfold sorted_insert at h
    split at h
    · simp only [List.mem_cons] at h
      rcases h with h | h
      · exact Or.inr (by rw [h]; exact List.mem_cons_self _ _)
      · rcases ih h with h2 | h2
        · exact Or.inl h2
        · exact Or.inr (List.mem_cons_of_mem _ h2)
    · simp only [List.mem_cons] at h
      rcases h with h | h | h
      · exact Or.inl h
      · exact Or.inr (by rw [h]; exact List.mem_cons_self _ _)
      · exact Or.inr (List.mem_cons_of_mem _ h)

theorem deriveInstances_port (d k : Int) (l acc : List TransportInst) (rt : Runtime)
    (hacc : ∀ x ∈ acc, x.transport_type_ = "rtps_udp" → x.multicast_group_port = rtpsPort d) :
    ∀ x ∈ (deriveInstances d k l acc rt).1,
      x.transport_type_ = "rtps_udp" → x.multicast_group_port = rtpsPort d := by
  induction l generalizing acc rt with
  | nil => simpa [deriveInstances] using hacc
  | cons a t ih =>
    unfold deriveInstances
    split
    · apply ih
      intro x hx
      rcases mem_sorted_insert _ _ _ hx with h | h
      · intro _
        rw [h]
      · exact hacc x h
    · rename_i hne
      apply ih
      intro x hx
      rcases mem_sorted_insert _ _ _ hx with h | h
      · intro ht
        rw [h] at ht
        exact absurd ht hne
      · exact hacc x h

theorem rtpsPort_standard (d : Int) (h0 : 0 ≤ d) (h1 : d ≤ 232) :
    (rtpsPort d : Int) = 7400 + 250 * d + 1 := by
  unfold rtpsPort
  omega

/-- C7 (amended): when a manager that has not joined yet joins domain `d` without a named
configuration section and a new transport configuration is derived, that configuration
is bound to the new participant and every `rtps_udp` transport in it has the multicast
port `(7400 + 250 * (d mod 65536) + 1) mod 65536` (`rtpsPort`, a 16-bit value); for
`0 ≤ d ≤ 232` this is `7400 + 250 * d + 1`. -/
theorem joinDomain_multicast_port (m m1 : DDSManager) (p p1 : Process) (rt rt1 : Runtime)
    (d : Int) (onAdd onRemove : Bool) (hfresh : m.m_domainParticipant = none)
    (hnew : get_config p.transportConfigs
      (configName d (nextInstance p.g_transportInstances d).2) = none)
    (h : joinDomain m p rt d "" onAdd onRemove = some (true, m1, p1, rt1)) :
    ∃ participant cfg, m1.m_domainParticipant = some participant ∧
      p1.bindings = (participant.ref, cfg) :: p.bindings ∧
      cfg.name = configName d (nextInstance p.g_transportInstances d).2 ∧
      ∀ inst ∈ cfg.instances_, inst.transport_type_ = "rtps_udp" →
        inst.multicast_group_port = rtpsPort d ∧
        (0 ≤ d → d ≤ 232 → (inst.multicast_group_port : Int) = 7400 + 250 * d + 1) := by
  unfold joinDomain at h
  rw [hfresh] at h
  simp only at h
  split at h
  · simp at h
  · split at h
    · simp at h
    · split at h
      · simp at h
      · split at h
        · simp at h
        · rename_i ref rt2 hcreate
          simp only [ne_eq, not_true_eq_false, if_false, hnew] at h
          simp only [Option.some.injEq, Prod.mk.injEq, true_and] at h
          obtain ⟨hm, hp, -⟩ := h
          subst hp
          subst hm
          have h4 : ∀ rtx, ∀ inst ∈ (deriveInstances d (nextInstance p.g_transportInstances d).2
              p.global_config.instances_ [] rtx).1, inst.transport_type_ = "rtps_udp" →
              inst.multicast_group_port = rtpsPort d ∧
              (0 ≤ d → d ≤ 232 → (inst.multicast_group_port : Int) = 7400 + 250 * d + 1) := by
            intro rtx inst hinst ht
            have hport := deriveInstances_port d _ _ [] _ (by simp) inst hinst ht
            exact ⟨hport, fun h0 h1 => by rw [hport]; exact rtpsPort_standard d h0 h1⟩
          exact ⟨⟨ref, d⟩, _, by split <;> rfl, rfl, rfl, h4 _⟩

theorem joinDomain_multicast_port_witness :
    ∃ m1 p1 rt1,
      (freshManager.m_domainParticipant = none ∧
        get_config sampleProcess.transportConfigs
          (configName 4 (nextInstance sampleProcess.g_transportInstances 4).2) = none ∧
        joinDomain freshManager sampleProcess rtOk 4 "" false false =
          some (true, m1, p1, rt1)) ∧
      ∃ participant cfg, m1.m_domainParticipant = some participant ∧
        p1.bindings = (participant.ref, cfg) :: sampleProcess.bindings ∧
        cfg.name = configName 4 (nextInstance sampleProcess.g_transportInstances 4).2 ∧
        ∀ inst ∈ cfg.instances_, inst.transport_type_ = "rtps_udp" →
          inst.multicast_group_port = rtpsPort 4 ∧
          ((0 : Int) ≤ 4 → (4 : Int) ≤ 232 →
            (inst.multicast_group_port : Int) = 7400 + 250 * 4 + 1) :=
  ⟨_, _, _, ⟨rfl, rfl, rfl⟩,
    joinDomain_multicast_port freshManager _ sampleProcess _ rtOk _ 4 false false rfl rfl rfl⟩

/-- C7 as stated fails for domain id 233: the `rtps_udp` transport of the configuration
derived by `joinDomain` gets the multicast port 115, not `7400 + 250 * 233 + 1 = 65651`. -/
theorem joinDomain_port_wraps_at_233 :
    ∃ m1 p1 rt1 cfg,
      joinDomain freshManager sampleProcess rtOk 233 "" false false =
        some (true, m1, p1, rt1) ∧
      p1.bindings = [(100, cfg)] ∧
      (cfg.instances_.filter (fun i => i.transport_type_ = "rtps_udp")).map
        TransportInst.multicast_group_port = [115] ∧
      (115 : Int) ≠ 7400 + 250 * 233 + 1 :=
  ⟨_, _, _, _, rfl, rfl, by decide, by decide⟩

theorem instanceFind_instanceAssign_self (g : List (Int × Int)) (d c : Int) :
    instanceFind (instanceAssign g d c) d = some c := by
  induction g with
  | nil => simp [instanceAssign, instanceFind]
  | cons hd tl ih =>
    obtain ⟨d1, c1⟩ := hd
    by_cases h : d1 = d
    · simp [instanceAssign, instanceFind, h]
    · simp [instanceAssign, instanceFind, h, ih]

theorem instanceFind_instanceAssign_ne (g : List (Int × Int)) (d d2 c : Int) (hne : d2 ≠ d) :
    instanceFind (instanceAssign g d c) d2 = instanceFind g d2 := by
  induction g with
  | nil =>
    have : ¬ d = d2 := fun h => hne h.symm
    simp [instanceAssign, instanceFind, this]
  | cons hd tl ih =>
    obtain ⟨d1, c1⟩ := hd
    by_cases h : d1 = d
    · subst h
      have : ¬ d1 = d2 := fun h => hne h.symm
      simp [instanceAssign, instanceFind, this]
    · by_cases h2 : d1 = d2
      · subst h2
        simp [instanceAssign, instanceFind, h]
      · simp [instanceAssign, instanceFind, h, h2, ih]

/-- The allocator step while the counter stays an `int`: the counter goes up by one and
the counters of the other domains stay. -/
theorem nextInstance_spec (g : List (Int × Int)) (d : Int)
    (hlo : inIntRange (currentInstance g d)) (hhi : currentInstance g d + 1 ≤ 2147483647) :
    (nextInstance g d).2 = currentInstance g d + 1 ∧
      currentInstance (nextInstance g d).1 d = currentInstance g d + 1 ∧
      ∀ d2, d2 ≠ d → instanceFind (nextInstance g d).1 d2 = instanceFind g d2 := by
  unfold nextInstance
  cases hf : instanceFind g d with
  | none =>
    have hc : currentInstance g d = 0 := by simp [currentInstance, hf]
    refine ⟨?_, ?_, ?_⟩
    · simp [hc]
    · simp [currentInstance, instanceFind_instanceAssign_self, hf]
    · intro d2 h2
      exact instanceFind_instanceAssign_ne g d d2 1 h2
  | some c =>
    have hc : currentInstance g d = c := by simp [currentInstance, hf]
    rw [hc] at hlo hhi
    have hw : wrapInt32 (c + 1) = c + 1 := by
      apply wrapInt32_of_inRange
      unfold inIntRange at *
      omega
    refine ⟨?_, ?_, ?_⟩
    · simp [hc, hw]
    · simp [currentInstance, instanceFind_instanceAssign_self, hf, hw]
    · intro d2 h2
      exact instanceFind_instanceAssign_ne g d d2 _ h2

theorem create_ok (rt : Runtime) (e : Event) (h : ∀ r ∈ rt.script, r = ReturnCode.RETCODE_OK) :
    ∃ rt1, rt.create e = (some rt.next, rt1) ∧ rt1.log = rt.log ++ [e] ∧
      ∀ r ∈ rt1.script, r = ReturnCode.RETCODE_OK := by
  unfold Runtime.create
  cases hs : rt.script with
  | nil =>
    refine ⟨_, rfl, rfl, ?_⟩
    intro r hr
    simp at hr
  | cons r0 rest =>
    have h0 : r0 = ReturnCode.RETCODE_OK := h r0 (by rw [hs]; exact List.mem_cons_self _ _)
    simp only [h0, if_true]
    refine ⟨_, rfl, rfl, ?_⟩
    intro r hr
    exact h r (by rw [hs]; exact List.mem_cons_of_mem _ hr)

theorem derivedNames_append (a b : List Event) :
    derivedNames (a ++ b) = derivedNames a ++ derivedNames b := by
  simp [derivedNames, List.filterMap_append]

theorem deriveInstances_log (d k : Int) (l acc : List TransportInst) (rt : Runtime) :
    derivedNames (deriveInstances d k l acc rt).2.log = derivedNames rt.log ∧
      (deriveInstances d k l acc rt).2.script = rt.script := by
  induction l generalizing acc rt with
  | nil => simp [deriveInstances]
  | cons a t ih =>
    unfold deriveInstances
    split
    · simp only
      rw [(ih _ _).1, (ih _ _).2, record_log, derivedNames_append]
      simp [derivedNames, Runtime.record]
    · exact ih _ _

/-- One join attempt by a manager that has not joined yet, without a named configuration
section, in a process where the join reaches the allocator: it returns true, derives the
configuration name of the next instance, and changes the counter map by the allocator
step only. -/
theorem joinDomain_fresh (m : DDSManager) (p : Process) (rt : Runtime) (d : Int)
    (onAdd onRemove : Bool) (hfresh : m.m_domainParticipant = none)
    (h1 : p.heapOpens = true) (h2 : p.configFileImports = true) (h3 : p.factoryAvailable = true)
    (hrt : ∀ r ∈ rt.script, r = ReturnCode.RETCODE_OK) :
    ∃ m1 p1 rt1, joinDomain m p rt d "" onAdd onRemove = some (true, m1, p1, rt1) ∧
      p1.g_transportInstances = (nextInstance p.g_transportInstances d).1 ∧
      derivedNames rt1.log =
        derivedNames rt.log ++ [configName d (nextInstance p.g_transportInstances d).2] ∧
      p1.heapOpens = true ∧ p1.configFileImports = true ∧ p1.factoryAvailable = true ∧
      ∀ r ∈ rt1.script, r = ReturnCode.RETCODE_OK := by
  obtain ⟨rtc, hc, hclog, hcs⟩ := create_ok rt (Event.create_participant d) hrt
  unfold joinDomain
  rw [hfresh]
  simp only [h1, h2, h3, Bool.true_eq_false, if_false, hc, ne_eq, not_true_eq_false]
  cases hg : get_config p.transportConfigs
      (configName d (nextInstance p.g_transportInstances d).2) with
  | some c =>
    refine ⟨_, _, _, rfl, rfl, ?_, rfl, rfl, rfl, hcs⟩
    rw [record_log, derivedNames_append, hclog, derivedNames_append]
    simp [derivedNames]
  | none =>
    refine ⟨_, _, _, rfl, rfl, ?_, rfl, rfl, rfl, ?_⟩
    · rw [record_log, derivedNames_append, (deriveInstances_log _ _ _ _ _).1, record_log,
        derivedNames_append, record_log, derivedNames_append, hclog, derivedNames_append]
      simp [derivedNames]
    · simp only [Runtime.record]
      rw [(deriveInstances_log _ _ _ _ _).2]
      exact hcs

/-- C8 (amended): starting from any counter map in which the counter `c` of domain `d`
(`0` when absent) is an `int` value with `c + N ≤ 2147483647`, `N` sequential join
attempts for `d` that reach the allocator, each by a manager that has not joined yet and
without a named configuration section, all return true and derive the configuration names
`config-<d>-<c+1>`, ..., `config-<d>-<c+N>` in that order: the instance numbers are
strictly increasing and the names pairwise distinct; the counters of the other domain ids
are unchanged.  From the empty map the names are `config-<d>-1` ... `config-<d>-N`. -/
theorem joinAll_names (d : Int) (sessions : List (DDSManager × Bool × Bool)) (p : Process)
    (rt : Runtime) (hfresh : ∀ s ∈ sessions, s.1.m_domainParticipant = none)
    (h1 : p.heapOpens = true) (h2 : p.configFileImports = true) (h3 : p.factoryAvailable = true)
    (hrt : ∀ r ∈ rt.script, r = ReturnCode.RETCODE_OK)
    (hlo : inIntRange (currentInstance p.g_transportInstances d))
    (hhi : currentInstance p.g_transportInstances d + sessions.length ≤ 2147483647) :
    ∃ p1 rt1, joinAll d sessions p rt = some (List.replicate sessions.length true, p1, rt1) ∧
      derivedNames rt1.log = derivedNames rt.log ++
        (List.range sessions.length).map
          (fun (i : Nat) => configName d (currentInstance p.g_transportInstances d + 1 + (i : Int))) ∧
      ((List.range sessions.length).map
          (fun (i : Nat) => configName d (currentInstance p.g_transportInstances d + 1 + (i : Int)))).Nodup ∧
      (∀ d2, d2 ≠ d →
        instanceFind p1.g_transportInstances d2 = instanceFind p.g_transportInstances d2) ∧
      (p.g_transportInstances = [] →
        derivedNames rt1.log = derivedNames rt.log ++
          (List.range sessions.length).map (fun (i : Nat) => configName d (1 + (i : Int)))) := by
  have names_of : ∀ (p1 : Process) (rt1 : Runtime),
      derivedNames rt1.log = derivedNames rt.log ++
        (List.range sessions.length).map
          (fun (i : Nat) => configName d (currentInstance p.g_transportInstances d + 1 + (i : Int))) →
      (p.g_transportInstances = [] →
        derivedNames rt1.log = derivedNames rt.log ++
          (List.range sessions.length).map (fun (i : Nat) => configName d (1 + (i : Int)))) := by
    intro p1 rt1 hn he
    rw [hn, he]
    simp [currentInstance, instanceFind]
  have nodup : ((List.range sessions.length).map
      (fun (i : Nat) => configName d (currentInstance p.g_transportInstances d + 1 + (i : Int)))).Nodup := by
    apply List.Nodup.map_on _ (List.nodup_range _)
    intro x hx y hy hxy
    simp only [List.mem_range] at hx hy
    unfold inIntRange at hlo
    have := configName_injective d _ _ (by unfold inIntRange; omega)
      (by unfold inIntRange; omega) hxy
    omega
  suffices main : ∃ p1 rt1,
      joinAll d sessions p rt = some (List.replicate sessions.length true, p1, rt1) ∧
      derivedNames rt1.log = derivedNames rt.log ++
        (List.range sessions.length).map
          (fun (i : Nat) => configName d (currentInstance p.g_transportInstances d + 1 + (i : Int))) ∧
      (∀ d2, d2 ≠ d →
        instanceFind p1.g_transportInstances d2 = instanceFind p.g_transportInstances d2) by
    obtain ⟨p1, rt1, ha, hb, hc⟩ := main
    exact ⟨p1, rt1, ha, hb, nodup, hc, names_of p1 rt1 hb⟩
  clear names_of nodup
  induction sessions generalizing p rt with
  | nil => exact ⟨p, rt, rfl, by simp, fun _ _ => rfl⟩
  | cons s rest ih =>
    obtain ⟨m, onAdd, onRemove⟩ := s
    simp only [List.length_cons, Nat.cast_add, Nat.cast_one] at hhi
    obtain ⟨m1, pa, rta, hj, hg, hnames, ha1, ha2, ha3, hrta⟩ :=
      joinDomain_fresh m p rt d onAdd onRemove (hfresh _ (List.mem_cons_self _ _)) h1 h2 h3 hrt
    obtain ⟨hn2, hcur, hother⟩ := nextInstance_spec p.g_transportInstances d hlo (by omega)
    have hcur2 : currentInstance pa.g_transportInstances d =
        currentInstance p.g_transportInstances d + 1 := by rw [hg]; exact hcur
    obtain ⟨p1, rt1, hall, hlog, hfar⟩ := ih pa rta
      (fun s hs => hfresh s (List.mem_cons_of_mem _ hs)) ha1 ha2 ha3 hrta
      (by rw [hcur2]; unfold inIntRange at *; omega) (by rw [hcur2]; omega)
    refine ⟨p1, rt1, ?_, ?_, ?_⟩
    · simp only [joinAll, hj, hall, List.length_cons, List.replicate_succ]
    · rw [hlog, hnames, hn2, hcur2, List.length_cons, List.range_succ_eq_map, List.map_cons,
        List.map_map, List.append_assoc]
      congr 1
      simp only [Nat.cast_zero, add_zero, List.singleton_append, List.cons.injEq, true_and]
      apply List.map_congr_left
      intro a _
      simp only [Function.comp, Nat.cast_succ]
      congr 1
      ring
    · intro d2 hd2
      rw [hfar d2 hd2, hg]
      exact hother d2 hd2

theorem joinAll_names_witness :
    ((∀ s ∈ [(freshManager, false, false), (freshManager, true, true),
          (freshManager, false, true)], s.1.m_domainParticipant = none) ∧
      inIntRange (currentInstance sampleProcess.g_transportInstances 4) ∧
      currentInstance sampleProcess.g_transportInstances 4 +
        ([(freshManager, false, false), (freshManager, true, true),
          (freshManager, false, true)] : List (DDSManager × Bool × Bool)).length ≤ 2147483647) ∧
    ∃ p1 rt1,
      joinAll 4 [(freshManager, false, false), (freshManager, true, true),
          (freshManager, false, true)] sampleProcess rtOk =
        some ([true, true, true], p1, rt1) ∧
      derivedNames rt1.log = ["config-4-1", "config-4-2", "config-4-3"] :=
  ⟨⟨by decide, by decide, by decide⟩,
    (joinAll_names 4 [(freshManager, false, false), (freshManager, true, true),
        (freshManager, false, true)] sampleProcess rtOk (by decide) rfl rfl rfl (by decide)
        (by decide) (by decide)).elim
      (fun p1 h => h.elim (fun rt1 h2 => ⟨p1, rt1, h2.1, by rw [h2.2.1]; decide⟩))⟩

/-- C8 as stated fails at `INT_MAX`: from the counter 2147483646 of domain 0, two join
attempts derive `config-0-2147483647` and then `config-0--2147483648`; the second instance
number is smaller than the first. -/
theorem joinAll_counter_wraps :
    ∃ p1 rt1,
      joinAll 0 [(freshManager, false, false), (freshManager, false, false)] lateProcess rtOk =
        some ([true, true], p1, rt1) ∧
      derivedNames rt1.log = [configName 0 2147483647, configName 0 (-2147483648)] ∧
      p1.g_transportInstances = [(0, -2147483648)] ∧
      ¬ ((2147483647 : Int) < -2147483648) :=
  ⟨_, _, rfl, by decide, rfl, by decide⟩

/-! ## Failure of `registerQos` -/

/-- With a known profile id and no registered profile, `registerQos` returns true. -/
theorem registerQos_known (qd : QosDictionary) (m : DDSManager) (rt : Runtime) (t : String)
    (g : TopicGroup) (P : QosType) (h : mapFind m.m_topics t = some (some g))
    (hp : g.qosPreset = -1) (hk : knownProfile P) :
    ∃ m1 rt1, registerQos qd m rt t P = some (true, m1, rt1) := by
  unfold registerQos
  simp only [h, hp, ne_eq, not_true_eq_false, if_false]
  rcases hk with hk | hk | hk | hk
  · rw [hk, if_pos rfl, applyPreset_of_find qd m rt t g _ _ _ h]
    simp [find_setGroup]
  · rw [hk, if_neg (by decide), if_pos rfl, applyPreset_of_find qd m rt t g _ _ _ h]
    simp [find_setGroup]
  · rw [hk, if_neg (by decide), if_neg (by decide), if_pos rfl,
      applyPreset_of_find qd m rt t g _ _ _ h]
    simp [find_setGroup]
  · rw [hk, if_neg (by decide), if_neg (by decide), if_neg (by decide), if_pos rfl,
      applyPreset_of_find qd m rt t g _ _ _ h]
    simp [find_setGroup]

/-- With an unknown profile id and no registered profile, `registerQos` returns false and
changes nothing. -/
theorem registerQos_unknown (qd : QosDictionary) (m : DDSManager) (rt : Runtime) (t : String)
    (g : TopicGroup) (P : QosType) (h : mapFind m.m_topics t = some (some g))
    (hp : g.qosPreset = -1) (hk : ¬ knownProfile P) :
    registerQos qd m rt t P = some (false, m, rt) := by
  unfold registerQos
  simp only [h, hp, ne_eq, not_true_eq_false, if_false]
  unfold knownProfile at hk
  push_neg at hk
  rw [if_neg hk.1, if_neg hk.2.1, if_neg hk.2.2.1, if_neg hk.2.2.2]

/-- C11: `registerQos(t, q)` returns false exactly when `t` is not a name of the registry,
or the group of `t` has `qosPreset` unset (`-1`) and `q` is none of the four known profile
ids; a call that returns false leaves the manager (registry, QoS values and `qosPreset`
of every group) and the runtime as they were.  A name that maps to a null group makes the
call dereference the null pointer, so that it does not return. -/
theorem registerQos_false_iff (qd : QosDictionary) (m : DDSManager) (rt : Runtime)
    (t : String) (q : QosType) :
    ((∃ m1 rt1, registerQos qd m rt t q = some (false, m1, rt1)) ↔
      (mapFind m.m_topics t = none ∨
        ∃ g, mapFind m.m_topics t = some (some g) ∧ g.qosPreset = -1 ∧ ¬ knownProfile q)) ∧
    (∀ m1 rt1, registerQos qd m rt t q = some (false, m1, rt1) → m1 = m ∧ rt1 = rt) ∧
    (mapFind m.m_topics t = some none → registerQos qd m rt t q = none) := by
  cases h : mapFind m.m_topics t with
  | none =>
    have hr : registerQos qd m rt t q = some (false, m, rt) := by
      unfold registerQos
      simp only [h]
    refine ⟨⟨fun _ => Or.inl rfl, fun _ => ⟨m, rt, hr⟩⟩, ?_, fun hn => by simp at hn⟩
    intro m1 rt1 h1
    rw [hr] at h1
    simp only [Option.some.injEq, Prod.mk.injEq, true_and] at h1
    exact ⟨h1.1.symm, h1.2.symm⟩
  | some og =>
    cases og with
    | none =>
      have hr : registerQos qd m rt t q = none := by
        unfold registerQos
        simp only [h]
      refine ⟨⟨?_, ?_⟩, ?_, fun _ => hr⟩
      · rintro ⟨m1, rt1, h1⟩
        rw [hr] at h1
        simp at h1
      · rintro (h1 | ⟨g, h1, -⟩)
        · simp at h1
        · simp at h1
      · intro m1 rt1 h1
        rw [hr] at h1
        simp at h1
    | some g =>
      by_cases hp : g.qosPreset = -1
      · by_cases hk : knownProfile q
        · obtain ⟨m2, rt2, hr⟩ := registerQos_known qd m rt t g q h hp hk
          refine ⟨⟨?_, ?_⟩, ?_, fun hn => by simp at hn⟩
          · rintro ⟨m1, rt1, h1⟩
            rw [hr] at h1
            simp at h1
          · rintro (h1 | ⟨g1, -, -, h3⟩)
            · simp at h1
            · exact absurd hk h3
          · intro m1 rt1 h1
            rw [hr] at h1
            simp at h1
        · have hr := registerQos_unknown qd m rt t g q h hp hk
          refine ⟨⟨fun _ => Or.inr ⟨g, rfl, hp, hk⟩, fun _ => ⟨m, rt, hr⟩⟩, ?_,
            fun hn => by simp at hn⟩
          intro m1 rt1 h1
          rw [hr] at h1
          simp only [Option.some.injEq, Prod.mk.injEq, true_and] at h1
          exact ⟨h1.1.symm, h1.2.symm⟩
      · have hr : registerQos qd m rt t q = some (true, m, rt) := by
          unfold registerQos
          simp only [h, ne_eq, hp, not_false_eq_true, if_true]
        refine ⟨⟨?_, ?_⟩, ?_, fun hn => by simp at hn⟩
        · rintro ⟨m1, rt1, h1⟩
          rw [hr] at h1
          simp at h1
        · rintro (h1 | ⟨g1, h1, h2, -⟩)
          · simp at h1
          · simp only [Option.some.injEq] at h1
            rw [← h1] at h2
            exact absurd h2 hp
        · intro m1 rt1 h1
          rw [hr] at h1
          simp at h1

theorem registerQos_false_iff_witness :
    (∃ m1 rt1, registerQos sampleQos sampleManager rtOk "T" 7 = some (false, m1, rt1)) ∧
      registerQos sampleQos sampleManager rtOk "T" 7 = some (false, sampleManager, rtOk) ∧
      (∃ m1 rt1, registerQos sampleQos sampleManager rtOk "U" 2 = some (false, m1, rt1)) ∧
      (sampleManager = sampleManager ∧ rtOk = rtOk) :=
  ⟨(registerQos_false_iff sampleQos sampleManager rtOk "T" 7).1.mpr
      (Or.inr ⟨sampleGroup, rfl, by decide, by unfold knownProfile; decide⟩),
    by rfl,
    (registerQos_false_iff sampleQos sampleManager rtOk "U" 2).1.mpr (Or.inl (by rfl)),
    (registerQos_false_iff sampleQos sampleManager rtOk "T" 7).2.1 sampleManager rtOk
      (by rfl)⟩

/-! ## Repeated `joinDomain` and `createPublisher` -/

/-- C12: when the manager already holds a participant, joined to domain `d`
(`get_domain_id()`), `joinDomain(d2, config, onAdd, onRemove)` returns true exactly when
`d2 = d`, and in both cases the manager (domain id, configuration name, participant,
monitor), the process-wide transport state (instance counters, configurations, bindings)
and the runtime (no call is logged, no return code is consumed) are those before the
call. -/
theorem joinDomain_already_joined (m : DDSManager) (p : Process) (rt : Runtime)
    (participant : DomainParticipant) (d2 : Int) (config : String) (onAdd onRemove : Bool)
    (h : m.m_domainParticipant = some participant) :
    joinDomain m p rt d2 config onAdd onRemove =
      some (decide (d2 = participant.domain_id), m, p, rt) := by
  unfold joinDomain
  rw [h]
  by_cases hd : d2 = participant.domain_id
  · simp [hd]
  · simp [hd]

theorem joinDomain_already_joined_witness :
    sampleManager.m_domainParticipant = some { ref := 0, domain_id := 0 } ∧
      joinDomain sampleManager sampleProcess rtOk 0 "other" true false =
        some (true, sampleManager, sampleProcess, rtOk) ∧
      joinDomain sampleManager sampleProcess rtOk 5 "other" true false =
        some (false, sampleManager, sampleProcess, rtOk) :=
  ⟨rfl,
    joinDomain_already_joined sampleManager sampleProcess rtOk _ 0 "other" true false rfl,
    joinDomain_already_joined sampleManager sampleProcess rtOk _ 5 "other" true false rfl⟩

/-- C13: when the group of the topic holds a topic handle, a publisher and a writer,
`createPublisher(topic)` returns true and leaves the manager (publisher, writer and writer
listener of the group included) and the runtime as they were, so that no `create_publisher`
or `create_datawriter` call is issued; and whenever a call returned true, a second call
returns true with the state the first one left. -/
theorem createPublisher_idempotent (m : DDSManager) (rt : Runtime) (t : String) :
    (∀ g, mapFind m.m_topics t = some (some g) → g.topic ≠ none → g.publisher ≠ none →
      g.writer ≠ none → createPublisher m rt t = some (true, m, rt)) ∧
    (∀ m1 rt1, createPublisher m rt t = some (true, m1, rt1) →
      createPublisher m1 rt1 t = some (true, m1, rt1)) := by
  constructor
  · intro g hg ht hp _
    cases htopic : g.topic with
    | none => exact absurd htopic ht
    | some topic =>
      cases hpub : g.publisher with
      | none => exact absurd hpub hp
      | some pub =>
        unfold createPublisher
        simp only [hg, htopic, hpub]
  · intro m1 rt1 h
    have key : ∃ g1 topic pub, mapFind m1.m_topics t = some (some g1) ∧
        g1.topic = some topic ∧ g1.publisher = some pub := by
      unfold createPublisher at h
      cases hg : mapFind m.m_topics t with
      | none => simp [hg] at h
      | some og =>
        cases og with
        | none => simp [hg] at h
        | some g =>
          cases htopic : g.topic with
          | none => simp [hg, htopic] at h
          | some topic =>
            cases hpub : g.publisher with
            | some pub =>
              simp only [hg, htopic, hpub, Option.some.injEq, Prod.mk.injEq, true_and] at h
              rw [← h.1]
              exact ⟨g, topic, pub, hg, htopic, hpub⟩
            | none =>
              simp only [hg, htopic, hpub] at h
              split at h
              · simp at h
              · split at h
                · simp at h
                · split at h
                  · simp at h
                  · simp only [Option.some.injEq, Prod.mk.injEq, true_and] at h
                    rw [← h.1]
                    exact ⟨_, topic, _, find_setGroup _ _ _, rfl, rfl⟩
    obtain ⟨g1, topic, pub, h1, h2, h3⟩ := key
    unfold createPublisher
    simp only [h1, h2, h3]

theorem createPublisher_idempotent_witness :
    createPublisher writerManager rtOk "T" = some (true, writerManager, rtOk) ∧
      (createPublisher sampleManager rtOk "T").bind
          (fun r => createPublisher r.2.1 r.2.2 "T") =
        createPublisher sampleManager rtOk "T" :=
  ⟨(createPublisher_idempotent writerManager rtOk "T").1 writerGroup rfl (by decide)
      (by decide) (by decide),
    by
      have h := (createPublisher_idempotent sampleManager rtOk "T").2 _ _ rfl
      exact h⟩

/-! ## Outcomes of `createSubscriber` -/

/-- Every outcome of `createNamedReader`: on false the readers and listeners of the group
are those it was given; on true the reader is stored under the reader name, bound to the
base topic (no filter, filter map untouched) or to the filter topic numbered `0`, which is
then stored in the filter map under its name. -/
theorem createNamedReader_outcome (m m1 : DDSManager) (rt rt1 : Runtime) (t R filter : String)
    (params : List String) (topic subscriber : Ref) (g : TopicGroup) (b : Bool)
    (h : createNamedReader m t R filter params topic subscriber g rt = some (b, m1, rt1)) :
    ∃ g1, mapFind m1.m_topics t = some (some g1) ∧
      (b = false → g1.readers = g.readers ∧ g1.m_readerListeners = g.m_readerListeners) ∧
      (b = true → ∃ reader, g1.readers = mapAssign g.readers R reader ∧
        (filter = "" → reader.topicdescription = some (TopicDescription.topic topic) ∧
          g1.filteredTopics = g.filteredTopics) ∧
        (filter ≠ "" → ∃ c, c.name = t ++ "_" ++ R ++ "_0" ∧
          reader.topicdescription = some (TopicDescription.filtered c) ∧
          g1.filteredTopics = mapAssign g.filteredTopics c.name c)) := by
  unfold createNamedReader at h
  simp only at h
  split at h
  · rename_i hf
    split at h
    · simp at h
    · split at h
      · simp only [Option.some.injEq, Prod.mk.injEq] at h
        rw [← h.1, ← h.2.1]
        exact ⟨_, find_setGroup _ _ _, fun _ => ⟨rfl, rfl⟩, fun hb => by simp at hb⟩
      · rename_i c rt2 hcft
        have hname := create_contentfilteredtopic_some _ _ _ _ _ _ _ hcft
        split at h
        · simp only [Option.some.injEq, Prod.mk.injEq] at h
          rw [← h.1, ← h.2.1]
          exact ⟨_, find_setGroup _ _ _, fun _ => ⟨rfl, rfl⟩, fun hb => by simp at hb⟩
        · rename_i reader rt3 hrd
          have hdesc := create_datareader_some _ _ _ _ _ _ _ hrd
          simp only [Option.some.injEq, Prod.mk.injEq] at h
          rw [← h.1, ← h.2.1]
          refine ⟨_, find_setGroup _ _ _, fun hb => by simp at hb, fun _ => ?_⟩
          refine ⟨reader, rfl, fun he => absurd he hf, fun _ => ⟨c, hname, hdesc, ?_⟩⟩
          rw [hname]
  · rename_i hf
    have hf2 : filter = "" := not_not.mp hf
    split at h
    · simp only [Option.some.injEq, Prod.mk.injEq] at h
      rw [← h.1, ← h.2.1]
      exact ⟨_, find_setGroup _ _ _, fun _ => ⟨rfl, rfl⟩, fun hb => by simp at hb⟩
    · rename_i reader rt3 hrd
      have hdesc := create_datareader_some _ _ _ _ _ _ _ hrd
      simp only [Option.some.injEq, Prod.mk.injEq] at h
      rw [← h.1, ← h.2.1]
      refine ⟨_, find_setGroup _ _ _, fun hb => by simp at hb, fun _ => ?_⟩
      exact ⟨reader, rfl, fun _ => ⟨hdesc, rfl⟩, fun hne => absurd hf2 hne⟩

/-- The step from `createSubscriber` to `createNamedReader`: with the preconditions met,
an outcome of `createSubscriber` is the early return after a refused subscriber, or an
outcome of `createNamedReader` on a group with the readers, listeners and filter map of
the group found. -/
theorem createSubscriber_cases (m m1 : DDSManager) (rt rt1 : Runtime) (t R filter : String)
    (params : List String) (g : TopicGroup) (topic : Ref) (b : Bool) (hR : R ≠ "")
    (hg : mapFind m.m_topics t = some (some g)) (ht : g.topic = some topic)
    (hl : mapFind g.m_readerListeners R = none)
    (h : createSubscriber m rt t R filter params = some (b, m1, rt1)) :
    (b = false ∧ m1 = m) ∨
      ∃ subscriber g0 rt0, g0.readers = g.readers ∧
        g0.m_readerListeners = g.m_readerListeners ∧ g0.filteredTopics = g.filteredTopics ∧
        createNamedReader m t R filter params topic subscriber g0 rt0 = some (b, m1, rt1) := by
  unfold createSubscriber at h
  rw [if_neg hR] at h
  simp only [hg, ht, hl] at h
  split at h
  · rename_i subscriber hs
    exact Or.inr ⟨subscriber, g, rt, rfl, rfl, rfl, h⟩
  · split at h
    · simp at h
    · split at h
      · simp only [Option.some.injEq, Prod.mk.injEq] at h
        exact Or.inl ⟨h.1.symm, h.2.1.symm⟩
      · rename_i subscriber rt0 hc
        refine Or.inr ⟨subscriber, _, rt0, ?_, ?_, ?_, h⟩ <;> rfl

/-- When the code of the reader creation is not `RETCODE_OK`, after as many `RETCODE_OK`
as create calls precede it, `createSubscriber` returns false. -/
theorem createSubscriber_reader_refused (m : DDSManager) (rt : Runtime) (t R filter : String)
    (params : List String) (g : TopicGroup) (topic : Ref) (participant : DomainParticipant)
    (rc : ReturnCode) (rest : List ReturnCode) (hR : R ≠ "")
    (hg : mapFind m.m_topics t = some (some g)) (ht : g.topic = some topic)
    (hl : mapFind g.m_readerListeners R = none)
    (hp : m.m_domainParticipant = some participant) (hrc : rc ≠ ReturnCode.RETCODE_OK)
    (hs : rt.script =
      List.replicate (createsBeforeReader g filter) ReturnCode.RETCODE_OK ++ rc :: rest) :
    ∃ m1 rt1, createSubscriber m rt t R filter params = some (false, m1, rt1) := by
  unfold createSubscriber
  rw [if_neg hR]
  simp only [hg, ht, hl, hp]
  cases hsub : g.subscriber with
  | some subscriber =>
    by_cases hf : filter = ""
    · simp [createsBeforeReader, hsub, hf] at hs
      simp [createNamedReader, hf, Runtime.create_datareader, Runtime.create, hs, hrc]
    · simp [createsBeforeReader, hsub, hf, List.replicate] at hs
      simp [createNamedReader, hf, hp, Runtime.create_datareader,
        Runtime.create_contentfilteredtopic, Runtime.create, hs, hrc]
  | none =>
    by_cases hf : filter = ""
    · simp [createsBeforeReader, hsub, hf, List.replicate] at hs
      simp [createNamedReader, hf, Runtime.create_datareader, Runtime.create, hs, hrc]
    · simp [createsBeforeReader, hsub, hf, List.replicate] at hs
      simp [createNamedReader, hf, hp, Runtime.create_datareader,
        Runtime.create_contentfilteredtopic, Runtime.create, hs, hrc]

/-- C14: for a topic whose group `g` holds a topic handle and a non-empty reader name `R`
that has no listener in `g`: when `createSubscriber` returns true, the new reader is stored
under `R` (the other reader names keep their readers); with a non-empty filter it is bound
to a content-filter topic named `<topic>_<reader>_0`, stored in the filter map under that
name, and with an empty filter it is bound to the base topic while the filter map is
unchanged.  When `createSubscriber` returns false, readers and reader listeners of the
group are unchanged; and it does return false when the runtime refuses the reader
creation (the participant exists and the create calls before it succeed). -/
theorem createSubscriber_outcome (m : DDSManager) (rt : Runtime) (t R filter : String)
    (params : List String) (g : TopicGroup) (topic : Ref) (hR : R ≠ "")
    (hg : mapFind m.m_topics t = some (some g)) (ht : g.topic = some topic)
    (hl : mapFind g.m_readerListeners R = none) :
    (∀ m1 rt1, createSubscriber m rt t R filter params = some (true, m1, rt1) →
      ∃ g1 reader, mapFind m1.m_topics t = some (some g1) ∧
        g1.readers = mapAssign g.readers R reader ∧ mapFind g1.readers R = some reader ∧
        (filter = "" → reader.topicdescription = some (TopicDescription.topic topic) ∧
          g1.filteredTopics = g.filteredTopics) ∧
        (filter ≠ "" → ∃ c, c.name = t ++ "_" ++ R ++ "_0" ∧
          reader.topicdescription = some (TopicDescription.filtered c) ∧
          g1.filteredTopics = mapAssign g.filteredTopics c.name c ∧
          mapFind g1.filteredTopics (t ++ "_" ++ R ++ "_0") = some c)) ∧
    (∀ m1 rt1, createSubscriber m rt t R filter params = some (false, m1, rt1) →
      ∃ g1, mapFind m1.m_topics t = some (some g1) ∧ g1.readers = g.readers ∧
        g1.m_readerListeners = g.m_readerListeners) ∧
    (∀ participant rc rest, m.m_domainParticipant = some participant →
      rc ≠ ReturnCode.RETCODE_OK →
      rt.script =
        List.replicate (createsBeforeReader g filter) ReturnCode.RETCODE_OK ++ rc :: rest →
      ∃ m1 rt1, createSubscriber m rt t R filter params = some (false, m1, rt1)) := by
  refine ⟨?_, ?_, ?_⟩
  · intro m1 rt1 h
    rcases createSubscriber_cases m m1 rt rt1 t R filter params g topic true hR hg ht hl h with
      ⟨hb, -⟩ | ⟨subscriber, g0, rt0, hr, -, hft, hn⟩
    · simp at hb
    · obtain ⟨g1, h1, -, h3⟩ := createNamedReader_outcome _ _ _ _ _ _ _ _ _ _ _ _ hn
      obtain ⟨reader, hreaders, he, hne⟩ := h3 rfl
      refine ⟨g1, reader, h1, by rw [hreaders, hr], ?_, ?_, ?_⟩
      · rw [hreaders]
        exact mapFind_mapAssign_self _ _ _
      · intro hf
        exact ⟨(he hf).1, by rw [(he hf).2, hft]⟩
      · intro hf
        obtain ⟨c, hc1, hc2, hc3⟩ := hne hf
        refine ⟨c, hc1, hc2, by rw [hc3, hft], ?_⟩
        rw [hc3, ← hc1]
        exact mapFind_mapAssign_self _ _ _
  · intro m1 rt1 h
    rcases createSubscriber_cases m m1 rt rt1 t R filter params g topic false hR hg ht hl h with
      ⟨-, hm⟩ | ⟨subscriber, g0, rt0, hr, hls, -, hn⟩
    · rw [hm]
      exact ⟨g, hg, rfl, rfl⟩
    · obtain ⟨g1, h1, h2, -⟩ := createNamedReader_outcome _ _ _ _ _ _ _ _ _ _ _ _ hn
      exact ⟨g1, h1, by rw [(h2 rfl).1, hr], by rw [(h2 rfl).2, hls]⟩
  · intro participant rc rest hp hrc hs
    exact createSubscriber_reader_refused m rt t R filter params g topic participant rc rest
      hR hg ht hl hp hrc hs

theorem createSubscriber_outcome_witness :
    (∃ m1 rt1, createSubscriber sampleManager rtOk "T" "R" "x > 1" [] = some (true, m1, rt1) ∧
      ∃ g1 reader, mapFind m1.m_topics "T" = some (some g1) ∧
        g1.readers = mapAssign sampleGroup.readers "R" reader ∧
        mapFind g1.readers "R" = some reader ∧
        ("x > 1" = "" → reader.topicdescription = some (TopicDescription.topic 1) ∧
          g1.filteredTopics = sampleGroup.filteredTopics) ∧
        ("x > 1" ≠ "" → ∃ c, c.name = "T" ++ "_" ++ "R" ++ "_0" ∧
          reader.topicdescription = some (TopicDescription.filtered c) ∧
          g1.filteredTopics = mapAssign sampleGroup.filteredTopics c.name c ∧
          mapFind g1.filteredTopics ("T" ++ "_" ++ "R" ++ "_0") = some c)) ∧
      (∃ m1 rt1, createSubscriber sampleManager
          (rtScript [ReturnCode.RETCODE_OK, ReturnCode.RETCODE_OK, ReturnCode.RETCODE_ERROR])
          "T" "R" "x > 1" [] = some (false, m1, rt1)) :=
  ⟨⟨_, _, rfl,
      (createSubscriber_outcome sampleManager rtOk "T" "R" "x > 1" [] sampleGroup 1
        (by decide) rfl rfl rfl).1 _ _ rfl⟩,
    (createSubscriber_outcome sampleManager
      (rtScript [ReturnCode.RETCODE_OK, ReturnCode.RETCODE_OK, ReturnCode.RETCODE_ERROR])
      "T" "R" "x > 1" [] sampleGroup 1 (by decide) rfl rfl rfl).2.2 _
      ReturnCode.RETCODE_ERROR [] rfl (by decide) (by rfl)⟩

/-! ## Numbering of the filter topics of one reader -/

/-- In a runtime that survives the call through the nil handle of line 1050 the numbering
starts again when a replacement uses an empty filter: after `createSubscriber(T, R)`
without a filter, the replacements with the filters `a > 1`, the empty filter and `b > 1`
all succeed, and the two filter topics created are both named `T_R_1` (none is numbered
`0`). -/
theorem filter_name_generated_twice :
    ∃ m1 rt1 ns m2 rt2,
      createSubscriber sampleManager rtOk "T" "R" "" [] = some (true, m1, rt1) ∧
      replaceMany "T" "R" ["a > 1", "", "b > 1"] m1 rt1 = some (ns, m2, rt2) ∧
      ns = ["T_R_1", "", "T_R_1"] ∧
      createdFilterNames rt2.log = ["T_R_1", "T_R_1"] :=
  ⟨_, _, _, _, _, rfl, rfl, rfl, rfl⟩

/-! ## Failures of `replaceFilter` -/

/-- Stopping the delivery worker takes no return code and logs at most its `stop`. -/
theorem stopEmitter_runtime (g : TopicGroup) (rt : Runtime) (R : String) :
    ∃ calls, (stopEmitter g rt R).2.2 = { rt with log := rt.log ++ calls } ∧
      ∀ e ∈ calls, ∃ i, e = Event.emitter_stop i := by
  unfold stopEmitter
  cases mapFind g.emitters R with
  | none => exact ⟨[], by simp, by simp⟩
  | some e =>
    by_cases hr : e.running = true
    · exact ⟨[Event.emitter_stop e.id], by simp [hr, Runtime.record], by simp⟩
    · exact ⟨[], by simp [hr], by simp⟩

/-- The first deletion of `replaceFilter` is refused: the call returns false with the
group as the worker stop left it. -/
theorem replaceFilter_contained_refused (m : DDSManager) (rt : Runtime) (t R filter : String)
    (g : TopicGroup) (subscriber : Ref) (dataReader : DataReader)
    (listener : GenericReaderListener) (hR : R ≠ "")
    (hg : mapFind m.m_topics t = some (some g)) (hs : g.subscriber = some subscriber)
    (hr : mapFind g.readers R = some dataReader)
    (hl : mapFind g.m_readerListeners R = some listener)
    (h1 : ((stopEmitter g rt R).2.2.call
      (Event.delete_contained_entities (some dataReader))).1 ≠ ReturnCode.RETCODE_OK) :
    replaceFilter m rt t R filter =
      some (false, m.setGroup t (stopEmitter g rt R).2.1,
        ((stopEmitter g rt R).2.2.call
          (Event.delete_contained_entities (some dataReader))).2) := by
  unfold replaceFilter
  rw [if_neg hR, getReader_eq m t R g hR hg]
  simp only [getSubscriber, hg, hs, hr, hl]

/-- The second deletion of `replaceFilter` is refused: the call returns false with the
group as the worker stop left it. -/
theorem replaceFilter_reader_refused (m : DDSManager) (rt : Runtime) (t R filter : String)
    (g : TopicGroup) (subscriber : Ref) (dataReader : DataReader)
    (listener : GenericReaderListener) (hR : R ≠ "")
    (hg : mapFind m.m_topics t = some (some g)) (hs : g.subscriber = some subscriber)
    (hr : mapFind g.readers R = some dataReader)
    (hl : mapFind g.m_readerListeners R = some listener)
    (h1 : ((stopEmitter g rt R).2.2.call
      (Event.delete_contained_entities (some dataReader))).1 = ReturnCode.RETCODE_OK)
    (h2 : (((stopEmitter g rt R).2.2.call
        (Event.delete_contained_entities (some dataReader))).2.call
      (Event.delete_datareader subscriber (some dataReader))).1 ≠ ReturnCode.RETCODE_OK) :
    replaceFilter m rt t R filter =
      some (false, m.setGroup t (stopEmitter g rt R).2.1,
        (((stopEmitter g rt R).2.2.call
            (Event.delete_contained_entities (some dataReader))).2.call
          (Event.delete_datareader subscriber (some dataReader))).2) := by
  unfold replaceFilter
  rw [if_neg hR, getReader_eq m t R g hR hg]
  simp only [getSubscriber, hg, hs, hr, hl]
  generalize (stopEmitter g rt R).2.2.call
    (Event.delete_contained_entities (some dataReader)) = p at h1 h2 ⊢
  obtain ⟨rc, rt1⟩ := p
  simp only at h1 h2
  subst h1
  simp only

/-- Both deletions of `replaceFilter` succeed: the call goes on with the removal of the old
filter topic and the rebuilding of the reader. -/
theorem replaceFilter_deleted (m : DDSManager) (rt : Runtime) (t R filter : String)
    (g : TopicGroup) (subscriber : Ref) (dataReader : DataReader)
    (listener : GenericReaderListener) (hR : R ≠ "")
    (hg : mapFind m.m_topics t = some (some g)) (hs : g.subscriber = some subscriber)
    (hr : mapFind g.readers R = some dataReader)
    (hl : mapFind g.m_readerListeners R = some listener)
    (h1 : ((stopEmitter g rt R).2.2.call
      (Event.delete_contained_entities (some dataReader))).1 = ReturnCode.RETCODE_OK)
    (h2 : (((stopEmitter g rt R).2.2.call
        (Event.delete_contained_entities (some dataReader))).2.call
      (Event.delete_datareader subscriber (some dataReader))).1 = ReturnCode.RETCODE_OK) :
    replaceFilter m rt t R filter =
      rebuildReader m t R filter subscriber (stopEmitter g rt R).1
        (removeOldFilter m (narrow dataReader.topicdescription) (stopEmitter g rt R).2.1
          (((stopEmitter g rt R).2.2.call
              (Event.delete_contained_entities (some dataReader))).2.call
            (Event.delete_datareader subscriber (some dataReader))).2).1
        (removeOldFilter m (narrow dataReader.topicdescription) (stopEmitter g rt R).2.1
          (((stopEmitter g rt R).2.2.call
              (Event.delete_contained_entities (some dataReader))).2.call
            (Event.delete_datareader subscriber (some dataReader))).2).2.1
        (removeOldFilter m (narrow dataReader.topicdescription) (stopEmitter g rt R).2.1
          (((stopEmitter g rt R).2.2.call
              (Event.delete_contained_entities (some dataReader))).2.call
            (Event.delete_datareader subscriber (some dataReader))).2).2.2 := by
  unfold replaceFilter
  rw [if_neg hR, getReader_eq m t R g hR hg]
  simp only [getSubscriber, hg, hs, hr, hl]
  generalize (stopEmitter g rt R).2.2.call
    (Event.delete_contained_entities (some dataReader)) = p at h1 h2 ⊢
  obtain ⟨rc, rt1⟩ := p
  simp only at h1 h2
  subst h1
  simp only
  generalize rt1.call (Event.delete_datareader subscriber (some dataReader)) = p2 at h2 ⊢
  obtain ⟨rc2, rt2⟩ := p2
  simp only at h2
  subst h2
  rfl

/-- The code and the runtime a call leaves, read off the script. -/
theorem call_script (rt : Runtime) (e : Event) (rc : ReturnCode) (rest : List ReturnCode)
    (h : rt.script = rc :: rest) :
    rt.call e = (rc, { rt with script := rest, log := rt.log ++ [e] }) := by
  unfold Runtime.call
  rw [h]

/-- C16: in `replaceFilter` on a registered reader (non-empty name, group with a
subscriber, reader and listener under the name), when `delete_contained_entities` on the
old reader, or after its success `delete_datareader`, reports a code other than
`RETCODE_OK`, the call returns false; the readers map, the filter map and the reader
listeners of the group are unchanged, and the calls issued are the worker stop and the
refused deletions only: no content-filter topic is deleted or created and no reader is
created. -/
theorem replaceFilter_refused_deletion (m : DDSManager) (rt : Runtime) (t R filter : String)
    (g : TopicGroup) (subscriber : Ref) (dataReader : DataReader)
    (listener : GenericReaderListener) (rc : ReturnCode) (rest : List ReturnCode)
    (hR : R ≠ "") (hg : mapFind m.m_topics t = some (some g))
    (hs : g.subscriber = some subscriber) (hr : mapFind g.readers R = some dataReader)
    (hl : mapFind g.m_readerListeners R = some listener)
    (hrc : rc ≠ ReturnCode.RETCODE_OK)
    (h : rt.script = rc :: rest ∨ rt.script = ReturnCode.RETCODE_OK :: rc :: rest) :
    ∃ m1 rt1 g1 calls, replaceFilter m rt t R filter = some (false, m1, rt1) ∧
      mapFind m1.m_topics t = some (some g1) ∧ g1.readers = g.readers ∧
      g1.filteredTopics = g.filteredTopics ∧
      g1.m_readerListeners = g.m_readerListeners ∧
      rt1.log = rt.log ++ calls ∧ ∀ e ∈ calls, isFilterOrReaderChange e = false := by
  obtain ⟨stops, hrt0, hstops⟩ := stopEmitter_runtime g rt R
  obtain ⟨f1, f2, f3, -⟩ := stopEmitter_fields g rt R
  have hquiet : ∀ e ∈ stops, isFilterOrReaderChange e = false := by
    intro e he
    obtain ⟨i, hi⟩ := hstops e he
    rw [hi]
    rfl
  rcases h with h | h
  · have hc := call_script (stopEmitter g rt R).2.2
      (Event.delete_contained_entities (some dataReader)) rc rest (by rw [hrt0]; exact h)
    have hres := replaceFilter_contained_refused m rt t R filter g subscriber dataReader
      listener hR hg hs hr hl (by rw [hc]; exact hrc)
    refine ⟨_, _, _, stops ++ [Event.delete_contained_entities (some dataReader)], hres,
      find_setGroup _ _ _, f1, f2, f3, ?_, ?_⟩
    · rw [hc, hrt0]
      simp
    · intro e he
      rcases List.mem_append.mp he with he | he
      · exact hquiet e he
      · rw [List.mem_singleton.mp he]
        rfl
  · have hc := call_script (stopEmitter g rt R).2.2
      (Event.delete_contained_entities (some dataReader)) ReturnCode.RETCODE_OK (rc :: rest)
      (by rw [hrt0]; exact h)
    have hc2 := call_script
      ((stopEmitter g rt R).2.2.call (Event.delete_contained_entities (some dataReader))).2
      (Event.delete_datareader subscriber (some dataReader)) rc rest (by rw [hc])
    have hres := replaceFilter_reader_refused m rt t R filter g subscriber dataReader
      listener hR hg hs hr hl (by rw [hc]) (by rw [hc2]; exact hrc)
    refine ⟨_, _, _, stops ++ [Event.delete_contained_entities (some dataReader),
      Event.delete_datareader subscriber (some dataReader)], hres,
      find_setGroup _ _ _, f1, f2, f3, ?_, ?_⟩
    · rw [hc2, hc, hrt0]
      simp
    · intro e he
      rcases List.mem_append.mp he with he | he
      · exact hquiet e he
      · simp only [List.mem_cons, List.mem_singleton, List.not_mem_nil, or_false] at he
        rcases he with he | he <;> rw [he] <;> rfl

theorem replaceFilter_refused_deletion_witness :
    (∃ m1 rt1 g1 calls,
      replaceFilter sampleReaderManager (rtScript [ReturnCode.RETCODE_ERROR]) "T" "R" "x > 1" =
        some (false, m1, rt1) ∧
      mapFind m1.m_topics "T" = some (some g1) ∧ g1.readers = sampleReaderGroup.readers ∧
      g1.filteredTopics = sampleReaderGroup.filteredTopics ∧
      g1.m_readerListeners = sampleReaderGroup.m_readerListeners ∧
      rt1.log = (rtScript [ReturnCode.RETCODE_ERROR]).log ++ calls ∧
      ∀ e ∈ calls, isFilterOrReaderChange e = false) ∧
    (∃ m1 rt1 g1 calls,
      replaceFilter sampleReaderManager
          (rtScript [ReturnCode.RETCODE_OK, ReturnCode.RETCODE_TIMEOUT]) "T" "R" "" =
        some (false, m1, rt1) ∧
      mapFind m1.m_topics "T" = some (some g1) ∧ g1.readers = sampleReaderGroup.readers ∧
      g1.filteredTopics = sampleReaderGroup.filteredTopics ∧
      g1.m_readerListeners = sampleReaderGroup.m_readerListeners ∧
      rt1.log = (rtScript [ReturnCode.RETCODE_OK, ReturnCode.RETCODE_TIMEOUT]).log ++ calls ∧
      ∀ e ∈ calls, isFilterOrReaderChange e = false) :=
  ⟨replaceFilter_refused_deletion sampleReaderManager (rtScript [ReturnCode.RETCODE_ERROR])
      "T" "R" "x > 1" sampleReaderGroup 100 _ _ ReturnCode.RETCODE_ERROR [] (by decide) rfl rfl
      rfl rfl (by decide) (Or.inl rfl),
    replaceFilter_refused_deletion sampleReaderManager
      (rtScript [ReturnCode.RETCODE_OK, ReturnCode.RETCODE_TIMEOUT]) "T" "R" ""
      sampleReaderGroup 100 _ _ ReturnCode.RETCODE_TIMEOUT [] (by decide) rfl rfl rfl rfl
      (by decide) (Or.inr rfl)⟩

/-- The code of a call does not depend on the call. -/
theorem call_code (rt : Runtime) (e : Event) : (rt.call e).1 = rt.nextCode := by
  unfold Runtime.nextCode Runtime.call
  cases rt.script with
  | nil => rfl
  | cons r rest => rfl

/-- The loop of `replaceFilterParams`: it issues at most one call, a
`set_expression_parameters`, and its status is true exactly when the filter topic is held
by the map and that call reports `RETCODE_OK`. -/
theorem updateParameters_spec (c : ContentFilteredTopic) (params : List String)
    (l : List (String × ContentFilteredTopic)) (rt : Runtime) :
    (∃ calls, (updateParameters c params l rt).2.log = rt.log ++ calls ∧
      ∀ e ∈ calls, isCreateOrDelete e = false) ∧
    ((updateParameters c params l rt).1 = true ↔
      (∃ e ∈ l, e.2.ref = c.ref) ∧ rt.nextCode = ReturnCode.RETCODE_OK) := by
  induction l with
  | nil =>
    refine ⟨⟨[], by simp [updateParameters], by simp⟩, ?_⟩
    simp [updateParameters]
  | cons hd tl ih =>
    obtain ⟨k, v⟩ := hd
    by_cases hv : v.ref = c.ref
    · have hcode := call_code rt (Event.set_expression_parameters v params)
      have hlog := call_log rt (Event.set_expression_parameters v params)
      unfold updateParameters
      simp only [ne_eq, hv, not_true_eq_false, if_false]
      generalize rt.call (Event.set_expression_parameters v params) = p at hcode hlog ⊢
      obtain ⟨rc, rt1⟩ := p
      simp only at hcode hlog
      have hmem : ∃ e ∈ (k, v) :: tl, e.2.ref = c.ref := ⟨(k, v), by simp, hv⟩
      have hcalls : ∃ calls, rt1.log = rt.log ++ calls ∧
          ∀ e ∈ calls, isCreateOrDelete e = false :=
        ⟨[Event.set_expression_parameters v params], hlog, by
          intro e he
          rw [List.mem_singleton.mp he]
          rfl⟩
      cases rc <;> first
        | exact ⟨hcalls, fun _ => ⟨hmem, hcode.symm⟩, fun _ => rfl⟩
        | exact ⟨hcalls, fun hb => by simp at hb, fun hb => by
            rw [← hcode] at hb
            simp at hb⟩
    · unfold updateParameters
      simp only [ne_eq, hv, not_false_eq_true, if_true]
      refine ⟨ih.1, ih.2.trans ?_⟩
      constructor
      · rintro ⟨⟨e, he, href⟩, hc⟩
        exact ⟨⟨e, List.mem_cons_of_mem _ he, href⟩, hc⟩
      · rintro ⟨⟨e, he, href⟩, hc⟩
        rcases List.mem_cons.mp he with he | he
        · rw [he] at href
          exact absurd href hv
        · exact ⟨⟨e, he, href⟩, hc⟩

/-- C18: `replaceFilterParams(topic, R, params)` returns, unless the topic maps to a null
group; it returns true exactly when `R` is a non-empty name under which the group (with
its subscriber) holds a reader, the reader is bound to a content-filter topic held in the
group's filter map, and `set_expression_parameters` on it reports `RETCODE_OK`.  In every
case the manager is unchanged (readers, reader listeners and filter map of every group),
and the calls issued are neither deletions nor creations. -/
theorem replaceFilterParams_spec (m : DDSManager) (rt : Runtime) (t R : String)
    (params : List String) :
    (∀ b m1 rt1, replaceFilterParams m rt t R params = some (b, m1, rt1) →
      m1 = m ∧
      (∃ calls, rt1.log = rt.log ++ calls ∧ ∀ e ∈ calls, isCreateOrDelete e = false) ∧
      (b = true ↔
        R ≠ "" ∧ ∃ g subscriber reader c, mapFind m.m_topics t = some (some g) ∧
          g.subscriber = some subscriber ∧ mapFind g.readers R = some reader ∧
          narrow reader.topicdescription = some c ∧
          (∃ e ∈ g.filteredTopics, e.2.ref = c.ref) ∧
          rt.nextCode = ReturnCode.RETCODE_OK)) ∧
    (mapFind m.m_topics t ≠ some none →
      ∃ r, replaceFilterParams m rt t R params = some r) := by
  have quiet : ∃ calls : List Event, rt.log = rt.log ++ calls ∧
      ∀ e ∈ calls, isCreateOrDelete e = false := ⟨[], by simp, by simp⟩
  by_cases hR : R = ""
  · have hres : replaceFilterParams m rt t R params = some (false, m, rt) := by
      unfold replaceFilterParams
      rw [if_pos hR]
    refine ⟨?_, fun _ => ⟨_, hres⟩⟩
    intro b m1 rt1 h
    rw [hres] at h
    simp only [Option.some.injEq, Prod.mk.injEq] at h
    rw [← h.1, ← h.2.1, ← h.2.2]
    exact ⟨rfl, quiet, by simp [hR]⟩
  · cases hg : mapFind m.m_topics t with
    | none =>
      have hres : replaceFilterParams m rt t R params = some (false, m, rt) := by
        unfold replaceFilterParams
        rw [if_neg hR]
        simp only [getSubscriber, hg]
      refine ⟨?_, fun _ => ⟨_, hres⟩⟩
      intro b m1 rt1 h
      rw [hres] at h
      simp only [Option.some.injEq, Prod.mk.injEq] at h
      rw [← h.1, ← h.2.1, ← h.2.2]
      exact ⟨rfl, quiet, by simp⟩
    | some og =>
      cases og with
      | none =>
        have hres : replaceFilterParams m rt t R params = none := by
          unfold replaceFilterParams
          rw [if_neg hR]
          simp only [getSubscriber, hg]
        refine ⟨?_, fun hn => absurd rfl hn⟩
        intro b m1 rt1 h
        rw [hres] at h
        simp at h
      | some g =>
        cases hs : g.subscriber with
        | none =>
          have hres : replaceFilterParams m rt t R params = some (false, m, rt) := by
            unfold replaceFilterParams
            rw [if_neg hR]
            simp only [getSubscriber, hg, hs]
          refine ⟨?_, fun _ => ⟨_, hres⟩⟩
          intro b m1 rt1 h
          rw [hres] at h
          simp only [Option.some.injEq, Prod.mk.injEq] at h
          rw [← h.1, ← h.2.1, ← h.2.2]
          refine ⟨rfl, quiet, ?_⟩
          simp only [Bool.false_eq_true, false_iff, not_and, not_exists]
          intro _ g1 s1 r1 c1 hg1 hs1
          simp only [Option.some.injEq] at hg1
          rw [← hg1, hs] at hs1
          simp at hs1
        | some subscriber =>
          cases hr : mapFind g.readers R with
          | none =>
            have hres : replaceFilterParams m rt t R params = some (false, m, rt) := by
              unfold replaceFilterParams
              rw [if_neg hR, getReader_eq m t R g hR hg]
              simp only [getSubscriber, hg, hs, hr]
            refine ⟨?_, fun _ => ⟨_, hres⟩⟩
            intro b m1 rt1 h
            rw [hres] at h
            simp only [Option.some.injEq, Prod.mk.injEq] at h
            rw [← h.1, ← h.2.1, ← h.2.2]
            refine ⟨rfl, quiet, ?_⟩
            simp only [Bool.false_eq_true, false_iff, not_and, not_exists]
            intro _ g1 s1 r1 c1 hg1 _ hr1
            simp only [Option.some.injEq] at hg1
            rw [← hg1, hr] at hr1
            simp at hr1
          | some reader =>
            cases hd : narrow reader.topicdescription with
            | none =>
              have hres : replaceFilterParams m rt t R params = some (false, m, rt) := by
                unfold replaceFilterParams
                rw [if_neg hR, getReader_eq m t R g hR hg]
                simp only [getSubscriber, hg, hs, hr, hd]
              refine ⟨?_, fun _ => ⟨_, hres⟩⟩
              intro b m1 rt1 h
              rw [hres] at h
              simp only [Option.some.injEq, Prod.mk.injEq] at h
              rw [← h.1, ← h.2.1, ← h.2.2]
              refine ⟨rfl, quiet, ?_⟩
              simp only [Bool.false_eq_true, false_iff, not_and, not_exists]
              intro _ g1 s1 r1 c1 hg1 _ hr1 hd1
              simp only [Option.some.injEq] at hg1
              rw [← hg1, hr] at hr1
              simp only [Option.some.injEq] at hr1
              rw [← hr1, hd] at hd1
              simp at hd1
            | some c =>
              have hres : replaceFilterParams m rt t R params =
                  some ((updateParameters c params g.filteredTopics rt).1, m,
                    (updateParameters c params g.filteredTopics rt).2) := by
                unfold replaceFilterParams
                rw [if_neg hR, getReader_eq m t R g hR hg]
                simp only [getSubscriber, hg, hs, hr, hd]
              obtain ⟨hcalls, hiff⟩ := updateParameters_spec c params g.filteredTopics rt
              refine ⟨?_, fun _ => ⟨_, hres⟩⟩
              intro b m1 rt1 h
              rw [hres] at h
              simp only [Option.some.injEq, Prod.mk.injEq] at h
              rw [← h.1, ← h.2.1, ← h.2.2]
              refine ⟨rfl, hcalls, hiff.trans ?_⟩
              constructor
              · rintro ⟨hmem, hc⟩
                exact ⟨hR, g, subscriber, reader, c, rfl, hs, hr, hd, hmem, hc⟩
              · rintro ⟨-, g1, s1, r1, c1, hg1, -, hr1, hd1, hmem, hc⟩
                simp only [Option.some.injEq] at hg1
                subst hg1
                rw [hr] at hr1
                simp only [Option.some.injEq] at hr1
                subst hr1
                rw [hd] at hd1
                simp only [Option.some.injEq] at hd1
                subst hd1
                exact ⟨hmem, hc⟩

theorem replaceFilterParams_spec_witness :
    replaceFilterParams workerManager rtOk "T" "R" ["7"] =
        some (true, workerManager,
          { rtOk with log := [Event.set_expression_parameters ⟨99, "T_R_0"⟩ ["7"]] }) ∧
      (workerManager = workerManager ∧
        (∃ calls,
          ({ rtOk with log := [Event.set_expression_parameters ⟨99, "T_R_0"⟩ ["7"]] } :
              Runtime).log = rtOk.log ++ calls ∧
            ∀ e ∈ calls, isCreateOrDelete e = false) ∧
        (true = true ↔
          "R" ≠ "" ∧ ∃ g subscriber reader c,
            mapFind workerManager.m_topics "T" = some (some g) ∧
            g.subscriber = some subscriber ∧ mapFind g.readers "R" = some reader ∧
            narrow reader.topicdescription = some c ∧
            (∃ e ∈ g.filteredTopics, e.2.ref = c.ref) ∧
            rtOk.nextCode = ReturnCode.RETCODE_OK)) ∧
      (∃ r, replaceFilterParams sampleReaderManager rtRefuses "T" "R" ["7"] = some r) :=
  ⟨rfl,
    (replaceFilterParams_spec workerManager rtOk "T" "R" ["7"]).1 true _ _ rfl,
    (replaceFilterParams_spec sampleReaderManager rtRefuses "T" "R" ["7"]).2 (by decide)⟩

/-! ## Result of `unregisterTopic` -/

theorem mapFind_none_of_not_mem {V : Type} (l : List (String × V)) (k : String)
    (h : k ∉ mapKeys l) : mapFind l k = none := by
  cases hf : mapFind l k with
  | none => rfl
  | some v => exact absurd (mem_mapKeys_of_find l k v hf) h

/-- C19: `unregisterTopic(name)` returns true exactly when the name maps to a non-null
group.  After a true result the name is absent from the registry (whose names are
distinct, as the keys of a `std::map` are) and every other name maps to what it mapped to
before; after a false result the manager and the runtime are unchanged.  The call returns
when the runtime survives a call through a nil handle or the group holds its topic. -/
theorem unregisterTopic_spec (m : DDSManager) (rt : Runtime) (t : String) :
    (∀ b m1 rt1, unregisterTopic m rt t = some (b, m1, rt1) →
      (b = true ↔ ∃ g, mapFind m.m_topics t = some (some g)) ∧
      (b = true → ((mapKeys m.m_topics).Nodup →
          t ∉ mapKeys m1.m_topics ∧ mapFind m1.m_topics t = none) ∧
        ∀ u, u ≠ t → mapFind m1.m_topics u = mapFind m.m_topics u) ∧
      (b = false → m1 = m ∧ rt1 = rt)) ∧
    (∀ g, mapFind m.m_topics t = some (some g) →
      g.topic ≠ none ∨ rt.survivesNilCall = true →
      ∃ m1 rt1, unregisterTopic m rt t = some (true, m1, rt1)) ∧
    ((¬ ∃ g, mapFind m.m_topics t = some (some g)) →
      unregisterTopic m rt t = some (false, m, rt)) := by
  refine ⟨?_, ?_, ?_⟩
  · intro b m1 rt1 h
    unfold unregisterTopic at h
    cases hg : mapFind m.m_topics t with
    | none =>
      simp only [hg, Option.some.injEq, Prod.mk.injEq] at h
      rw [← h.1, ← h.2.1, ← h.2.2]
      simp
    | some og =>
      cases og with
      | none =>
        simp only [hg, Option.some.injEq, Prod.mk.injEq] at h
        rw [← h.1, ← h.2.1, ← h.2.2]
        simp
      | some g =>
        simp only [hg] at h
        cases hd : g.destroy rt with
        | none => simp [hd] at h
        | some rt2 =>
          simp only [hd, Option.some.injEq, Prod.mk.injEq] at h
          rw [← h.1, ← h.2.1]
          refine ⟨⟨fun _ => ⟨g, rfl⟩, fun _ => rfl⟩, fun _ => ⟨fun hnd => ?_, fun u hu => ?_⟩,
            fun hb => by simp at hb⟩
          · have hnot := not_mem_mapKeys_mapErase m.m_topics t hnd
            exact ⟨hnot, mapFind_none_of_not_mem _ _ hnot⟩
          · exact mapFind_mapErase_ne m.m_topics t u hu
  · intro g hg hsurv
    obtain ⟨rt1, hd⟩ := destroy_total g rt hsurv
    unfold unregisterTopic
    simp only [hg, hd]
    exact ⟨_, _, rfl⟩
  · intro hno
    unfold unregisterTopic
    cases hg : mapFind m.m_topics t with
    | none => rfl
    | some og =>
      cases og with
      | none => rfl
      | some g => exact absurd ⟨g, hg⟩ hno

theorem unregisterTopic_spec_witness :
    (∃ m1 rt1, unregisterTopic workerManager rtOk "T" = some (true, m1, rt1) ∧
      (true = true ↔ ∃ g, mapFind workerManager.m_topics "T" = some (some g)) ∧
      (true = true → ((mapKeys workerManager.m_topics).Nodup →
          "T" ∉ mapKeys m1.m_topics ∧ mapFind m1.m_topics "T" = none) ∧
        ∀ u, u ≠ "T" → mapFind m1.m_topics u = mapFind workerManager.m_topics u) ∧
      (true = false → m1 = workerManager ∧ rt1 = rtOk)) ∧
    (∃ m1 rt1, unregisterTopic workerManager rtOk "T" = some (true, m1, rt1)) ∧
    unregisterTopic workerManager rtOk "U" = some (false, workerManager, rtOk) :=
  ⟨⟨_, _, rfl, (unregisterTopic_spec workerManager rtOk "T").1 true _ _ rfl⟩,
    (unregisterTopic_spec workerManager rtOk "T").2.1 workerGroup rfl (Or.inr rfl),
    (unregisterTopic_spec workerManager rtOk "U").2.2 (by
      rintro ⟨g, hg⟩
      rw [show mapFind workerManager.m_topics "U" = none from rfl] at hg
      cases hg)⟩

/-! ## Position of `delete_topic` in the destructor -/

/-- The last stage of the destructor issues `delete_topic` or nothing. -/
theorem deleteTopicStage_calls (g : TopicGroup) (rt : Runtime) :
    (g.deleteTopicStage rt).log = rt.log ∨
      ∃ topic, (g.deleteTopicStage rt).log = rt.log ++ [Event.delete_topic topic] := by
  unfold TopicGroup.deleteTopicStage
  cases g.domain with
  | none => exact Or.inl rfl
  | some d =>
    cases g.topic with
    | none => exact Or.inl rfl
    | some topic => exact Or.inr ⟨topic, call_log _ _⟩

/-- A call of one of the stages before the last is not `delete_topic`. -/
theorem not_deleteTopic_of_stage (i : Nat) (hi : i < 6) (x : Event)
    (h : destroyStage x = some i ∨ destroyStage x = none) : isDeleteTopic x = false := by
  cases x <;> first
    | rfl
    | (exfalso
       rcases h with h | h
       · simp only [destroyStage, Option.some.injEq] at h
         omega
       · simp [destroyStage] at h)

/-- The calls of the destructor: a body without `delete_topic`, followed by
`delete_topic` or nothing. -/
theorem destroy_calls (g : TopicGroup) (rt rt1 : Runtime) (h : g.destroy rt = some rt1) :
    ∃ body tail, rt1.log = rt.log ++ (body ++ tail) ∧
      (∀ x ∈ body, isDeleteTopic x = false) ∧
      (tail = [] ∨ ∃ topic, tail = [Event.delete_topic topic]) := by
  unfold TopicGroup.destroy at h
  obtain ⟨P0, h0, -, hP0, -⟩ := deleteReadersStage_log g rt
  split at h
  · simp at h
  · rename_i rt2 hw
    obtain ⟨P1, h1, -, hP1⟩ := deleteWriterStage_log g _ rt2 hw
    split at h
    · simp at h
    · rename_i rt3 hp
      obtain ⟨P2, h2, -, hP2⟩ := deletePublisherStage_log g rt2 rt3 hp
      split at h
      · simp at h
      · rename_i rt4 hsub
        obtain ⟨P3, h3, -, hP3⟩ := deleteSubscriberStage_log g rt3 rt4 hsub
        obtain ⟨P5, h5, hP5⟩ := deleteFiltersStage_log g (stopEmitters g.emitters rt4)
        have h4 := (stopEmitters_log g.emitters rt4).1
        have hbody : ∀ x ∈ P0 ++ (P1 ++ (P2 ++ (P3 ++
            (g.emitters.map (fun x => Event.emitter_stop x.2.id) ++ P5)))),
            isDeleteTopic x = false := by
          intro x hx
          simp only [List.mem_append] at hx
          rcases hx with hx | hx | hx | hx | hx | hx
          · exact not_deleteTopic_of_stage 0 (by omega) x (hP0 x hx)
          · exact not_deleteTopic_of_stage 1 (by omega) x (hP1 x hx)
          · exact not_deleteTopic_of_stage 2 (by omega) x (hP2 x hx)
          · exact not_deleteTopic_of_stage 3 (by omega) x (hP3 x hx)
          · simp only [List.mem_map] at hx
            obtain ⟨a, -, ha⟩ := hx
            rw [← ha]
            rfl
          · exact not_deleteTopic_of_stage 5 (by omega) x (hP5 x hx)
        have hlog : (g.deleteFiltersStage (stopEmitters g.emitters rt4)).log =
            rt.log ++ (P0 ++ (P1 ++ (P2 ++ (P3 ++
              (g.emitters.map (fun x => Event.emitter_stop x.2.id) ++ P5))))) := by
          rw [h5, h4, h3, h2, h1, h0]
          simp only [List.append_assoc]
        cases h
        rcases deleteTopicStage_calls g (g.deleteFiltersStage (stopEmitters g.emitters rt4))
          with h6 | ⟨topic, h6⟩
        · exact ⟨_, [], by rw [h6, hlog, List.append_nil], hbody, Or.inl rfl⟩
        · exact ⟨_, [Event.delete_topic topic], by rw [h6, hlog, List.append_assoc], hbody,
            Or.inr ⟨topic, rfl⟩⟩

/-- In a list made of a body without `delete_topic` and at most one final `delete_topic`,
nothing follows a `delete_topic`. -/
theorem nothing_after_deleteTopic (body tail pre post : List Event) (e : Event)
    (hbody : ∀ x ∈ body, isDeleteTopic x = false)
    (htail : tail = [] ∨ ∃ topic, tail = [Event.delete_topic topic])
    (he : isDeleteTopic e = true) (h : body ++ tail = pre ++ e :: post) : post = [] := by
  rcases List.append_eq_append_iff.mp h with ⟨a, -, ha⟩ | ⟨c, hc, hc2⟩
  · rcases htail with ht | ⟨topic, ht⟩
    · rw [ht] at ha
      simp at ha
    · rw [ht] at ha
      cases a with
      | nil =>
        simp only [List.nil_append, List.cons.injEq] at ha
        exact ha.2.symm
      | cons a0 as =>
        simp only [List.cons_append, List.cons.injEq] at ha
        have := ha.2
        simp at this
  · cases c with
    | nil =>
      rcases htail with ht | ⟨topic, ht⟩
      · rw [ht] at hc2
        simp at hc2
      · rw [ht] at hc2
        simp only [List.nil_append, List.cons.injEq] at hc2
        exact hc2.2
    | cons c0 cs =>
      simp only [List.cons_append, List.cons.injEq] at hc2
      have hmem : e ∈ body := by
        rw [hc, ← hc2.1]
        simp
      rw [hbody e hmem] at he
      simp at he

/-- C20: for every Topic Group state, in the calls the destructor issues nothing follows a
`delete_topic`: it is the last call, so that no `delete_datareader`, `delete_datawriter`,
`delete_publisher` or `delete_subscriber` comes after it.  The destructor returns when the
group has a topic or the runtime survives a call through a nil handle. -/
theorem destroy_delete_topic_last (g : TopicGroup) (rt : Runtime) :
    (∀ rt1, g.destroy rt = some rt1 →
      ∃ calls, rt1.log = rt.log ++ calls ∧
        ∀ pre e post, calls = pre ++ e :: post → isDeleteTopic e = true →
          post = [] ∧ ∀ x ∈ post, isEntityDeletion x = false) ∧
    (g.topic ≠ none ∨ rt.survivesNilCall = true → ∃ rt1, g.destroy rt = some rt1) := by
  constructor
  · intro rt1 h
    obtain ⟨body, tail, hlog, hbody, htail⟩ := destroy_calls g rt rt1 h
    refine ⟨body ++ tail, hlog, ?_⟩
    intro pre e post hsplit he
    have hpost := nothing_after_deleteTopic body tail pre post e hbody htail he hsplit
    rw [hpost]
    exact ⟨rfl, by simp⟩
  · exact destroy_total g rt

theorem destroy_delete_topic_last_witness :
    ∃ rt1, workerGroup.destroy rtOk = some rt1 ∧
      rt1.log = rtOk.log ++
        ([Event.delete_datareader 100
            (some ⟨101, some (TopicDescription.filtered ⟨99, "T_R_0"⟩)⟩),
          Event.delete_datawriter 10 11, Event.delete_publisher 10,
          Event.delete_subscriber 100, Event.emitter_stop 7,
          Event.delete_contentfilteredtopic ⟨99, "T_R_0"⟩] ++ Event.delete_topic 1 :: []) ∧
      ∃ calls, rt1.log = rtOk.log ++ calls ∧
        ∀ pre e post, calls = pre ++ e :: post → isDeleteTopic e = true →
          post = [] ∧ ∀ x ∈ post, isEntityDeletion x = false :=
  ⟨_, rfl, rfl, (destroy_delete_topic_last workerGroup rtOk).1 _ rfl⟩

/-! ## Properties of the QoS setters -/

/-- The group a setter finds after its first lines, and the registry it leaves when it
stores `g1` under the name. -/
theorem ensureGroup_spec (qd : QosDictionary) (m : DDSManager) (t : String)
    (hnull : mapFind m.m_topics t ≠ some none) :
    mapFind (ensureGroup qd m t).m_topics t = some (some (groupOrNew qd m t)) ∧
      ∀ g1, SetterFrame m ((ensureGroup qd m t).setGroup t g1) t g1 := by
  unfold ensureGroup groupOrNew SetterFrame
  cases h : mapFind m.m_topics t with
  | none =>
    refine ⟨find_setGroup _ _ _, fun g1 => ?_⟩
    simp only [setGroup_setGroup]
    exact ⟨find_setGroup _ _ _, fun u hu => mapFind_mapAssign_ne _ _ _ _ hu⟩
  | some og =>
    cases og with
    | none => exact absurd h hnull
    | some g =>
      refine ⟨h, fun g1 => ?_⟩
      exact ⟨find_setGroup _ _ _, fun u hu => mapFind_mapAssign_ne _ _ _ _ hu⟩

/-- The getters before a setter call read the group the setter works on. -/
theorem getters_groupOrNew (qd : QosDictionary) (m : DDSManager) (t : String)
    (hnull : mapFind m.m_topics t ≠ some none) :
    getTopicQos qd m t = some (groupOrNew qd m t).topicQos ∧
      getPublisherQos qd m t = some (groupOrNew qd m t).pubQos ∧
      getSubscriberQos qd m t = some (groupOrNew qd m t).subQos ∧
      getReaderQos qd m t = some (groupOrNew qd m t).dataReaderQos ∧
      getWriterQos qd m t = some (groupOrNew qd m t).dataWriterQos := by
  unfold getTopicQos getPublisherQos getSubscriberQos getReaderQos getWriterQos groupOrNew
  cases h : mapFind m.m_topics t with
  | none => exact ⟨rfl, rfl, rfl, rfl, rfl⟩
  | some og =>
    cases og with
    | none => exact absurd h hnull
    | some g => exact ⟨rfl, rfl, rfl, rfl, rfl⟩

/-- The getters on a registry that maps the name to `g1`. -/
theorem getters_of_find (qd : QosDictionary) (m : DDSManager) (t : String) (g1 : TopicGroup)
    (h : mapFind m.m_topics t = some (some g1)) :
    getTopicQos qd m t = some g1.topicQos ∧
      getPublisherQos qd m t = some g1.pubQos ∧
      getSubscriberQos qd m t = some g1.subQos ∧
      getReaderQos qd m t = some g1.dataReaderQos ∧
      getWriterQos qd m t = some g1.dataWriterQos := by
  unfold getTopicQos getPublisherQos getSubscriberQos getReaderQos getWriterQos
  rw [h]
  exact ⟨rfl, rfl, rfl, rfl, rfl⟩

theorem setReaderQosLoop_log (q : DataReaderQos) (l : List (String × DataReader))
    (rt : Runtime) :
    (setReaderQosLoop q l rt).log = rt.log ++ l.map (fun e => Event.reader_set_qos e.2 q) := by
  induction l generalizing rt with
  | nil => simp [setReaderQosLoop]
  | cons hd tl ih =>
    obtain ⟨k, r⟩ := hd
    simp only [setReaderQosLoop, List.map_cons]
    rw [ih, call_log]
    simp

/-- What each setter returns, in terms of the group it works on. -/
theorem setters_eq (qd : QosDictionary) (m : DDSManager) (rt : Runtime) (t : String)
    (hnull : mapFind m.m_topics t ≠ some none) :
    (∀ q, setTopicQos qd m t q =
      some ((ensureGroup qd m t).setGroup t { groupOrNew qd m t with topicQos := q })) ∧
    (∀ q, setPublisherQos qd m rt t q =
      some ((ensureGroup qd m t).setGroup t { groupOrNew qd m t with pubQos := q },
        afterPublisherSetQos (groupOrNew qd m t) rt q)) ∧
    (∀ q, setSubscriberQos qd m rt t q =
      some ((ensureGroup qd m t).setGroup t { groupOrNew qd m t with subQos := q },
        afterSubscriberSetQos (groupOrNew qd m t) rt q)) ∧
    (∀ q, setReaderQos qd m rt t q =
      some ((ensureGroup qd m t).setGroup t { groupOrNew qd m t with dataReaderQos := q },
        setReaderQosLoop q (groupOrNew qd m t).readers rt)) ∧
    (∀ q, setWriterQos qd m rt t q =
      some ((ensureGroup qd m t).setGroup t { groupOrNew qd m t with dataWriterQos := q },
        afterWriterSetQos (groupOrNew qd m t) rt q)) := by
  have he := (ensureGroup_spec qd m t hnull).1
  refine ⟨?_, ?_, ?_, ?_, ?_⟩
  · intro q
    simp only [setTopicQos, he]
  · intro q
    simp only [setPublisherQos, he, afterPublisherSetQos]
  · intro q
    simp only [setSubscriberQos, he, afterSubscriberSetQos]
  · intro q
    simp only [setReaderQos, he]
  · intro q
    simp only [setWriterQos, he, afterWriterSetQos]

/-- C21: for a name `t` that is absent from the registry or maps to a group (a name mapped
to a null group is dereferenced), each of the five setters returns and leaves `t` mapped to
the group it worked on, with the one QoS value replaced by `q`: that group is the one `t`
mapped to, or a new group with `qosPreset = -1` and nil handles when `t` was absent.  The
matching getter then returns `q`, the four other getters return what they returned before,
`qosPreset`, the handles and the maps of the group are unchanged, and every other name maps
to what it mapped to. -/
theorem setters_store (qd : QosDictionary) (m : DDSManager) (rt : Runtime) (t : String)
    (hnull : mapFind m.m_topics t ≠ some none) :
    (mapFind m.m_topics t = none →
      groupOrNew qd m t = TopicGroup.new qd ∧ (TopicGroup.new qd).qosPreset = -1 ∧
      (TopicGroup.new qd).domain = none ∧ (TopicGroup.new qd).topic = none ∧
      (TopicGroup.new qd).publisher = none ∧ (TopicGroup.new qd).subscriber = none ∧
      (TopicGroup.new qd).writer = none) ∧
    (∀ g, mapFind m.m_topics t = some (some g) → groupOrNew qd m t = g) ∧
    (∀ q, ∃ m1, setTopicQos qd m t q = some m1 ∧
      SetterFrame m m1 t { groupOrNew qd m t with topicQos := q } ∧
      getTopicQos qd m1 t = some q ∧
      getPublisherQos qd m1 t = getPublisherQos qd m t ∧
      getSubscriberQos qd m1 t = getSubscriberQos qd m t ∧
      getReaderQos qd m1 t = getReaderQos qd m t ∧
      getWriterQos qd m1 t = getWriterQos qd m t) ∧
    (∀ q, ∃ m1 rt1, setPublisherQos qd m rt t q = some (m1, rt1) ∧
      SetterFrame m m1 t { groupOrNew qd m t with pubQos := q } ∧
      getPublisherQos qd m1 t = some q ∧
      getTopicQos qd m1 t = getTopicQos qd m t ∧
      getSubscriberQos qd m1 t = getSubscriberQos qd m t ∧
      getReaderQos qd m1 t = getReaderQos qd m t ∧
      getWriterQos qd m1 t = getWriterQos qd m t) ∧
    (∀ q, ∃ m1 rt1, setSubscriberQos qd m rt t q = some (m1, rt1) ∧
      SetterFrame m m1 t { groupOrNew qd m t with subQos := q } ∧
      getSubscriberQos qd m1 t = some q ∧
      getTopicQos qd m1 t = getTopicQos qd m t ∧
      getPublisherQos qd m1 t = getPublisherQos qd m t ∧
      getReaderQos qd m1 t = getReaderQos qd m t ∧
      getWriterQos qd m1 t = getWriterQos qd m t) ∧
    (∀ q, ∃ m1 rt1, setReaderQos qd m rt t q = some (m1, rt1) ∧
      SetterFrame m m1 t { groupOrNew qd m t with dataReaderQos := q } ∧
      getReaderQos qd m1 t = some q ∧
      getTopicQos qd m1 t = getTopicQos qd m t ∧
      getPublisherQos qd m1 t = getPublisherQos qd m t ∧
      getSubscriberQos qd m1 t = getSubscriberQos qd m t ∧
      getWriterQos qd m1 t = getWriterQos qd m t) ∧
    (∀ q, ∃ m1 rt1, setWriterQos qd m rt t q = some (m1, rt1) ∧
      SetterFrame m m1 t { groupOrNew qd m t with dataWriterQos := q } ∧
      getWriterQos qd m1 t = some q ∧
      getTopicQos qd m1 t = getTopicQos qd m t ∧
      getPublisherQos qd m1 t = getPublisherQos qd m t ∧
      getSubscriberQos qd m1 t = getSubscriberQos qd m t ∧
      getReaderQos qd m1 t = getReaderQos qd m t) := by
  obtain ⟨e1, e2, e3, e4, e5⟩ := setters_eq qd m rt t hnull
  obtain ⟨b1, b2, b3, b4, b5⟩ := getters_groupOrNew qd m t hnull
  have hframe := (ensureGroup_spec qd m t hnull).2
  refine ⟨?_, ?_, ?_, ?_, ?_, ?_, ?_⟩
  · intro h
    refine ⟨?_, rfl, rfl, rfl, rfl, rfl, rfl⟩
    simp [groupOrNew, h]
  · intro g h
    simp [groupOrNew, h]
  · intro q
    obtain ⟨a1, a2, a3, a4, a5⟩ := getters_of_find qd _ t _ (hframe _).1
    exact ⟨_, e1 q, hframe _, a1, by rw [a2, b2], by rw [a3, b3], by rw [a4, b4],
      by rw [a5, b5]⟩
  · intro q
    obtain ⟨a1, a2, a3, a4, a5⟩ := getters_of_find qd _ t _ (hframe _).1
    exact ⟨_, _, e2 q, hframe _, a2, by rw [a1, b1], by rw [a3, b3], by rw [a4, b4],
      by rw [a5, b5]⟩
  · intro q
    obtain ⟨a1, a2, a3, a4, a5⟩ := getters_of_find qd _ t _ (hframe _).1
    exact ⟨_, _, e3 q, hframe _, a3, by rw [a1, b1], by rw [a2, b2], by rw [a4, b4],
      by rw [a5, b5]⟩
  · intro q
    obtain ⟨a1, a2, a3, a4, a5⟩ := getters_of_find qd _ t _ (hframe _).1
    exact ⟨_, _, e4 q, hframe _, a4, by rw [a1, b1], by rw [a2, b2], by rw [a3, b3],
      by rw [a5, b5]⟩
  · intro q
    obtain ⟨a1, a2, a3, a4, a5⟩ := getters_of_find qd _ t _ (hframe _).1
    exact ⟨_, _, e5 q, hframe _, a5, by rw [a1, b1], by rw [a2, b2], by rw [a3, b3],
      by rw [a4, b4]⟩

theorem setters_store_witness :
    (mapFind sampleManager.m_topics "U" ≠ some none ∧
      ∃ m1, setTopicQos sampleQos sampleManager "U" ⟨42⟩ = some m1 ∧
        SetterFrame sampleManager m1 "U"
          { groupOrNew sampleQos sampleManager "U" with topicQos := ⟨42⟩ } ∧
        getTopicQos sampleQos m1 "U" = some ⟨42⟩ ∧
        getPublisherQos sampleQos m1 "U" = getPublisherQos sampleQos sampleManager "U" ∧
        getSubscriberQos sampleQos m1 "U" = getSubscriberQos sampleQos sampleManager "U" ∧
        getReaderQos sampleQos m1 "U" = getReaderQos sampleQos sampleManager "U" ∧
        getWriterQos sampleQos m1 "U" = getWriterQos sampleQos sampleManager "U") ∧
    (mapFind workerManager.m_topics "T" ≠ some none ∧
      ∃ m1 rt1, setReaderQos sampleQos workerManager rtOk "T" ⟨⟨0, 5⟩, 42⟩ = some (m1, rt1) ∧
        SetterFrame workerManager m1 "T"
          { groupOrNew sampleQos workerManager "T" with dataReaderQos := ⟨⟨0, 5⟩, 42⟩ } ∧
        getReaderQos sampleQos m1 "T" = some ⟨⟨0, 5⟩, 42⟩ ∧
        getTopicQos sampleQos m1 "T" = getTopicQos sampleQos workerManager "T" ∧
        getPublisherQos sampleQos m1 "T" = getPublisherQos sampleQos workerManager "T" ∧
        getSubscriberQos sampleQos m1 "T" = getSubscriberQos sampleQos workerManager "T" ∧
        getWriterQos sampleQos m1 "T" = getWriterQos sampleQos workerManager "T") :=
  ⟨⟨by decide, (setters_store sampleQos sampleManager rtOk "U" (by decide)).2.2.1 ⟨42⟩⟩,
    ⟨by decide,
      (setters_store sampleQos workerManager rtOk "T" (by decide)).2.2.2.2.2.1 ⟨⟨0, 5⟩, 42⟩⟩⟩

/-- C22 fails for `setTopicQos`: on a group that holds its topic, a publisher, a
subscriber and a writer, `setPublisherQos`, `setSubscriberQos` and `setWriterQos` store the
value and issue `set_qos` on the live entity, while `setTopicQos` stores the value and the
runtime is left as it was: no call reaches the topic. -/
theorem setTopicQos_not_propagated (qd : QosDictionary) (m : DDSManager) (rt : Runtime)
    (t : String) (g : TopicGroup) (hg : mapFind m.m_topics t = some (some g)) :
    (∀ pub q, g.publisher = some pub →
      ∃ m1 rt1, setPublisherQos qd m rt t q = some (m1, rt1) ∧
        rt1.log = rt.log ++ [Event.publisher_set_qos pub q] ∧
        getPublisherQos qd m1 t = some q) ∧
    (∀ sub q, g.subscriber = some sub →
      ∃ m1 rt1, setSubscriberQos qd m rt t q = some (m1, rt1) ∧
        rt1.log = rt.log ++ [Event.subscriber_set_qos sub q] ∧
        getSubscriberQos qd m1 t = some q) ∧
    (∀ w q, g.writer = some w →
      ∃ m1 rt1, setWriterQos qd m rt t q = some (m1, rt1) ∧
        rt1.log = rt.log ++ [Event.writer_set_qos w q] ∧
        getWriterQos qd m1 t = some q) ∧
    (∀ topic q, g.topic = some topic →
      ∃ m1, setTopicQos qd m t q = some m1 ∧ getTopicQos qd m1 t = some q ∧
        applyOp qd (Op.setTopicQos t q) m rt = some (m1, rt)) := by
  have hnull : mapFind m.m_topics t ≠ some none := by
    rw [hg]
    simp
  obtain ⟨e1, e2, e3, -, e5⟩ := setters_eq qd m rt t hnull
  have hgn : groupOrNew qd m t = g := by simp [groupOrNew, hg]
  have hframe := (ensureGroup_spec qd m t hnull).2
  refine ⟨?_, ?_, ?_, ?_⟩
  · intro pub q hp
    refine ⟨_, _, e2 q, ?_, (getters_of_find qd _ t _ (hframe _).1).2.1⟩
    rw [hgn]
    simp only [afterPublisherSetQos, hp]
    exact call_log _ _
  · intro sub q hs
    refine ⟨_, _, e3 q, ?_, (getters_of_find qd _ t _ (hframe _).1).2.2.1⟩
    rw [hgn]
    simp only [afterSubscriberSetQos, hs]
    exact call_log _ _
  · intro w q hw
    refine ⟨_, _, e5 q, ?_, (getters_of_find qd _ t _ (hframe _).1).2.2.2.2⟩
    rw [hgn]
    simp only [afterWriterSetQos, hw]
    exact call_log _ _
  · intro topic q _
    refine ⟨_, e1 q, (getters_of_find qd _ t _ (hframe _).1).1, ?_⟩
    simp only [applyOp, e1 q, Option.map_some']

theorem setTopicQos_not_propagated_witness :
    (∃ m1 rt1, setWriterQos sampleQos writerManager rtOk "T" ⟨42⟩ = some (m1, rt1) ∧
      rt1.log = rtOk.log ++ [Event.writer_set_qos 11 ⟨42⟩] ∧
      getWriterQos sampleQos m1 "T" = some ⟨42⟩) ∧
    (∃ m1, setTopicQos sampleQos writerManager "T" ⟨42⟩ = some m1 ∧
      getTopicQos sampleQos m1 "T" = some ⟨42⟩ ∧
      applyOp sampleQos (Op.setTopicQos "T" ⟨42⟩) writerManager rtOk = some (m1, rtOk)) :=
  ⟨(setTopicQos_not_propagated sampleQos writerManager rtOk "T" writerGroup rfl).2.2.1 11
      ⟨42⟩ rfl,
    (setTopicQos_not_propagated sampleQos writerManager rtOk "T" writerGroup rfl).2.2.2 1
      ⟨42⟩ rfl⟩

/-- C23: for a name `t` that is absent from the registry or maps to a group,
`setReaderQos(t, q)` returns; the calls it issues are `set_qos(q)` on the reader of every
entry of the readers map of the group of `t`, one call per entry in the order of the map
and no other call, and `q` is stored as the reader QoS of the group, whose readers are
unchanged. -/
theorem setReaderQos_reaches_every_reader (qd : QosDictionary) (m : DDSManager)
    (rt : Runtime) (t : String) (q : DataReaderQos)
    (hnull : mapFind m.m_topics t ≠ some none) :
    ∃ m1 rt1, setReaderQos qd m rt t q = some (m1, rt1) ∧
      rt1.log = rt.log ++ (groupOrNew qd m t).readers.map (fun e => Event.reader_set_qos e.2 q) ∧
      rt1.log.length = rt.log.length + (mapKeys (groupOrNew qd m t).readers).length ∧
      SetterFrame m m1 t { groupOrNew qd m t with dataReaderQos := q } ∧
      getReaderQos qd m1 t = some q := by
  obtain ⟨-, -, -, e4, -⟩ := setters_eq qd m rt t hnull
  have hframe := (ensureGroup_spec qd m t hnull).2
  refine ⟨_, _, e4 q, setReaderQosLoop_log _ _ _, ?_, hframe _,
    (getters_of_find qd _ t _ (hframe _).1).2.2.2.1⟩
  rw [setReaderQosLoop_log]
  simp [mapKeys]

theorem setReaderQos_reaches_every_reader_witness :
    mapFind workerManager.m_topics "T" ≠ some none ∧
      ∃ m1 rt1, setReaderQos sampleQos workerManager rtOk "T" ⟨⟨0, 5⟩, 42⟩ = some (m1, rt1) ∧
        rt1.log = rtOk.log ++
          (groupOrNew sampleQos workerManager "T").readers.map
            (fun e => Event.reader_set_qos e.2 ⟨⟨0, 5⟩, 42⟩) ∧
        rt1.log.length =
          rtOk.log.length + (mapKeys (groupOrNew sampleQos workerManager "T").readers).length ∧
        SetterFrame workerManager m1 "T"
          { groupOrNew sampleQos workerManager "T" with dataReaderQos := ⟨⟨0, 5⟩, 42⟩ } ∧
        getReaderQos sampleQos m1 "T" = some ⟨⟨0, 5⟩, 42⟩ :=
  ⟨by decide,
    setReaderQos_reaches_every_reader sampleQos workerManager rtOk "T" ⟨⟨0, 5⟩, 42⟩
      (by decide)⟩

/-! ## Properties of `GetNumberOfSubscribers` -/

/-- After `k` sleeps of 100 ms the clock has advanced by at least `100 * k` ms. -/
theorem timeAt_ge (d : Discovery) (hclock : ∀ k : Nat, 100 * ((k : Int) + 1) ≤ d.elapsed k)
    (k : Nat) : 100 * (k : Int) ≤ timeAt d k := by
  cases k with
  | zero => simp [timeAt]
  | succ n =>
    simp only [timeAt, Nat.cast_succ]
    exact hclock n

/-- The loop of `GetNumberOfSubscribers`, entered after `k` polls without enough matches,
returns with enough fuel, and its result is a `PollOutcome`. -/
theorem pollUntil_spec (d : Discovery) (min_count max_wait : Int)
    (hclock : ∀ k : Nat, 100 * ((k : Int) + 1) ≤ d.elapsed k) :
    ∀ (fuel k : Nat), (∀ j, j ≤ k → d.counts j < min_count) → pollMade d max_wait k →
      max_wait ≤ 100 * ((k : Int) + (fuel : Int)) - 100 → 1 ≤ fuel →
      ∃ r, pollUntil d min_count max_wait fuel k (timeAt d k) (d.counts k) = some r ∧
        PollOutcome d min_count max_wait r := by
  intro fuel
  induction fuel with
  | zero =>
    intro k _ _ _ h1
    omega
  | succ fuel ih =>
    intro k hlow hmade hfuel _
    unfold pollUntil
    by_cases ht : timeAt d k < max_wait
    · rw [if_pos ht]
      have hmade1 : pollMade d max_wait (k + 1) := by
        intro j hj
        rcases Nat.lt_succ_iff_lt_or_eq.mp hj with hj | hj
        · exact hmade j hj
        · rw [hj]
          exact ht
      by_cases hc : d.counts (k + 1) ≥ min_count
      · rw [if_pos hc]
        refine ⟨_, rfl, Or.inl ⟨k + 1, hmade1, hc, ?_, rfl⟩⟩
        intro j hj
        exact hlow j (by omega)
      · rw [if_neg hc]
        have hge := timeAt_ge d hclock k
        have hnext := ih (k + 1)
          (by
            intro j hj
            rcases Nat.le_succ_iff.mp hj with hj | hj
            · exact hlow j hj
            · rw [hj]
              exact lt_of_not_ge hc)
          hmade1
          (by
            push_cast at hfuel ⊢
            omega)
          (by
            push_cast at hfuel
            omega)
        exact hnext
    · rw [if_neg ht]
      exact ⟨_, rfl, Or.inr ⟨k, hmade, by omega, hlow, rfl⟩⟩

/-- The outcome of a wait is determined by the discovery. -/
theorem pollOutcome_unique (d : Discovery) (min_count max_wait r r2 : Int)
    (h : PollOutcome d min_count max_wait r) (h2 : PollOutcome d min_count max_wait r2) :
    r = r2 := by
  rcases h with ⟨n, hm, hc, hlow, hr⟩ | ⟨n, hm, ht, hlow, hr⟩
  · rcases h2 with ⟨n2, hm2, hc2, hlow2, hr2⟩ | ⟨n2, hm2, ht2, hlow2, hr2⟩
    · have hn : n = n2 := by
        rcases Nat.lt_trichotomy n n2 with hlt | heq | hgt
        · have := hlow2 n hlt
          omega
        · exact heq
        · have := hlow n2 hgt
          omega
      rw [hr, hr2, hn]
    · exfalso
      rcases Nat.lt_or_ge n2 n with hlt | hge
      · have := hm n2 hlt
        omega
      · have := hlow2 n hge
        omega
  · rcases h2 with ⟨n2, hm2, hc2, hlow2, hr2⟩ | ⟨n2, hm2, ht2, hlow2, hr2⟩
    · exfalso
      rcases Nat.lt_or_ge n n2 with hlt | hge
      · have := hm2 n hlt
        omega
      · have := hlow n2 hge
        omega
    · have hn : n = n2 := by
        rcases Nat.lt_trichotomy n n2 with hlt | heq | hgt
        · have := hm2 n hlt
          omega
        · exact heq
        · have := hm n2 hgt
          omega
      rw [hr, hr2, hn]

/-- An outcome is at least `min_count` exactly when a poll that is made reports it. -/
theorem pollOutcome_iff (d : Discovery) (min_count max_wait r : Int)
    (h : PollOutcome d min_count max_wait r) :
    min_count ≤ r ↔ ∃ n, pollMade d max_wait n ∧ min_count ≤ d.counts n := by
  constructor
  · intro hr
    rcases h with ⟨n, hm, hc, -, -⟩ | ⟨n, -, -, hlow, hrn⟩
    · exact ⟨n, hm, hc⟩
    · have := hlow n (le_refl n)
      omega
  · rintro ⟨n2, hm2, hc2⟩
    rcases h with ⟨n, -, hc, -, hrn⟩ | ⟨n, -, ht, hlow, -⟩
    · omega
    · exfalso
      rcases Nat.lt_or_ge n n2 with hlt | hge
      · have := hm2 n hlt
        omega
      · have := hlow n2 hge
        omega

/-- With a mapped publisher and a writer, `GetNumberOfSubscribers` is the initial check
followed by the loop. -/
theorem GetNumberOfSubscribers_returns (sm : DDSSimpleManager) (d : Discovery)
    (topic temp : String) (w : Ref) (min_count max_wait : Int) (fuel : Nat)
    (hpub : mapFind sm.m_pubMap topic = some temp) (hw : getWriter sm.manager temp = some w)
    (hclock : ∀ k : Nat, 100 * ((k : Int) + 1) ≤ d.elapsed k)
    (hfuel : max_wait ≤ 100 * (fuel : Int) - 100) (h1 : 1 ≤ fuel) :
    ∃ r, GetNumberOfSubscribers sm d topic min_count max_wait fuel = some r ∧
      PollOutcome d min_count max_wait r := by
  unfold GetNumberOfSubscribers
  simp only [hpub, hw]
  by_cases h0 : d.counts 0 ≥ min_count
  · rw [if_pos h0]
    refine ⟨_, rfl, Or.inl ⟨0, ?_, h0, ?_, rfl⟩⟩
    · intro j hj
      omega
    · intro j hj
      omega
  · rw [if_neg h0]
    have := pollUntil_spec d min_count max_wait hclock fuel 0
      (by
        intro j hj
        have hj0 : j = 0 := by omega
        rw [hj0]
        omega)
      (by
        intro j hj
        omega)
      (by
        push_cast
        omega)
      h1
    simpa [timeAt] using this

/-- C24 (as stated) fails for the last poll, which is made after the wait has elapsed: with
`max_wait = 250` ms, a clock advancing by 100 ms per sleep and a writer that reports its
first match at the fourth poll, `GetNumberOfSubscribers(1, 250)` returns 1 although every
poll made while the elapsed time is below 250 ms reports 0; and with `max_wait = 0` the
initial poll alone decides. -/
theorem GetNumberOfSubscribers_counts_late_poll :
    GetNumberOfSubscribers sampleSimpleManager lateMatch "T" 1 250 10 = some 1 ∧
      (∀ k, timeAt lateMatch k < 250 → lateMatch.counts k < 1) ∧
      GetNumberOfSubscribers sampleSimpleManager matched "T" 1 0 10 = some 1 ∧
      (∀ k, ¬ timeAt matched k < 0) := by
  refine ⟨by decide, ?_, by decide, ?_⟩
  · intro k hk
    match k with
    | 0 => decide
    | 1 => decide
    | 2 => decide
    | n + 3 =>
      exfalso
      simp only [timeAt, lateMatch, exactClock] at hk
      push_cast at hk
      omega
  · intro k hk
    match k with
    | 0 => simp [timeAt] at hk
    | n + 1 =>
      simp only [timeAt, matched, exactClock] at hk
      omega

/-- C24 (amended): for a mapped publisher with a writer and a clock that has advanced by at
least 100 ms per sleep, `GetNumberOfSubscribers(min_count, max_wait)` returns (with enough
fuel for `max_wait / 100 + 1` iterations), and its result is determined by the polls that
are made: the initial poll, and one poll after each sleep begun while the time read so far
was below `max_wait`, so that the last poll is made once the time read has reached
`max_wait`.  The result is at least `min_count` exactly when one of these polls reports at
least `min_count`, and is then the count of the first such poll; otherwise it is the count
of the last poll.  With `min_count = 1` and a first match at the third poll, made when the
first sleep ended before `max_wait`, the result is that positive count; without any match
it is 0; and `WaitForSubscriber` is true exactly when the result for `min_count = 1` is
positive. -/
theorem GetNumberOfSubscribers_spec (sm : DDSSimpleManager) (d : Discovery)
    (topic temp : String) (w : Ref) (max_wait : Int)
    (hpub : mapFind sm.m_pubMap topic = some temp) (hw : getWriter sm.manager temp = some w)
    (hclock : ∀ k : Nat, 100 * ((k : Int) + 1) ≤ d.elapsed k) :
    (∀ (min_count : Int) (fuel : Nat), max_wait ≤ 100 * (fuel : Int) - 100 → 1 ≤ fuel →
      ∃ r, GetNumberOfSubscribers sm d topic min_count max_wait fuel = some r ∧
        PollOutcome d min_count max_wait r ∧
        (min_count ≤ r ↔ ∃ n, pollMade d max_wait n ∧ min_count ≤ d.counts n)) ∧
    (∀ (min_count r r2 : Int), PollOutcome d min_count max_wait r →
      PollOutcome d min_count max_wait r2 → r = r2) ∧
    (∀ (fuel : Nat), max_wait ≤ 100 * (fuel : Int) - 100 → 1 ≤ fuel →
      d.counts 0 < 1 → d.counts 1 < 1 → 1 ≤ d.counts 2 → d.elapsed 0 < max_wait →
      GetNumberOfSubscribers sm d topic 1 max_wait fuel = some (d.counts 2) ∧
        WaitForSubscriber sm d topic max_wait fuel = some true) ∧
    (∀ (fuel : Nat), max_wait ≤ 100 * (fuel : Int) - 100 → 1 ≤ fuel →
      (∀ k, d.counts k = 0) →
      GetNumberOfSubscribers sm d topic 1 max_wait fuel = some 0 ∧
        WaitForSubscriber sm d topic max_wait fuel = some false) ∧
    (∀ (fuel : Nat) (b : Bool), WaitForSubscriber sm d topic max_wait fuel = some b →
      ∃ r, GetNumberOfSubscribers sm d topic 1 max_wait fuel = some r ∧
        (b = true ↔ 0 < r)) := by
  refine ⟨?_, ?_, ?_, ?_, ?_⟩
  · intro min_count fuel hfuel h1
    obtain ⟨r, hr, ho⟩ := GetNumberOfSubscribers_returns sm d topic temp w min_count max_wait
      fuel hpub hw hclock hfuel h1
    exact ⟨r, hr, ho, pollOutcome_iff d min_count max_wait r ho⟩
  · intro min_count r r2 h h2
    exact pollOutcome_unique d min_count max_wait r r2 h h2
  · intro fuel hfuel h1 c0 c1 c2 he
    obtain ⟨r, hr, ho⟩ := GetNumberOfSubscribers_returns sm d topic temp w 1 max_wait
      fuel hpub hw hclock hfuel h1
    have hthird : PollOutcome d 1 max_wait (d.counts 2) := by
      refine Or.inl ⟨2, ?_, c2, ?_, rfl⟩
      · intro j hj
        have h100 := hclock 0
        match j with
        | 0 =>
          simp only [timeAt]
          simp only [Nat.cast_zero, zero_add, mul_one] at h100
          omega
        | 1 => exact he
        | n + 2 => omega
      · intro j hj
        match j with
        | 0 => exact c0
        | 1 => exact c1
        | n + 2 => omega
    have hrr := pollOutcome_unique d 1 max_wait r (d.counts 2) ho hthird
    rw [hrr] at hr
    refine ⟨hr, ?_⟩
    simp only [WaitForSubscriber, hr, Option.map_some', Option.some.injEq, decide_eq_true_eq]
    omega
  · intro fuel hfuel h1 hzero
    obtain ⟨r, hr, ho⟩ := GetNumberOfSubscribers_returns sm d topic temp w 1 max_wait
      fuel hpub hw hclock hfuel h1
    have hr0 : r = 0 := by
      rcases ho with ⟨n, -, -, -, hrn⟩ | ⟨n, -, -, -, hrn⟩
      · rw [hrn, hzero n]
      · rw [hrn, hzero n]
    rw [hr0] at hr
    refine ⟨hr, ?_⟩
    simp [WaitForSubscriber, hr]
  · intro fuel b hb
    unfold WaitForSubscriber at hb
    cases hg : GetNumberOfSubscribers sm d topic 1 max_wait fuel with
    | none => simp [hg] at hb
    | some r =>
      simp only [hg, Option.map_some', Option.some.injEq] at hb
      refine ⟨r, rfl, ?_⟩
      rw [← hb]
      simp

theorem GetNumberOfSubscribers_spec_witness :
    (mapFind sampleSimpleManager.m_pubMap "T" = some "T" ∧
      getWriter sampleSimpleManager.manager "T" = some 11 ∧
      ∀ k : Nat, 100 * ((k : Int) + 1) ≤ thirdPollMatch.elapsed k) ∧
    (GetNumberOfSubscribers sampleSimpleManager thirdPollMatch "T" 1 15000 200 =
        some (thirdPollMatch.counts 2) ∧
      WaitForSubscriber sampleSimpleManager thirdPollMatch "T" 15000 200 = some true) ∧
    (GetNumberOfSubscribers sampleSimpleManager noMatch "T" 1 15000 200 = some 0 ∧
      WaitForSubscriber sampleSimpleManager noMatch "T" 15000 200 = some false) :=
  ⟨⟨rfl, rfl, fun k => le_refl _⟩,
    (GetNumberOfSubscribers_spec sampleSimpleManager thirdPollMatch "T" "T" 11 15000 rfl rfl
      (fun k => le_refl _)).2.2.1 200 (by decide) (by decide) (by decide) (by decide)
      (by decide) (by decide),
    (GetNumberOfSubscribers_spec sampleSimpleManager noMatch "T" "T" 11 15000 rfl rfl
      (fun k => le_refl _)).2.2.2.1 200 (by decide) (by decide) (fun _ => rfl)⟩

/-! ## Properties of `setMaxDataRate` -/

/-- A reader that `getReader` finds lives in a group of the registry. -/
theorem getReader_some (m : DDSManager) (t R : String) (reader : DataReader)
    (h : getReader m t R = some reader) :
    ∃ g, R ≠ "" ∧ mapFind m.m_topics t = some (some g) ∧ mapFind g.readers R = some reader := by
  unfold getReader at h
  by_cases hR : R = ""
  · simp [hR] at h
  · rw [if_neg hR] at h
    cases hg : mapFind m.m_topics t with
    | none => simp [hg] at h
    | some og =>
      cases og with
      | none => simp [hg] at h
      | some g =>
        simp only [hg] at h
        split at h
        · simp at h
        · exact ⟨g, hR, rfl, h⟩

/-- The product `rate * 1000000` as stored in `nanosec` is exact up to 4294 ms. -/
theorem toULong_rate (rate : Int) (h1 : 1 ≤ rate) (h2 : rate ≤ 4294) :
    ((toULong (wrapInt32 (rate * 1000000)) : Nat) : Int) = rate * 1000000 := by
  unfold toULong wrapInt32
  omega

/-- The product `rate * 1000000` as stored in `nanosec` is the product modulo `2 ^ 32`. -/
theorem toULong_wrap (x : Int) : ((toULong (wrapInt32 x) : Nat) : Int) = x % 4294967296 := by
  unfold toULong wrapInt32
  omega

/-- C25 (as stated) fails from 4295 ms on: `setMaxDataRate(T, R, 4295)` returns true and
applies to the reader a minimum separation of 0 s and 32704 ns, not 4295 ms. -/
theorem setMaxDataRate_wraps :
    setMaxDataRate sampleQos sampleReaderManager rtOk "T" "R" 4295 =
        some (true, sampleReaderManager,
          { rtOk with
            log := [Event.reader_set_qos ⟨101, some (TopicDescription.topic 1)⟩
              { sampleReaderGroup.dataReaderQos with
                minimum_separation := { sec := 0, nanosec := 32704 } }] }) ∧
      (32704 : Int) ≠ 4295 * 1000000 := by
  constructor
  · rfl
  · decide

/-- C25 (amended): `setMaxDataRate(topic, reader, rate)` returns false and leaves manager
and runtime untouched when `rate < 1` or the reader does not exist.  For `rate ≥ 1` and an
existing reader it returns true, leaves the manager untouched (the stored reader QoS and
every reader entry), and issues one call: `set_qos` on that reader with the group's stored
reader QoS in which the minimum separation is `sec = 0` and `nanosec` the product
`rate * 1000000` modulo `2 ^ 32`; for `rate ≤ 4294` this is exactly `rate` milliseconds. -/
theorem setMaxDataRate_spec (qd : QosDictionary) (m : DDSManager) (rt : Runtime)
    (t R : String) (rate : Int) :
    (rate < 1 ∨ getReader m t R = none →
      setMaxDataRate qd m rt t R rate = some (false, m, rt)) ∧
    (∀ reader, 1 ≤ rate → getReader m t R = some reader →
      ∃ g ns, mapFind m.m_topics t = some (some g) ∧ mapFind g.readers R = some reader ∧
        setMaxDataRate qd m rt t R rate =
          some (true, m,
            { rt with
              script := rt.script.tail,
              log := rt.log ++
                [Event.reader_set_qos reader
                  { g.dataReaderQos with minimum_separation := { sec := 0, nanosec := ns } }] }) ∧
        (ns : Int) = (rate * 1000000) % 4294967296 ∧
        (rate ≤ 4294 → (ns : Int) = rate * 1000000)) := by
  constructor
  · intro h
    unfold setMaxDataRate
    rcases h with h | h
    · rw [if_pos h]
    · by_cases hr : rate < 1
      · rw [if_pos hr]
      · rw [if_neg hr, h]
  · intro reader h1 hrd
    obtain ⟨g, hR, hg, hfind⟩ := getReader_some m t R reader hrd
    refine ⟨g, toULong (wrapInt32 (rate * 1000000)), hg, hfind, ?_, toULong_wrap _,
      fun h2 => toULong_rate rate h1 h2⟩
    unfold setMaxDataRate
    rw [if_neg (by omega), hrd]
    simp only [getReaderQos, hg, Runtime.call]
    cases rt.script with
    | nil => rfl
    | cons r rest => rfl

theorem setMaxDataRate_spec_witness :
    setMaxDataRate sampleQos sampleReaderManager rtOk "T" "R" 0 =
        some (false, sampleReaderManager, rtOk) ∧
      ∃ g ns, mapFind sampleReaderManager.m_topics "T" = some (some g) ∧
        mapFind g.readers "R" = some ⟨101, some (TopicDescription.topic 1)⟩ ∧
        setMaxDataRate sampleQos sampleReaderManager rtOk "T" "R" 20 =
          some (true, sampleReaderManager,
            { rtOk with
              script := rtOk.script.tail,
              log := rtOk.log ++
                [Event.reader_set_qos ⟨101, some (TopicDescription.topic 1)⟩
                  { g.dataReaderQos with
                    minimum_separation := { sec := 0, nanosec := ns } }] }) ∧
        (ns : Int) = (20 * 1000000) % 4294967296 ∧
        ((20 : Int) ≤ 4294 → (ns : Int) = 20 * 1000000) :=
  ⟨(setMaxDataRate_spec sampleQos sampleReaderManager rtOk "T" "R" 0).1 (Or.inl (by decide)),
    (setMaxDataRate_spec sampleQos sampleReaderManager rtOk "T" "R" 20).2 _ (by decide) rfl⟩

/-! ## The calls of `replaceFilter` -/

/-- A block of calls of stage `i` followed by calls of stages from `i` on, in order, is in
order, for any assignment of stages. -/
theorem stage_block (stage : Event → Option Nat) (i : Nat) (P Q : List Event)
    (hP : ∀ x ∈ P, stage x = some i ∨ stage x = none)
    (hQ : FollowsOrder stage Q) (hlo : ∀ n ∈ Q.filterMap stage, i ≤ n) :
    FollowsOrder stage (P ++ Q) ∧ ∀ n ∈ (P ++ Q).filterMap stage, i ≤ n := by
  have hPi : ∀ n ∈ P.filterMap stage, n = i := by
    intro n hn
    simp only [List.mem_filterMap] at hn
    obtain ⟨x, hx, hxn⟩ := hn
    rcases hP x hx with h | h
    · rw [h] at hxn
      exact (Option.some.inj hxn).symm
    · rw [h] at hxn
      cases hxn
  constructor
  · unfold FollowsOrder
    rw [List.filterMap_append, List.pairwise_append]
    refine ⟨?_, hQ, ?_⟩
    · rw [List.pairwise_iff_forall_sublist]
      intro a b hab
      have ha := hPi a (hab.subset (by simp))
      have hb := hPi b (hab.subset (by simp))
      omega
    · intro a ha b hb
      rw [hPi a ha]
      exact hlo b hb
  · intro n hn
    rw [List.filterMap_append, List.mem_append] at hn
    rcases hn with hn | hn
    · rw [hPi n hn]
    · exact hlo n hn

/-- One call of stage `i` in front of calls of later stages, in order. -/
theorem stage_cons (stage : Event → Option Nat) (i j : Nat) (e : Event) (Q : List Event)
    (he : stage e = some i) (hij : i ≤ j)
    (hQ : FollowsOrder stage Q) (hlo : ∀ n ∈ Q.filterMap stage, j ≤ n) :
    FollowsOrder stage (e :: Q) ∧ ∀ n ∈ (e :: Q).filterMap stage, i ≤ n := by
  have := stage_block stage i [e] Q
    (by
      intro x hx
      rw [List.mem_singleton.mp hx]
      exact Or.inl he)
    hQ (fun n hn => le_trans hij (hlo n hn))
  simpa using this

theorem create_datareader_log (rt : Runtime) (subscriber : Ref)
    (desc : Option TopicDescription) (qos : DataReaderQos) (listener : Nat) :
    (rt.create_datareader subscriber desc qos listener).2.log =
      rt.log ++ [Event.create_datareader subscriber desc qos listener] := by
  unfold Runtime.create_datareader
  cases desc with
  | none => exact call_log _ _
  | some d =>
    simp only [Runtime.create]
    cases rt.script with
    | nil => rfl
    | cons r rest =>
      by_cases hr : r = ReturnCode.RETCODE_OK
      · simp [hr]
      · simp [hr]

theorem create_contentfilteredtopic_log (rt : Runtime) (name : String) (related : Option Ref)
    (expression : String) (params : List String) :
    (rt.create_contentfilteredtopic name related expression params).2.log =
      rt.log ++ [Event.create_contentfilteredtopic name related expression params] := by
  unfold Runtime.create_contentfilteredtopic
  simp only [Runtime.create]
  cases rt.script with
  | nil => rfl
  | cons r rest =>
    by_cases hr : r = ReturnCode.RETCODE_OK
    · simp [hr]
    · simp [hr]

/-- The deletion of the old filter topic logs `delete_contentfilteredtopic` or nothing. -/
theorem deleteFilteredTopic_log (c : ContentFilteredTopic)
    (l : List (String × ContentFilteredTopic)) (rt : Runtime) :
    ((deleteFilteredTopic c l rt).2.log = rt.log ∨
      (deleteFilteredTopic c l rt).2.log = rt.log ++ [Event.delete_contentfilteredtopic c]) ∧
    (deleteFilteredTopic c l rt).2.survivesNilCall = rt.survivesNilCall := by
  induction l with
  | nil => exact ⟨Or.inl rfl, rfl⟩
  | cons hd tl ih =>
    obtain ⟨k, v⟩ := hd
    unfold deleteFilteredTopic
    by_cases hv : v.ref ≠ c.ref
    · rw [if_pos hv]
      exact ih
    · rw [if_neg hv]
      have hl := call_log rt (Event.delete_contentfilteredtopic c)
      have hs := call_survives rt (Event.delete_contentfilteredtopic c)
      generalize rt.call (Event.delete_contentfilteredtopic c) = p at hl hs
      obtain ⟨rc, rt1⟩ := p
      simp only at hl hs
      cases rc <;> exact ⟨Or.inr hl, hs⟩

/-- The removal of the old filter topic logs `delete_contentfilteredtopic` or nothing. -/
theorem removeOldFilter_log (m : DDSManager) (c : Option ContentFilteredTopic)
    (g : TopicGroup) (rt : Runtime) :
    (∃ dels, (removeOldFilter m c g rt).2.2.log = rt.log ++ dels ∧
      ∀ x ∈ dels, ∃ cft, x = Event.delete_contentfilteredtopic cft) ∧
    (removeOldFilter m c g rt).2.2.survivesNilCall = rt.survivesNilCall := by
  unfold removeOldFilter
  cases c with
  | none => exact ⟨⟨[], by simp, by simp⟩, rfl⟩
  | some cft =>
    cases m.m_domainParticipant with
    | none => exact ⟨⟨[], by simp, by simp⟩, rfl⟩
    | some dp =>
      obtain ⟨hlog, hs⟩ := deleteFilteredTopic_log cft g.filteredTopics rt
      refine ⟨?_, hs⟩
      rcases hlog with hlog | hlog
      · exact ⟨[], by simpa using hlog, by simp⟩
      · exact ⟨[Event.delete_contentfilteredtopic cft], hlog, by
          intro x hx
          exact ⟨cft, List.mem_singleton.mp hx⟩⟩

/-- The calls of `createReplacementReader` when the reader name has a listener: the
reader creation, with that listener attached, and after a success the restart of the
delivery worker; the listeners of the group are those it was given. -/
theorem createReplacementReader_trace (m m1 : DDSManager) (t R : String) (subscriber : Ref)
    (emitter : Option Emitter) (target : Option TopicDescription) (g2 : TopicGroup)
    (rt5 rt1 : Runtime) (listener : GenericReaderListener) (b : Bool)
    (hl : mapFind g2.m_readerListeners R = some listener)
    (h : createReplacementReader m t R subscriber emitter target g2 rt5 = some (b, m1, rt1)) :
    ∃ g1 restart, m1.m_topics = mapAssign m.m_topics t (some g1) ∧
      g1.m_readerListeners = g2.m_readerListeners ∧
      g1.filteredTopics = g2.filteredTopics ∧
      (g1.readers = g2.readers ∨ ∃ r, g1.readers = mapAssign g2.readers R r) ∧
      rt1.log = rt5.log ++
        (Event.create_datareader subscriber target g2.dataReaderQos listener.id :: restart) ∧
      (restart = [] ∨ ∃ i r, restart = [Event.emitter_setReader i r, Event.emitter_run i]) := by
  unfold createReplacementReader at h
  simp only [mapEmplace_of_find _ _ _ _ hl, hl] at h
  have hlog := create_datareader_log rt5 subscriber target g2.dataReaderQos listener.id
  generalize rt5.create_datareader subscriber target g2.dataReaderQos listener.id = p at h hlog
  obtain ⟨res, rt6⟩ := p
  simp only at hlog
  cases res with
  | none =>
    simp only [Option.some.injEq, Prod.mk.injEq] at h
    rw [← h.2.1, ← h.2.2]
    exact ⟨_, [], rfl, rfl, rfl, Or.inl rfl, hlog, Or.inl rfl⟩
  | some newReader =>
    cases emitter with
    | none =>
      simp only [Option.some.injEq, Prod.mk.injEq] at h
      rw [← h.2.1, ← h.2.2]
      exact ⟨_, [], rfl, rfl, rfl, Or.inr ⟨newReader, rfl⟩, hlog, Or.inl rfl⟩
    | some e =>
      simp only [Option.some.injEq, Prod.mk.injEq] at h
      rw [← h.2.1, ← h.2.2]
      refine ⟨_, [Event.emitter_setReader e.id newReader, Event.emitter_run e.id], rfl, rfl,
        rfl, Or.inr ⟨newReader, rfl⟩, ?_, Or.inr ⟨_, _, rfl⟩⟩
      simp [Runtime.record, hlog]

/-- The reader creation and the worker restart are in protocol order. -/
theorem creation_order (subscriber : Ref) (target : Option TopicDescription)
    (qos : DataReaderQos) (listener : Nat) (restart : List Event)
    (h : restart = [] ∨ ∃ i r, restart = [Event.emitter_setReader i r, Event.emitter_run i]) :
    FollowsOrder replaceStage (Event.create_datareader subscriber target qos listener :: restart) ∧
      (∀ n ∈ (Event.create_datareader subscriber target qos listener :: restart).filterMap
        replaceStage, 7 ≤ n) ∧
      ∀ s dsc q l, Event.create_datareader s dsc q l ∈
        (Event.create_datareader subscriber target qos listener :: restart) → l = listener := by
  rcases h with h | ⟨i, r, h⟩
  · subst h
    refine ⟨by simp [FollowsOrder, replaceStage], by simp [replaceStage], ?_⟩
    intro s dsc q l hmem
    simp only [List.mem_singleton, Event.create_datareader.injEq] at hmem
    exact hmem.2.2.2
  · subst h
    refine ⟨by simp [FollowsOrder, replaceStage], by simp [replaceStage], ?_⟩
    intro s dsc q l hmem
    simp only [List.mem_cons, Event.create_datareader.injEq, List.mem_singleton,
      List.not_mem_nil, or_false] at hmem
    rcases hmem with hmem | hmem | hmem
    · exact hmem.2.2.2
    · cases hmem
    · cases hmem

/-- The calls of `rebuildReader` when the reader name has a listener: the two repeated
deletions through the nil handle, then the creations in protocol order, the reader being
created with that listener; the run reaches them only in a runtime that survives the call
through the nil handle. -/
theorem rebuildReader_trace (m m1 : DDSManager) (t R filter : String) (subscriber : Ref)
    (emitter : Option Emitter) (existing : String) (g1 : TopicGroup) (rt2 rt1 : Runtime)
    (listener : GenericReaderListener) (b : Bool)
    (hl : mapFind g1.m_readerListeners R = some listener)
    (h : rebuildReader m t R filter subscriber emitter existing g1 rt2 = some (b, m1, rt1)) :
    rt2.survivesNilCall = true ∧
    ∃ gN creates, m1.m_topics = mapAssign m.m_topics t (some gN) ∧
      gN.m_readerListeners = g1.m_readerListeners ∧
      (gN.readers = g1.readers ∨ ∃ r, gN.readers = mapAssign g1.readers R r) ∧
      rt1.log = rt2.log ++
        (Event.delete_contained_entities none :: Event.delete_datareader subscriber none ::
          creates) ∧
      FollowsOrder replaceStage creates ∧
      (∀ n ∈ creates.filterMap replaceStage, 6 ≤ n) ∧
      (∀ s dsc q l, Event.create_datareader s dsc q l ∈ creates → l = listener.id) ∧
      (b = true → ∃ s dsc q, Event.create_datareader s dsc q listener.id ∈ creates) := by
  unfold rebuildReader at h
  cases hn : rt2.nilCall (Event.delete_contained_entities none) with
  | none => simp [hn] at h
  | some rt3 =>
    have hsurv : rt2.survivesNilCall = true := by
      unfold Runtime.nilCall at hn
      by_cases hs : rt2.survivesNilCall = true
      · exact hs
      · simp [hs] at hn
    obtain ⟨hlog3, -⟩ := nilCall_log rt2 rt3 _ hn
    have hlog4 := call_log rt3 (Event.delete_datareader subscriber none)
    simp only [hn] at h
    refine ⟨hsurv, ?_⟩
    by_cases hf : filter = ""
    · rw [if_neg (by simpa using hf)] at h
      obtain ⟨gN, restart, h1, h2, -, h4, h5, h6⟩ :=
        createReplacementReader_trace _ _ _ _ _ _ _ _ _ _ listener b hl h
      obtain ⟨o1, o2, o3⟩ := creation_order subscriber (g1.topic.map TopicDescription.topic)
        g1.dataReaderQos listener.id restart h6
      refine ⟨gN, _, h1, h2, h4, ?_, o1, fun n hn => by have := o2 n hn; omega, o3, ?_⟩
      · rw [h5, hlog4, hlog3]
        simp
      · intro _
        exact ⟨_, _, _, List.mem_cons_self _ _⟩
    · rw [if_pos hf] at h
      cases hc : nextCounter existing with
      | none => simp [hc] at h
      | some counter =>
        simp only [hc] at h
        cases hp : m.m_domainParticipant with
        | none => simp [hp] at h
        | some dp =>
          simp only [hp] at h
          have hlog5 := create_contentfilteredtopic_log
            (rt3.call (Event.delete_datareader subscriber none)).2
            (t ++ "_" ++ R ++ "_" ++ to_string counter) g1.topic filter []
          generalize (rt3.call (Event.delete_datareader subscriber none)).2.create_contentfilteredtopic
            (t ++ "_" ++ R ++ "_" ++ to_string counter) g1.topic filter [] = p at h hlog5
          obtain ⟨res, rt5⟩ := p
          simp only at hlog5
          cases res with
          | none =>
            simp only [Option.some.injEq, Prod.mk.injEq] at h
            rw [← h.1, ← h.2.1, ← h.2.2]
            refine ⟨g1, [Event.create_contentfilteredtopic
              (t ++ "_" ++ R ++ "_" ++ to_string counter) g1.topic filter []], rfl, rfl,
              Or.inl rfl, ?_, by simp [FollowsOrder, replaceStage], by simp [replaceStage],
              ?_, fun hb => by simp at hb⟩
            · rw [hlog5, hlog4, hlog3]
              simp
            · intro s dsc q l hmem
              simp at hmem
          | some cft =>
            simp only at h
            have hfrom := fun hl2 =>
              createReplacementReader_trace _ _ _ _ _ _ _ _ _ _ listener b hl2 h
            obtain ⟨gN, restart, h1, h2, -, h4, h5, h6⟩ := hfrom hl
            obtain ⟨o1, o2, o3⟩ := creation_order subscriber
              (some (TopicDescription.filtered cft)) g1.dataReaderQos listener.id restart h6
            have o4 := stage_cons replaceStage 6 7
              (Event.create_contentfilteredtopic (t ++ "_" ++ R ++ "_" ++ to_string counter)
                g1.topic filter []) _ rfl (by omega) o1 o2
            refine ⟨gN, _, h1, h2, h4, ?_, o4.1, o4.2, ?_, ?_⟩
            · rw [h5, hlog5, hlog4, hlog3]
              simp
            · intro s dsc q l hmem
              rcases List.mem_cons.mp hmem with hmem | hmem
              · cases hmem
              · exact o3 s dsc q l hmem
            · intro _
              exact ⟨_, _, _, List.mem_cons_of_mem _ (List.mem_cons_self _ _)⟩

/-- The code of a call is the first code of the script, and the call shifts the script. -/
theorem call_codeAt (rt : Runtime) (e : Event) :
    (rt.call e).1 = rt.codeAt 0 ∧ ∀ i, (rt.call e).2.codeAt i = rt.codeAt (i + 1) := by
  unfold Runtime.call Runtime.codeAt
  cases rt.script with
  | nil => exact ⟨rfl, fun i => by simp⟩
  | cons r rest => exact ⟨rfl, fun i => by simp⟩

/-- Stopping the delivery worker logs `stop` exactly when a running worker is bound to the
reader name, and leaves the script and the nil-call behaviour of the runtime. -/
theorem stopEmitter_stops (g : TopicGroup) (rt : Runtime) (R : String) :
    ∃ stops, (stopEmitter g rt R).2.2 = { rt with log := rt.log ++ stops } ∧
      (∀ x ∈ stops, ∃ i, x = Event.emitter_stop i) ∧
      (∀ e, mapFind g.emitters R = some e → e.running = true →
        stops = [Event.emitter_stop e.id]) := by
  unfold stopEmitter
  cases h : mapFind g.emitters R with
  | none => exact ⟨[], by simp, by simp, by simp⟩
  | some e =>
    by_cases hr : e.running = true
    · refine ⟨[Event.emitter_stop e.id], by simp [hr, Runtime.record], by simp, ?_⟩
      intro e2 he2 _
      simp only [Option.some.injEq] at he2
      rw [he2]
    · refine ⟨[], by simp [hr], by simp, ?_⟩
      intro e2 he2 hrun
      simp only [Option.some.injEq] at he2
      rw [← he2] at hrun
      exact absurd hrun hr

/-- Every returning run of `replaceFilter` on a registered reader: the registry it leaves
and the calls it issued, by the codes of the two deletions. -/
theorem replaceFilter_trace (m m1 : DDSManager) (rt rt1 : Runtime) (t R filter : String)
    (g : TopicGroup) (subscriber : Ref) (dataReader : DataReader)
    (listener : GenericReaderListener) (b : Bool) (hR : R ≠ "")
    (hg : mapFind m.m_topics t = some (some g)) (hs : g.subscriber = some subscriber)
    (hr : mapFind g.readers R = some dataReader)
    (hl : mapFind g.m_readerListeners R = some listener)
    (h : replaceFilter m rt t R filter = some (b, m1, rt1)) :
    ∃ stops tail g1, rt1.log = rt.log ++ (stops ++ tail) ∧
      (∀ x ∈ stops, ∃ i, x = Event.emitter_stop i) ∧
      (∀ e, mapFind g.emitters R = some e → e.running = true →
        stops = [Event.emitter_stop e.id]) ∧
      m1.m_topics = mapAssign m.m_topics t (some g1) ∧
      g1.m_readerListeners = g.m_readerListeners ∧
      (g1.readers = g.readers ∨ ∃ r, g1.readers = mapAssign g.readers R r) ∧
      ((rt.codeAt 0 ≠ ReturnCode.RETCODE_OK ∧ b = false ∧
          tail = [Event.delete_contained_entities (some dataReader)] ∧
          g1.filteredTopics = g.filteredTopics) ∨
        (rt.codeAt 0 = ReturnCode.RETCODE_OK ∧ rt.codeAt 1 ≠ ReturnCode.RETCODE_OK ∧
          b = false ∧
          tail = [Event.delete_contained_entities (some dataReader),
            Event.delete_datareader subscriber (some dataReader)] ∧
          g1.filteredTopics = g.filteredTopics) ∨
        (rt.codeAt 0 = ReturnCode.RETCODE_OK ∧ rt.codeAt 1 = ReturnCode.RETCODE_OK ∧
          rt.survivesNilCall = true ∧
          ∃ dels creates,
            tail = Event.delete_contained_entities (some dataReader) ::
              Event.delete_datareader subscriber (some dataReader) ::
              (dels ++ Event.delete_contained_entities none ::
                Event.delete_datareader subscriber none :: creates) ∧
            (∀ x ∈ dels, ∃ cft, x = Event.delete_contentfilteredtopic cft) ∧
            FollowsOrder replaceStage creates ∧
            (∀ n ∈ creates.filterMap replaceStage, 6 ≤ n) ∧
            (∀ s dsc q l, Event.create_datareader s dsc q l ∈ creates → l = listener.id) ∧
            (b = true → ∃ s dsc q, Event.create_datareader s dsc q listener.id ∈ creates))) := by
  obtain ⟨stops, hrt0, hstops, hrunning⟩ := stopEmitter_stops g rt R
  obtain ⟨f1, f2, f3, -⟩ := stopEmitter_fields g rt R
  have hcode1 := call_codeAt (stopEmitter g rt R).2.2
    (Event.delete_contained_entities (some dataReader))
  have hcode2 := call_codeAt
    ((stopEmitter g rt R).2.2.call (Event.delete_contained_entities (some dataReader))).2
    (Event.delete_datareader subscriber (some dataReader))
  have hc0 : (stopEmitter g rt R).2.2.codeAt 0 = rt.codeAt 0 := by rw [hrt0]; rfl
  have hc1 : (stopEmitter g rt R).2.2.codeAt 1 = rt.codeAt 1 := by rw [hrt0]; rfl
  have hlog0 : (stopEmitter g rt R).2.2.log = rt.log ++ stops := by rw [hrt0]
  have hsurv0 : (stopEmitter g rt R).2.2.survivesNilCall = rt.survivesNilCall := by rw [hrt0]
  have hlogA := call_log (stopEmitter g rt R).2.2
    (Event.delete_contained_entities (some dataReader))
  have hlogB := call_log
    ((stopEmitter g rt R).2.2.call (Event.delete_contained_entities (some dataReader))).2
    (Event.delete_datareader subscriber (some dataReader))
  by_cases h1 : ((stopEmitter g rt R).2.2.call
      (Event.delete_contained_entities (some dataReader))).1 = ReturnCode.RETCODE_OK
  · by_cases h2 : (((stopEmitter g rt R).2.2.call
          (Event.delete_contained_entities (some dataReader))).2.call
        (Event.delete_datareader subscriber (some dataReader))).1 = ReturnCode.RETCODE_OK
    · rw [replaceFilter_deleted m rt t R filter g subscriber dataReader listener hR hg hs hr
        hl h1 h2] at h
      obtain ⟨r1, r2, -⟩ := removeOldFilter_fields m (narrow dataReader.topicdescription)
        (stopEmitter g rt R).2.1
        (((stopEmitter g rt R).2.2.call
            (Event.delete_contained_entities (some dataReader))).2.call
          (Event.delete_datareader subscriber (some dataReader))).2
      obtain ⟨⟨dels, hdl, hdels⟩, hds⟩ := removeOldFilter_log m
        (narrow dataReader.topicdescription) (stopEmitter g rt R).2.1
        (((stopEmitter g rt R).2.2.call
            (Event.delete_contained_entities (some dataReader))).2.call
          (Event.delete_datareader subscriber (some dataReader))).2
      obtain ⟨hsv, gN, creates, hN, hNl, hNr, hNlog, o1, o2, o3, o4⟩ :=
        rebuildReader_trace _ _ _ _ _ _ _ _ _ _ _ listener b (by rw [r2, f3]; exact hl) h
      refine ⟨stops, _, gN, ?_, hstops, hrunning, hN, by rw [hNl, r2, f3], ?_, Or.inr (Or.inr
        ⟨by rw [← hc0, ← hcode1.1]; exact h1,
          by rw [← hc1, ← hcode1.2 0, ← hcode2.1]; exact h2, ?_, dels, creates, rfl, hdels,
          o1, o2, o3, o4⟩)⟩
      · rw [hNlog, hdl, hlogB, hlogA, hlog0]
        simp
      · rcases hNr with hNr | ⟨r, hNr⟩
        · exact Or.inl (by rw [hNr, r1, f1])
        · exact Or.inr ⟨r, by rw [hNr, r1, f1]⟩
      · rw [hds, call_survives, call_survives, hsurv0] at hsv
        exact hsv
    · rw [replaceFilter_reader_refused m rt t R filter g subscriber dataReader listener hR hg
        hs hr hl h1 h2] at h
      simp only [Option.some.injEq, Prod.mk.injEq] at h
      rw [← h.1, ← h.2.1, ← h.2.2]
      refine ⟨stops, _, (stopEmitter g rt R).2.1, ?_, hstops, hrunning, rfl, f3, Or.inl f1,
        Or.inr (Or.inl ⟨by rw [← hc0, ← hcode1.1]; exact h1,
          by rw [← hc1, ← hcode1.2 0, ← hcode2.1]; exact h2, rfl, rfl, f2⟩)⟩
      rw [hlogB, hlogA, hlog0]
      simp
  · rw [replaceFilter_contained_refused m rt t R filter g subscriber dataReader listener hR
      hg hs hr hl h1] at h
    simp only [Option.some.injEq, Prod.mk.injEq] at h
    rw [← h.1, ← h.2.1, ← h.2.2]
    refine ⟨stops, _, (stopEmitter g rt R).2.1, ?_, hstops, hrunning, rfl, f3, Or.inl f1,
      Or.inl ⟨by rw [← hc0, ← hcode1.1]; exact h1, rfl, rfl, f2⟩⟩
    rw [hlogA, hlog0]
    simp

/-- A run of `replaceFilter` that does not get past its checks returns false and changes
nothing. -/
theorem replaceFilter_unregistered (m : DDSManager) (rt : Runtime) (t R filter : String)
    (b : Bool) (m1 : DDSManager) (rt1 : Runtime)
    (h : replaceFilter m rt t R filter = some (b, m1, rt1)) :
    (b = false ∧ m1 = m ∧ rt1 = rt) ∨
      ∃ g subscriber dataReader listener, R ≠ "" ∧ mapFind m.m_topics t = some (some g) ∧
        g.subscriber = some subscriber ∧ mapFind g.readers R = some dataReader ∧
        mapFind g.m_readerListeners R = some listener := by
  by_cases hR : R = ""
  · left
    unfold replaceFilter at h
    rw [if_pos hR] at h
    simp only [Option.some.injEq, Prod.mk.injEq] at h
    exact ⟨h.1.symm, h.2.1.symm, h.2.2.symm⟩
  · cases hg : mapFind m.m_topics t with
    | none =>
      left
      unfold replaceFilter at h
      rw [if_neg hR] at h
      simp only [getSubscriber, hg, Option.some.injEq, Prod.mk.injEq] at h
      exact ⟨h.1.symm, h.2.1.symm, h.2.2.symm⟩
    | some og =>
      cases og with
      | none =>
        unfold replaceFilter at h
        rw [if_neg hR] at h
        simp [getSubscriber, hg] at h
      | some g =>
        cases hs : g.subscriber with
        | none =>
          left
          unfold replaceFilter at h
          rw [if_neg hR] at h
          simp only [getSubscriber, hg, hs, Option.some.injEq, Prod.mk.injEq] at h
          exact ⟨h.1.symm, h.2.1.symm, h.2.2.symm⟩
        | some subscriber =>
          cases hr : mapFind g.readers R with
          | none =>
            left
            unfold replaceFilter at h
            rw [if_neg hR, getReader_eq m t R g hR hg] at h
            simp only [getSubscriber, hg, hs, hr, Option.some.injEq, Prod.mk.injEq] at h
            exact ⟨h.1.symm, h.2.1.symm, h.2.2.symm⟩
          | some dataReader =>
            cases hl : mapFind g.m_readerListeners R with
            | none =>
              left
              unfold replaceFilter at h
              rw [if_neg hR, getReader_eq m t R g hR hg] at h
              simp only [getSubscriber, hg, hs, hr, hl, Option.some.injEq, Prod.mk.injEq] at h
              exact ⟨h.1.symm, h.2.1.symm, h.2.2.symm⟩
            | some listener =>
              exact Or.inr ⟨g, subscriber, dataReader, listener, hR, rfl, hs, hr, hl⟩

/-- The calls after the worker stop are in protocol order, from stage 1 on. -/
theorem replaceFilter_tail_order (subscriber : Ref) (dataReader : DataReader)
    (dels creates : List Event)
    (hdels : ∀ x ∈ dels, ∃ cft, x = Event.delete_contentfilteredtopic cft)
    (o1 : FollowsOrder replaceStage creates)
    (o2 : ∀ n ∈ creates.filterMap replaceStage, 6 ≤ n) :
    FollowsOrder replaceStage
        (Event.delete_contained_entities (some dataReader) ::
          Event.delete_datareader subscriber (some dataReader) ::
          (dels ++ Event.delete_contained_entities none ::
            Event.delete_datareader subscriber none :: creates)) ∧
      ∀ n ∈ (Event.delete_contained_entities (some dataReader) ::
          Event.delete_datareader subscriber (some dataReader) ::
          (dels ++ Event.delete_contained_entities none ::
            Event.delete_datareader subscriber none :: creates)).filterMap replaceStage,
        1 ≤ n := by
  have a5 := stage_cons replaceStage 5 6 (Event.delete_datareader subscriber none) creates rfl
    (by omega) o1 o2
  have a4 := stage_cons replaceStage 4 5 (Event.delete_contained_entities none) _ rfl
    (by omega) a5.1 a5.2
  have a3 := stage_block replaceStage 3 dels _
    (by
      intro x hx
      obtain ⟨cft, hc⟩ := hdels x hx
      rw [hc]
      exact Or.inl rfl)
    a4.1 (fun n hn => by have := a4.2 n hn; omega)
  have a2 := stage_cons replaceStage 2 3 (Event.delete_datareader subscriber (some dataReader))
    _ rfl (by omega) a3.1 a3.2
  exact stage_cons replaceStage 1 2 (Event.delete_contained_entities (some dataReader)) _ rfl
    (by omega) a2.1 a2.2

/-- C27 fails on every successful `replaceFilter`: the `emplace` of the newly built
listener under a reader name that already has a listener stores nothing, so that after the
call the reader-listener map is the one before it, the entry of the reader name is the
original listener, and the new reader was created with the original listener attached. -/
theorem replaceFilter_keeps_original_listener (m m1 : DDSManager) (rt rt1 : Runtime)
    (t R filter : String) (h : replaceFilter m rt t R filter = some (true, m1, rt1)) :
    ∃ g g1 original calls, mapFind m.m_topics t = some (some g) ∧
      mapFind g.m_readerListeners R = some original ∧
      mapFind m1.m_topics t = some (some g1) ∧
      g1.m_readerListeners = g.m_readerListeners ∧
      mapFind g1.m_readerListeners R = some original ∧
      rt1.log = rt.log ++ calls ∧
      (∃ s dsc q, Event.create_datareader s dsc q original.id ∈ calls) ∧
      ∀ s dsc q l, Event.create_datareader s dsc q l ∈ calls → l = original.id := by
  rcases replaceFilter_unregistered m rt t R filter true m1 rt1 h with
    ⟨hb, -, -⟩ | ⟨g, subscriber, dataReader, listener, hR, hg, hs, hr, hl⟩
  · simp at hb
  · obtain ⟨stops, tail, g1, hlog, hstops, -, hreg, hls, -, hcases⟩ :=
      replaceFilter_trace m m1 rt rt1 t R filter g subscriber dataReader listener true hR hg
        hs hr hl h
    have hfind1 : mapFind m1.m_topics t = some (some g1) := by
      rw [hreg]
      exact mapFind_mapAssign_self _ _ _
    rcases hcases with ⟨-, hb, -, -⟩ | ⟨-, -, hb, -, -⟩ |
      ⟨-, -, -, dels, creates, htail, hdels, -, -, o3, o4⟩
    · simp at hb
    · simp at hb
    · obtain ⟨s, dsc, q, hmem⟩ := o4 rfl
      refine ⟨g, g1, listener, stops ++ tail, hg, hl, hfind1, hls, by rw [hls]; exact hl, hlog,
        ⟨s, dsc, q, ?_⟩, ?_⟩
      · rw [htail]
        simp only [List.mem_append, List.mem_cons]
        right; right; right; right; right; right
        exact hmem
      · intro s2 dsc2 q2 l hm2
        rw [htail] at hm2
        simp only [List.mem_append, List.mem_cons] at hm2
        rcases hm2 with hm2 | hm2 | hm2 | hm2 | hm2 | hm2 | hm2
        · obtain ⟨i, hi⟩ := hstops _ hm2
          cases hi
        · cases hm2
        · cases hm2
        · obtain ⟨cft, hc⟩ := hdels _ hm2
          cases hc
        · cases hm2
        · cases hm2
        · exact o3 s2 dsc2 q2 l hm2

theorem replaceFilter_keeps_original_listener_witness :
    ∃ m1 rt1, replaceFilter sampleReaderManager sampleReaderRuntime "T" "R" "x > 1" =
        some (true, m1, rt1) ∧
      sampleReaderManager.allocated = 1 ∧ m1.allocated = 2 ∧
      ∃ g g1 original calls, mapFind sampleReaderManager.m_topics "T" = some (some g) ∧
        mapFind g.m_readerListeners "R" = some original ∧
        mapFind m1.m_topics "T" = some (some g1) ∧
        g1.m_readerListeners = g.m_readerListeners ∧
        mapFind g1.m_readerListeners "R" = some original ∧
        rt1.log = sampleReaderRuntime.log ++ calls ∧
        (∃ s dsc q, Event.create_datareader s dsc q original.id ∈ calls) ∧
        ∀ s dsc q l, Event.create_datareader s dsc q l ∈ calls → l = original.id :=
  ⟨_, _, rfl, rfl, rfl,
    replaceFilter_keeps_original_listener sampleReaderManager _ sampleReaderRuntime _ "T" "R"
      "x > 1" rfl⟩

/-- C28 fails on every run that reaches the second deletion sequence: when
`delete_contained_entities` and `delete_datareader` on the old reader both returned
`RETCODE_OK`, the local reader handle has been set to nil, and the second sequence invokes
`delete_contained_entities` through that nil handle and passes nil to `delete_datareader`.
A runtime in which a call through a nil handle does not return ends the run there. -/
theorem replaceFilter_repeats_deletion_through_nil (m : DDSManager) (rt : Runtime)
    (t R filter : String) (g : TopicGroup) (subscriber : Ref) (dataReader : DataReader)
    (listener : GenericReaderListener) (hR : R ≠ "")
    (hg : mapFind m.m_topics t = some (some g)) (hs : g.subscriber = some subscriber)
    (hr : mapFind g.readers R = some dataReader)
    (hl : mapFind g.m_readerListeners R = some listener)
    (h0 : rt.codeAt 0 = ReturnCode.RETCODE_OK) (h1 : rt.codeAt 1 = ReturnCode.RETCODE_OK) :
    (rt.survivesNilCall = false → replaceFilter m rt t R filter = none) ∧
    (∀ b m1 rt1, replaceFilter m rt t R filter = some (b, m1, rt1) →
      ∃ calls, rt1.log = rt.log ++ calls ∧
        Event.delete_contained_entities none ∈ calls ∧
        Event.delete_datareader subscriber none ∈ calls) := by
  have key : ∀ b m1 rt1, replaceFilter m rt t R filter = some (b, m1, rt1) →
      rt.survivesNilCall = true ∧ ∃ calls, rt1.log = rt.log ++ calls ∧
        Event.delete_contained_entities none ∈ calls ∧
        Event.delete_datareader subscriber none ∈ calls := by
    intro b m1 rt1 h
    obtain ⟨stops, tail, g1, hlog, -, -, -, -, -, hcases⟩ :=
      replaceFilter_trace m m1 rt rt1 t R filter g subscriber dataReader listener b hR hg hs
        hr hl h
    rcases hcases with ⟨hc0, -, -, -⟩ | ⟨-, hc1, -, -, -⟩ |
      ⟨-, -, hsv, dels, creates, htail, -, -, -, -, -⟩
    · exact absurd h0 hc0
    · exact absurd h1 hc1
    · refine ⟨hsv, stops ++ tail, hlog, ?_, ?_⟩
      · rw [htail]
        simp
      · rw [htail]
        simp
  constructor
  · intro hns
    cases hres : replaceFilter m rt t R filter with
    | none => rfl
    | some res =>
      obtain ⟨b, m1, rt1⟩ := res
      have := (key b m1 rt1 hres).1
      rw [hns] at this
      cases this
  · intro b m1 rt1 h
    exact (key b m1 rt1 h).2

theorem replaceFilter_repeats_deletion_through_nil_witness :
    replaceFilter sampleReaderManager
        { sampleReaderRuntime with survivesNilCall := false } "T" "R" "x > 1" = none ∧
      ∃ m1 rt1, replaceFilter sampleReaderManager sampleReaderRuntime "T" "R" "x > 1" =
          some (true, m1, rt1) ∧
        ∃ calls, rt1.log = sampleReaderRuntime.log ++ calls ∧
          Event.delete_contained_entities none ∈ calls ∧
          Event.delete_datareader 100 none ∈ calls :=
  ⟨(replaceFilter_repeats_deletion_through_nil sampleReaderManager
      { sampleReaderRuntime with survivesNilCall := false } "T" "R" "x > 1" sampleReaderGroup
      100 _ _ (by decide) rfl rfl rfl rfl rfl rfl).1 rfl,
    ⟨_, _, rfl,
      (replaceFilter_repeats_deletion_through_nil sampleReaderManager sampleReaderRuntime
        "T" "R" "x > 1" sampleReaderGroup 100 _ _ (by decide) rfl rfl rfl rfl rfl rfl).2 _ _
        _ rfl⟩⟩

/-! ## A failed `joinDomain` -/

/-- A create call whose code is `RETCODE_OK` returns the next fresh reference. -/
theorem create_of_nextCode (rt : Runtime) (e : Event)
    (h : rt.nextCode = ReturnCode.RETCODE_OK) :
    rt.create e =
      (some rt.next,
        { rt with script := rt.script.tail, next := rt.next + 1, log := rt.log ++ [e] }) := by
  unfold Runtime.nextCode Runtime.call at h
  unfold Runtime.create
  cases hs : rt.script with
  | nil => rfl
  | cons r rest =>
    rw [hs] at h
    simp only at h
    simp [h]

/-- C30: a manager without participant joins domain `d` with a non-empty configuration
name for which the transport registry has no configuration, in a process where the join
reaches the participant creation and the runtime creates the participant.  The call
returns false, yet the manager keeps the participant, the instance counter of `d` was
advanced (by one, within `int`), and nothing was bound.  A repeated `joinDomain(d, ...)`
with any configuration name then returns true with manager, process and runtime untouched
(no configuration is bound), and `joinDomain(d2, ...)` with `d2 ≠ d` returns false. -/
theorem joinDomain_failed_join_keeps_participant (m : DDSManager) (p : Process) (rt : Runtime)
    (d : Int) (config : String) (onAdd onRemove : Bool)
    (hfresh : m.m_domainParticipant = none)
    (h1 : p.heapOpens = true) (h2 : p.configFileImports = true) (h3 : p.factoryAvailable = true)
    (hrt : rt.nextCode = ReturnCode.RETCODE_OK) (hc : config ≠ "")
    (hmissing : get_config p.transportConfigs config = none) :
    ∃ m1 p1 rt1, joinDomain m p rt d config onAdd onRemove = some (false, m1, p1, rt1) ∧
      m1.m_domainParticipant = some { ref := rt.next, domain_id := d } ∧
      p1.g_transportInstances = (nextInstance p.g_transportInstances d).1 ∧
      (inIntRange (currentInstance p.g_transportInstances d) →
        currentInstance p.g_transportInstances d + 1 ≤ 2147483647 →
        currentInstance p1.g_transportInstances d =
          currentInstance p.g_transportInstances d + 1) ∧
      p1.bindings = p.bindings ∧ p1.transportConfigs = p.transportConfigs ∧
      rt1.log = rt.log ++ [Event.create_participant d, Event.get_config config] ∧
      (∀ (p2 : Process) (rt2 : Runtime) (cfg : String) (a b : Bool),
        joinDomain m1 p2 rt2 d cfg a b = some (true, m1, p2, rt2)) ∧
      (∀ (p2 : Process) (rt2 : Runtime) (d2 : Int) (cfg : String) (a b : Bool), d2 ≠ d →
        joinDomain m1 p2 rt2 d2 cfg a b = some (false, m1, p2, rt2)) := by
  have hcreate := create_of_nextCode rt (Event.create_participant d) hrt
  have hjoin : ∃ m1 p1 rt1, joinDomain m p rt d config onAdd onRemove =
        some (false, m1, p1, rt1) ∧
      m1.m_domainParticipant = some { ref := rt.next, domain_id := d } ∧
      p1.g_transportInstances = (nextInstance p.g_transportInstances d).1 ∧
      p1.bindings = p.bindings ∧ p1.transportConfigs = p.transportConfigs ∧
      rt1.log = rt.log ++ [Event.create_participant d, Event.get_config config] := by
    unfold joinDomain
    rw [hfresh]
    simp only [h1, h2, h3, Bool.true_eq_false, if_false, hcreate, ne_eq, hc,
      not_false_eq_true, if_true, hmissing]
    refine ⟨_, _, _, rfl, ?_, rfl, rfl, rfl, ?_⟩
    · by_cases hcb : (onAdd || onRemove) = true
      · simp [hcb]
      · simp [hcb]
    · simp [Runtime.record]
  obtain ⟨m1, p1, rt1, hres, hpart, hinst, hbind, hconf, hlog⟩ := hjoin
  refine ⟨m1, p1, rt1, hres, hpart, hinst, ?_, hbind, hconf, hlog, ?_, ?_⟩
  · intro hlo hhi
    rw [hinst]
    exact (nextInstance_spec p.g_transportInstances d hlo hhi).2.1
  · intro p2 rt2 cfg a b
    unfold joinDomain
    rw [hpart]
    simp
  · intro p2 rt2 d2 cfg a b hne
    unfold joinDomain
    rw [hpart]
    simp [hne]

theorem joinDomain_failed_join_keeps_participant_witness :
    ∃ m1 p1 rt1,
      joinDomain freshManager sampleProcess rtOk 7 "missing" false false =
        some (false, m1, p1, rt1) ∧
      m1.m_domainParticipant = some { ref := rtOk.next, domain_id := 7 } ∧
      p1.g_transportInstances = (nextInstance sampleProcess.g_transportInstances 7).1 ∧
      (inIntRange (currentInstance sampleProcess.g_transportInstances 7) →
        currentInstance sampleProcess.g_transportInstances 7 + 1 ≤ 2147483647 →
        currentInstance p1.g_transportInstances 7 =
          currentInstance sampleProcess.g_transportInstances 7 + 1) ∧
      p1.bindings = sampleProcess.bindings ∧
      p1.transportConfigs = sampleProcess.transportConfigs ∧
      rt1.log = rtOk.log ++ [Event.create_participant 7, Event.get_config "missing"] ∧
      (∀ (p2 : Process) (rt2 : Runtime) (cfg : String) (a b : Bool),
        joinDomain m1 p2 rt2 7 cfg a b = some (true, m1, p2, rt2)) ∧
      (∀ (p2 : Process) (rt2 : Runtime) (d2 : Int) (cfg : String) (a b : Bool), d2 ≠ 7 →
        joinDomain m1 p2 rt2 d2 cfg a b = some (false, m1, p2, rt2)) :=
  joinDomain_failed_join_keeps_participant freshManager sampleProcess rtOk 7 "missing" false
    false rfl rfl rfl rfl rfl (by decide) rfl

/-! ## The invariant of the reader maps -/

theorem mapKeys_mapAssign_of_none {V : Type} (l : List (String × V)) (k : String) (v : V)
    (h : mapFind l k = none) : mapKeys (mapAssign l k v) = mapKeys l ++ [k] := by
  induction l with
  | nil => simp [mapAssign, mapKeys]
  | cons hd tl ih =>
    obtain ⟨k1, v1⟩ := hd
    by_cases hk : k1 = k
    · simp [mapFind, hk] at h
    · have h2 : mapFind tl k = none := by simpa [mapFind, hk] using h
      have := ih h2
      simp only [mapKeys] at this
      simp [mapAssign, mapKeys, hk, this]

theorem mapKeys_mapEmplace_of_none {V : Type} (l : List (String × V)) (k : String) (v : V)
    (h : mapFind l k = none) : mapKeys (mapEmplace l k v) = mapKeys l ++ [k] := by
  simp [mapEmplace, h, mapKeys]

theorem mapFind_isSome_of_mem {V : Type} (l : List (String × V)) (k : String)
    (h : k ∈ mapKeys l) : ∃ v, mapFind l k = some v := by
  induction l with
  | nil => simp [mapKeys] at h
  | cons hd tl ih =>
    obtain ⟨k1, v1⟩ := hd
    by_cases hk : k1 = k
    · exact ⟨v1, by simp [mapFind, hk]⟩
    · have h2 : k ∈ mapKeys tl := by
        simp only [mapKeys, List.map_cons, List.mem_cons] at h
        rcases h with h | h
        · exact absurd h.symm hk
        · exact h
      obtain ⟨v, hv⟩ := ih h2
      exact ⟨v, by simpa [mapFind, hk] using hv⟩

theorem mapFind_none_iff {V : Type} (l : List (String × V)) (k : String) :
    mapFind l k = none ↔ k ∉ mapKeys l := by
  constructor
  · intro h hmem
    obtain ⟨v, hv⟩ := mapFind_isSome_of_mem l k hmem
    rw [h] at hv
    cases hv
  · intro h
    cases hf : mapFind l k with
    | none => rfl
    | some v => exact absurd (mem_mapKeys_of_find l k v hf) h

/-- Storing a reader and emplacing a listener under a non-empty name keeps the invariant. -/
theorem groupInv_store (g g1 : TopicGroup) (R : String) (r : DataReader)
    (l : GenericReaderListener) (hinv : GroupInv g) (hR : R ≠ "")
    (hr : g1.readers = mapAssign g.readers R r)
    (hl : g1.m_readerListeners = mapEmplace g.m_readerListeners R l) : GroupInv g1 := by
  obtain ⟨hk, he⟩ := hinv
  unfold GroupInv
  rw [hr, hl]
  cases hf : mapFind g.m_readerListeners R with
  | some l0 =>
    have hmem : R ∈ mapKeys g.readers := by
      rw [hk]
      exact mem_mapKeys_of_find _ _ _ hf
    obtain ⟨r0, hr0⟩ := mapFind_isSome_of_mem _ _ hmem
    rw [mapKeys_mapAssign_of_find _ _ _ _ hr0, mapEmplace_of_find _ _ _ _ hf]
    exact ⟨hk, he⟩
  | none =>
    have hnr : mapFind g.readers R = none := by
      rw [mapFind_none_iff, hk, ← mapFind_none_iff]
      exact hf
    rw [mapKeys_mapAssign_of_none _ _ _ hnr, mapKeys_mapEmplace_of_none _ _ _ hf, hk]
    refine ⟨rfl, ?_⟩
    rw [← hk]
    intro hmem
    rcases List.mem_append.mp hmem with hmem | hmem
    · exact he hmem
    · exact hR (List.mem_singleton.mp hmem).symm

/-- Replacing the reader stored under a name that has one keeps the invariant. -/
theorem groupInv_replace (g g1 : TopicGroup) (R : String) (r0 : DataReader)
    (hinv : GroupInv g) (hfind : mapFind g.readers R = some r0)
    (hr : g1.readers = g.readers ∨ ∃ r, g1.readers = mapAssign g.readers R r)
    (hl : g1.m_readerListeners = g.m_readerListeners) : GroupInv g1 := by
  unfold GroupInv at hinv ⊢
  have hkeys : mapKeys g1.readers = mapKeys g.readers := by
    rcases hr with hr | ⟨r, hr⟩
    · rw [hr]
    · rw [hr, mapKeys_mapAssign_of_find _ _ _ _ hfind]
  rw [hkeys, hl]
  exact hinv

/-- A registry that differs from one with the invariant by one group with the invariant
has the invariant. -/
theorem registryInv_assign (m m1 : DDSManager) (t : String) (g1 : TopicGroup)
    (hinv : RegistryInv m) (hreg : m1.m_topics = mapAssign m.m_topics t (some g1))
    (hg1 : GroupInv g1) : RegistryInv m1 := by
  intro u g hu
  rw [hreg] at hu
  by_cases hut : u = t
  · rw [hut, mapFind_mapAssign_self] at hu
    simp only [Option.some.injEq] at hu
    rw [← hu]
    exact hg1
  · rw [mapFind_mapAssign_ne _ _ _ _ hut] at hu
    exact hinv u g hu

theorem registryInv_same (m m1 : DDSManager) (hinv : RegistryInv m)
    (hreg : m1.m_topics = m.m_topics) : RegistryInv m1 := by
  intro u g hu
  rw [hreg] at hu
  exact hinv u g hu

/-- The registry `createNamedReader` leaves, whatever it returns. -/
theorem createNamedReader_registry (m m1 : DDSManager) (rt rt1 : Runtime)
    (t R filter : String) (params : List String) (topic subscriber : Ref) (g : TopicGroup)
    (b : Bool)
    (h : createNamedReader m t R filter params topic subscriber g rt = some (b, m1, rt1)) :
    ∃ g1, m1.m_topics = mapAssign m.m_topics t (some g1) ∧
      ((g1.readers = g.readers ∧ g1.m_readerListeners = g.m_readerListeners) ∨
        ∃ r l, g1.readers = mapAssign g.readers R r ∧
          g1.m_readerListeners = mapEmplace g.m_readerListeners R l) := by
  unfold createNamedReader at h
  simp only at h
  split at h
  · split at h
    · simp at h
    · split at h
      · simp only [Option.some.injEq, Prod.mk.injEq] at h
        rw [← h.2.1]
        exact ⟨_, rfl, Or.inl ⟨rfl, rfl⟩⟩
      · split at h
        · simp only [Option.some.injEq, Prod.mk.injEq] at h
          rw [← h.2.1]
          exact ⟨_, rfl, Or.inl ⟨rfl, rfl⟩⟩
        · simp only [Option.some.injEq, Prod.mk.injEq] at h
          rw [← h.2.1]
          exact ⟨_, rfl, Or.inr ⟨_, _, rfl, rfl⟩⟩
  · split at h
    · simp only [Option.some.injEq, Prod.mk.injEq] at h
      rw [← h.2.1]
      exact ⟨_, rfl, Or.inl ⟨rfl, rfl⟩⟩
    · simp only [Option.some.injEq, Prod.mk.injEq] at h
      rw [← h.2.1]
      exact ⟨_, rfl, Or.inr ⟨_, _, rfl, rfl⟩⟩

/-- `createSubscriber` keeps the invariant, whatever it returns. -/
theorem createSubscriber_inv (m m1 : DDSManager) (rt rt1 : Runtime) (t R filter : String)
    (params : List String) (b : Bool) (hinv : RegistryInv m)
    (h : createSubscriber m rt t R filter params = some (b, m1, rt1)) : RegistryInv m1 := by
  have hsame : ∀ {x : Bool × DDSManager × Runtime},
      some (false, m, rt) = some x → x = (b, m1, rt1) → RegistryInv m1 := by
    intro x hx hxb
    rw [hxb] at hx
    simp only [Option.some.injEq, Prod.mk.injEq] at hx
    exact registryInv_same m m1 hinv (by rw [← hx.2.1])
  unfold createSubscriber at h
  by_cases hR : R = ""
  · rw [if_pos hR] at h
    exact hsame h rfl
  · rw [if_neg hR] at h
    cases hg : mapFind m.m_topics t with
    | none =>
      simp only [hg] at h
      exact hsame h rfl
    | some og =>
      cases og with
      | none =>
        simp only [hg] at h
        exact hsame h rfl
      | some g =>
        simp only [hg] at h
        cases ht : g.topic with
        | none =>
          simp only [ht] at h
          exact hsame h rfl
        | some topic =>
          simp only [ht] at h
          cases hl : mapFind g.m_readerListeners R with
          | some l0 =>
            simp only [hl] at h
            exact hsame h rfl
          | none =>
            simp only [hl] at h
            have hgi := hinv t g hg
            have fin : ∀ (g0 : TopicGroup) (sub : Ref) (rt0 : Runtime),
                g0.readers = g.readers → g0.m_readerListeners = g.m_readerListeners →
                createNamedReader m t R filter params topic sub g0 rt0 = some (b, m1, rt1) →
                RegistryInv m1 := by
              intro g0 sub rt0 h0r h0l hn
              obtain ⟨g1, hreg, hstep⟩ := createNamedReader_registry _ _ _ _ _ _ _ _ _ _ _ _ hn
              have hg0 : GroupInv g0 := by
                unfold GroupInv
                rw [h0r, h0l]
                exact hgi
              refine registryInv_assign m m1 t g1 hinv hreg ?_
              rcases hstep with ⟨hr, hls⟩ | ⟨r, l, hr, hls⟩
              · unfold GroupInv
                rw [hr, hls]
                exact hg0
              · exact groupInv_store g0 g1 R r l hg0 hR hr hls
            cases hsub : g.subscriber with
            | some sub =>
              simp only [hsub] at h
              exact fin g sub rt rfl rfl h
            | none =>
              simp only [hsub] at h
              cases hp : m.m_domainParticipant with
              | none => simp [hp] at h
              | some dp =>
                simp only [hp] at h
                split at h
                · simp only [Option.some.injEq, Prod.mk.injEq] at h
                  exact registryInv_same m m1 hinv (by rw [← h.2.1])
                · refine fin _ _ _ ?_ ?_ h <;> rfl

/-- `replaceFilterParams` returns the manager it was given. -/
theorem replaceFilterParams_manager (m m1 : DDSManager) (rt rt1 : Runtime) (t R : String)
    (params : List String) (b : Bool)
    (h : replaceFilterParams m rt t R params = some (b, m1, rt1)) : m1 = m := by
  unfold replaceFilterParams at h
  split at h
  · simp only [Option.some.injEq, Prod.mk.injEq] at h
    exact h.2.1.symm
  · split at h
    · simp at h
    · simp only [Option.some.injEq, Prod.mk.injEq] at h
      exact h.2.1.symm
    · split at h
      · simp only [Option.some.injEq, Prod.mk.injEq] at h
        exact h.2.1.symm
      · split at h
        · simp at h
        · simp at h
        · split at h
          · simp only [Option.some.injEq, Prod.mk.injEq] at h
            exact h.2.1.symm
          · simp only [Option.some.injEq, Prod.mk.injEq] at h
            exact h.2.1.symm

/-- `setMaxDataRate` returns the manager it was given. -/
theorem setMaxDataRate_manager (qd : QosDictionary) (m m1 : DDSManager) (rt rt1 : Runtime)
    (t R : String) (rate : Int) (b : Bool)
    (h : setMaxDataRate qd m rt t R rate = some (b, m1, rt1)) : m1 = m := by
  unfold setMaxDataRate at h
  split at h
  · simp only [Option.some.injEq, Prod.mk.injEq] at h
    exact h.2.1.symm
  · split at h
    · simp only [Option.some.injEq, Prod.mk.injEq] at h
      exact h.2.1.symm
    · split at h
      · simp at h
      · simp only [Option.some.injEq, Prod.mk.injEq] at h
        exact h.2.1.symm

/-- `replaceFilter` keeps the invariant, whatever it returns. -/
theorem replaceFilter_inv (m m1 : DDSManager) (rt rt1 : Runtime) (t R filter : String)
    (b : Bool) (hinv : RegistryInv m)
    (h : replaceFilter m rt t R filter = some (b, m1, rt1)) : RegistryInv m1 := by
  rcases replaceFilter_unregistered m rt t R filter b m1 rt1 h with
    ⟨-, hm, -⟩ | ⟨g, subscriber, dataReader, listener, hR, hg, hs, hr, hl⟩
  · rw [hm]
    exact hinv
  · obtain ⟨stops, tail, g1, -, -, -, hreg, hls, hrd, -⟩ :=
      replaceFilter_trace m m1 rt rt1 t R filter g subscriber dataReader listener b hR hg hs
        hr hl h
    exact registryInv_assign m m1 t g1 hinv hreg
      (groupInv_replace g g1 R dataReader (hinv t g hg) hr hrd hls)

/-- A new group has the invariant, and so has the group a setter works on. -/
theorem groupInv_groupOrNew (qd : QosDictionary) (m : DDSManager) (t : String)
    (hinv : RegistryInv m) : GroupInv (groupOrNew qd m t) := by
  unfold groupOrNew
  cases hg : mapFind m.m_topics t with
  | none => simp [GroupInv, TopicGroup.new, mapKeys]
  | some og =>
    cases og with
    | none => simp [GroupInv, TopicGroup.new, mapKeys]
    | some g => exact hinv t g hg

/-- Storing a group with the invariant under the name a setter works on keeps the
invariant of the registry. -/
theorem setter_inv (qd : QosDictionary) (m : DDSManager) (t : String) (g1 : TopicGroup)
    (hinv : RegistryInv m) (hnull : mapFind m.m_topics t ≠ some none) (hg1 : GroupInv g1) :
    RegistryInv ((ensureGroup qd m t).setGroup t g1) := by
  obtain ⟨hfind, hframe⟩ := (ensureGroup_spec qd m t hnull).2 g1
  intro u g hu
  by_cases hut : u = t
  · rw [hut, hfind] at hu
    simp only [Option.some.injEq] at hu
    rw [← hu]
    exact hg1
  · rw [hframe u hut] at hu
    exact hinv u g hu

/-- Every operation keeps the invariant, whatever it returns. -/
theorem applyOp_inv (qd : QosDictionary) (op : Op) (m m1 : DDSManager) (rt rt1 : Runtime)
    (hinv : RegistryInv m) (h : applyOp qd op m rt = some (m1, rt1)) : RegistryInv m1 := by
  cases op with
  | createSubscriber t R f ps =>
    simp only [applyOp] at h
    cases hr : createSubscriber m rt t R f ps with
    | none => simp [hr] at h
    | some res =>
      obtain ⟨b, m2, rt2⟩ := res
      simp only [hr, Option.map_some', Option.some.injEq, Prod.mk.injEq] at h
      rw [← h.1]
      exact createSubscriber_inv m m2 rt rt2 t R f ps b hinv hr
  | replaceFilter t R f =>
    simp only [applyOp] at h
    cases hr : replaceFilter m rt t R f with
    | none => simp [hr] at h
    | some res =>
      obtain ⟨b, m2, rt2⟩ := res
      simp only [hr, Option.map_some', Option.some.injEq, Prod.mk.injEq] at h
      rw [← h.1]
      exact replaceFilter_inv m m2 rt rt2 t R f b hinv hr
  | replaceFilterParams t R ps =>
    simp only [applyOp] at h
    cases hr : replaceFilterParams m rt t R ps with
    | none => simp [hr] at h
    | some res =>
      obtain ⟨b, m2, rt2⟩ := res
      simp only [hr, Option.map_some', Option.some.injEq, Prod.mk.injEq] at h
      rw [← h.1, replaceFilterParams_manager m m2 rt rt2 t R ps b hr]
      exact hinv
  | setMaxDataRate t R rate =>
    simp only [applyOp] at h
    cases hr : setMaxDataRate qd m rt t R rate with
    | none => simp [hr] at h
    | some res =>
      obtain ⟨b, m2, rt2⟩ := res
      simp only [hr, Option.map_some', Option.some.injEq, Prod.mk.injEq] at h
      rw [← h.1, setMaxDataRate_manager qd m m2 rt rt2 t R rate b hr]
      exact hinv
  | setTopicQos t q =>
    simp only [applyOp] at h
    by_cases hnull : mapFind m.m_topics t = some none
    · simp [setTopicQos, ensureGroup, hnull] at h
    · rw [(setters_eq qd m rt t hnull).1 q] at h
      simp only [Option.map_some', Option.some.injEq, Prod.mk.injEq] at h
      rw [← h.1]
      exact setter_inv qd m t _ hinv hnull (groupInv_groupOrNew qd m t hinv)
  | setPublisherQos t q =>
    simp only [applyOp] at h
    by_cases hnull : mapFind m.m_topics t = some none
    · simp [setPublisherQos, ensureGroup, hnull] at h
    · rw [(setters_eq qd m rt t hnull).2.1 q] at h
      simp only [Option.some.injEq, Prod.mk.injEq] at h
      rw [← h.1]
      exact setter_inv qd m t _ hinv hnull (groupInv_groupOrNew qd m t hinv)
  | setSubscriberQos t q =>
    simp only [applyOp] at h
    by_cases hnull : mapFind m.m_topics t = some none
    · simp [setSubscriberQos, ensureGroup, hnull] at h
    · rw [(setters_eq qd m rt t hnull).2.2.1 q] at h
      simp only [Option.some.injEq, Prod.mk.injEq] at h
      rw [← h.1]
      exact setter_inv qd m t _ hinv hnull (groupInv_groupOrNew qd m t hinv)
  | setReaderQos t q =>
    simp only [applyOp] at h
    by_cases hnull : mapFind m.m_topics t = some none
    · simp [setReaderQos, ensureGroup, hnull] at h
    · rw [(setters_eq qd m rt t hnull).2.2.2.1 q] at h
      simp only [Option.some.injEq, Prod.mk.injEq] at h
      rw [← h.1]
      exact setter_inv qd m t _ hinv hnull (groupInv_groupOrNew qd m t hinv)
  | setWriterQos t q =>
    simp only [applyOp] at h
    by_cases hnull : mapFind m.m_topics t = some none
    · simp [setWriterQos, ensureGroup, hnull] at h
    · rw [(setters_eq qd m rt t hnull).2.2.2.2 q] at h
      simp only [Option.some.injEq, Prod.mk.injEq] at h
      rw [← h.1]
      exact setter_inv qd m t _ hinv hnull (groupInv_groupOrNew qd m t hinv)

/-- C29: the invariant "the reader names of a group are the names of its reader listeners,
and none is the empty string" holds for a new group, and is kept by every sequence of
`createSubscriber`, `replaceFilter`, `replaceFilterParams`, `setMaxDataRate` and QoS setter
calls, whatever each call returns: if it holds for every group of the registry before the
sequence, it holds for every group of the registry after it. -/
theorem runOps_keeps_reader_names (qd : QosDictionary) (ops : List Op) :
    GroupInv (TopicGroup.new qd) ∧
      ∀ (m m1 : DDSManager) (rt rt1 : Runtime), RegistryInv m →
        runOps qd ops m rt = some (m1, rt1) → RegistryInv m1 := by
  refine ⟨by simp [GroupInv, TopicGroup.new, mapKeys], ?_⟩
  induction ops with
  | nil =>
    intro m m1 rt rt1 hinv h
    simp only [runOps, Option.some.injEq, Prod.mk.injEq] at h
    rw [← h.1]
    exact hinv
  | cons op rest ih =>
    intro m m1 rt rt1 hinv h
    unfold runOps at h
    cases hop : applyOp qd op m rt with
    | none => simp [hop] at h
    | some res =>
      obtain ⟨m2, rt2⟩ := res
      simp only [hop] at h
      exact ih m2 m1 rt2 rt1 (applyOp_inv qd op m m2 rt rt2 hinv hop) h

theorem runOps_keeps_reader_names_witness :
    RegistryInv sampleManager ∧
      ∃ m1 rt1,
        runOps sampleQos
            [Op.createSubscriber "T" "R" "x > 0" [], Op.createSubscriber "T" "R" "" [],
              Op.replaceFilter "T" "R" "", Op.setMaxDataRate "T" "R" 20,
              Op.setReaderQos "U" ⟨⟨0, 0⟩, 9⟩, Op.createSubscriber "T" "" "" []]
            sampleManager rtOk = some (m1, rt1) ∧
          (∃ g, mapFind m1.m_topics "T" = some (some g) ∧ mapKeys g.readers = ["R"] ∧
            mapKeys g.m_readerListeners = ["R"]) ∧
          RegistryInv m1 :=
  have hbase : RegistryInv sampleManager := by
    intro t g h
    simp only [sampleManager, mapFind] at h
    split at h
    · simp only [Option.some.injEq] at h
      rw [← h]
      simp [GroupInv, sampleGroup, mapKeys]
    · cases h
  ⟨hbase, _, _, rfl, ⟨_, rfl, rfl, rfl⟩,
    (runOps_keeps_reader_names sampleQos
      [Op.createSubscriber "T" "R" "x > 0" [], Op.createSubscriber "T" "R" "" [],
        Op.replaceFilter "T" "R" "", Op.setMaxDataRate "T" "R" 20,
        Op.setReaderQos "U" ⟨⟨0, 0⟩, 9⟩, Op.createSubscriber "T" "" "" []]).2
      sampleManager _ rtOk _ hbase rfl⟩

/-! ## Runs of `replaceFilter`, returning or not -/

/-- The run of `createReplacementReader` returns what `createReplacementReader` returns. -/
theorem createReplacementReaderRun_result (m : DDSManager) (t R : String) (subscriber : Ref)
    (emitter : Option Emitter) (target : Option TopicDescription) (g2 : TopicGroup)
    (rt5 : Runtime) :
    createReplacementReader m t R subscriber emitter target g2 rt5 =
      (createReplacementReaderRun m t R subscriber emitter target g2 rt5).result := by
  unfold createReplacementReader createReplacementReaderRun
  simp only
  cases mapFind (mapEmplace g2.m_readerListeners R
      { id := m.allocated, handler := m.m_rlHandler }) R with
  | none => rfl
  | some attached =>
    simp only
    generalize rt5.create_datareader subscriber target g2.dataReaderQos attached.id = p
    obtain ⟨res, rt6⟩ := p
    cases res with
    | none => rfl
    | some newReader =>
      cases emitter with
      | none => rfl
      | some e => rfl

/-- The run of `rebuildReader` returns what `rebuildReader` returns. -/
theorem rebuildReaderRun_result (m : DDSManager) (t R filter : String) (subscriber : Ref)
    (emitter : Option Emitter) (existing : String) (g1 : TopicGroup) (rt2 : Runtime) :
    rebuildReader m t R filter subscriber emitter existing g1 rt2 =
      (rebuildReaderRun m t R filter subscriber emitter existing g1 rt2).result := by
  unfold rebuildReader rebuildReaderRun
  cases rt2.nilCall (Event.delete_contained_entities none) with
  | none => rfl
  | some rt3 =>
    simp only
    by_cases hf : filter = ""
    · rw [if_neg (by simpa using hf), if_neg (by simpa using hf)]
      exact createReplacementReaderRun_result _ _ _ _ _ _ _ _
    · rw [if_pos hf, if_pos hf]
      cases nextCounter existing with
      | none => rfl
      | some counter =>
        simp only
        cases m.m_domainParticipant with
        | none => rfl
        | some dp =>
          simp only
          generalize (rt3.call (Event.delete_datareader subscriber none)).2.create_contentfilteredtopic
            (t ++ "_" ++ R ++ "_" ++ to_string counter) g1.topic filter [] = p
          obtain ⟨res, rt5⟩ := p
          cases res with
          | none => rfl
          | some cft => exact createReplacementReaderRun_result _ _ _ _ _ _ _ _

/-- The run of `replaceFilter` returns what `replaceFilter` returns, and does not return
when `replaceFilter` does not. -/
theorem replaceFilterRun_result (m : DDSManager) (rt : Runtime) (t R filter : String) :
    replaceFilter m rt t R filter = (replaceFilterRun m rt t R filter).result := by
  unfold replaceFilter replaceFilterRun
  by_cases hR : R = ""
  · rw [if_pos hR, if_pos hR]
    rfl
  · rw [if_neg hR, if_neg hR]
    cases getSubscriber m t with
    | none => rfl
    | some os =>
      cases os with
      | none => rfl
      | some subscriber =>
        simp only
        cases getReader m t R with
        | none => rfl
        | some dataReader =>
          simp only
          cases mapFind m.m_topics t with
          | none => rfl
          | some og =>
            cases og with
            | none => rfl
            | some g =>
              simp only
              cases mapFind g.m_readerListeners R with
              | none => rfl
              | some l =>
                simp only
                generalize (stopEmitter g rt R).2.2.call
                  (Event.delete_contained_entities (some dataReader)) = p
                obtain ⟨rc, rt1⟩ := p
                cases rc <;> try rfl
                simp only
                generalize rt1.call (Event.delete_datareader subscriber (some dataReader)) = p2
                obtain ⟨rc2, rt2⟩ := p2
                cases rc2 <;> try rfl
                exact rebuildReaderRun_result _ _ _ _ _ _ _ _ _

/-- A run that returned `b` is a result `b` with the state the run left. -/
theorem result_of_returned (r : RunEnd) (b : Bool) (h : r.returned = some b) :
    r.result = some (b, r.manager, r.runtime) := by
  unfold RunEnd.result
  rw [h]
  rfl

/-- A result is the value a run returned, with the state the run left. -/
theorem returned_of_result (r : RunEnd) (b : Bool) (m1 : DDSManager) (rt1 : Runtime)
    (h : r.result = some (b, m1, rt1)) :
    r.returned = some b ∧ r.manager = m1 ∧ r.runtime = rt1 := by
  unfold RunEnd.result at h
  cases hr : r.returned with
  | none => simp [hr] at h
  | some b2 =>
    simp only [hr, Option.map_some', Option.some.injEq, Prod.mk.injEq] at h
    exact ⟨by rw [h.1], h.2.1, h.2.2⟩

/-- Both deletions of `replaceFilter` succeed: the run goes on with the removal of the old
filter topic and the rebuilding of the reader. -/
theorem replaceFilterRun_deleted (m : DDSManager) (rt : Runtime) (t R filter : String)
    (g : TopicGroup) (subscriber : Ref) (dataReader : DataReader)
    (listener : GenericReaderListener) (hR : R ≠ "")
    (hg : mapFind m.m_topics t = some (some g)) (hs : g.subscriber = some subscriber)
    (hr : mapFind g.readers R = some dataReader)
    (hl : mapFind g.m_readerListeners R = some listener)
    (h1 : ((stopEmitter g rt R).2.2.call
      (Event.delete_contained_entities (some dataReader))).1 = ReturnCode.RETCODE_OK)
    (h2 : (((stopEmitter g rt R).2.2.call
        (Event.delete_contained_entities (some dataReader))).2.call
      (Event.delete_datareader subscriber (some dataReader))).1 = ReturnCode.RETCODE_OK) :
    replaceFilterRun m rt t R filter =
      rebuildReaderRun m t R filter subscriber (stopEmitter g rt R).1
        (removeOldFilter m (narrow dataReader.topicdescription) (stopEmitter g rt R).2.1
          (((stopEmitter g rt R).2.2.call
              (Event.delete_contained_entities (some dataReader))).2.call
            (Event.delete_datareader subscriber (some dataReader))).2).1
        (removeOldFilter m (narrow dataReader.topicdescription) (stopEmitter g rt R).2.1
          (((stopEmitter g rt R).2.2.call
              (Event.delete_contained_entities (some dataReader))).2.call
            (Event.delete_datareader subscriber (some dataReader))).2).2.1
        (removeOldFilter m (narrow dataReader.topicdescription) (stopEmitter g rt R).2.1
          (((stopEmitter g rt R).2.2.call
              (Event.delete_contained_entities (some dataReader))).2.call
            (Event.delete_datareader subscriber (some dataReader))).2).2.2 := by
  unfold replaceFilterRun
  rw [if_neg hR, getReader_eq m t R g hR hg]
  simp only [getSubscriber, hg, hs, hr, hl]
  generalize (stopEmitter g rt R).2.2.call
    (Event.delete_contained_entities (some dataReader)) = p at h1 h2 ⊢
  obtain ⟨rc, rt1⟩ := p
  simp only at h1 h2
  subst h1
  simp only
  generalize rt1.call (Event.delete_datareader subscriber (some dataReader)) = p2 at h2 ⊢
  obtain ⟨rc2, rt2⟩ := p2
  simp only at h2
  subst h2
  rfl

/-- With a runtime that does not survive a call through a nil handle, the run ends at
line 1050: nothing is returned, no call is added, and the group is the one the removal of
the old filter topic left. -/
theorem rebuildReaderRun_nil (m : DDSManager) (t R filter : String) (subscriber : Ref)
    (emitter : Option Emitter) (existing : String) (g1 : TopicGroup) (rt2 : Runtime)
    (hn : rt2.survivesNilCall = false) :
    rebuildReaderRun m t R filter subscriber emitter existing g1 rt2 =
      { returned := none, manager := m.setGroup t g1, runtime := rt2 } := by
  unfold rebuildReaderRun
  simp [Runtime.nilCall, hn]

/-- The run of `createReplacementReader` returns when the reader name has a listener. -/
theorem createReplacementReaderRun_returns (m : DDSManager) (t R : String) (subscriber : Ref)
    (emitter : Option Emitter) (target : Option TopicDescription) (g2 : TopicGroup)
    (rt5 : Runtime) (listener : GenericReaderListener)
    (hl : mapFind g2.m_readerListeners R = some listener) :
    (createReplacementReaderRun m t R subscriber emitter target g2 rt5).returned ≠ none := by
  unfold createReplacementReaderRun
  simp only [mapEmplace_of_find _ _ _ _ hl, hl]
  generalize rt5.create_datareader subscriber target g2.dataReaderQos listener.id = p
  obtain ⟨res, rt6⟩ := p
  cases res with
  | none => simp
  | some newReader =>
    cases emitter with
    | none => simp
    | some e => simp

/-- A run of `rebuildReader` that survives the call through the nil handle and still does
not return (an exception of `std::stoi`, a null participant) ends after the two repeated
deletions. -/
theorem rebuildReaderRun_ended (m : DDSManager) (t R filter : String) (subscriber : Ref)
    (emitter : Option Emitter) (existing : String) (g1 : TopicGroup) (rt2 : Runtime)
    (listener : GenericReaderListener)
    (hl : mapFind g1.m_readerListeners R = some listener)
    (hn : rt2.survivesNilCall = true)
    (h : (rebuildReaderRun m t R filter subscriber emitter existing g1 rt2).returned = none) :
    (rebuildReaderRun m t R filter subscriber emitter existing g1 rt2).manager =
        m.setGroup t g1 ∧
      (rebuildReaderRun m t R filter subscriber emitter existing g1 rt2).runtime.log =
        rt2.log ++ [Event.delete_contained_entities none,
          Event.delete_datareader subscriber none] := by
  have hlog4 := call_log (rt2.record (Event.delete_contained_entities none))
    (Event.delete_datareader subscriber none)
  have hlog : ((rt2.record (Event.delete_contained_entities none)).call
      (Event.delete_datareader subscriber none)).2.log =
      rt2.log ++ [Event.delete_contained_entities none,
        Event.delete_datareader subscriber none] := by
    rw [hlog4]
    simp [Runtime.record]
  unfold rebuildReaderRun at h ⊢
  simp only [Runtime.nilCall, hn, if_true] at h ⊢
  by_cases hf : filter = ""
  · rw [if_neg (by simpa using hf)] at h
    exact absurd h (createReplacementReaderRun_returns _ _ _ _ _ _ _ _ listener hl)
  · rw [if_pos hf] at h ⊢
    cases hc : nextCounter existing with
    | none =>
      simp only [hc]
      exact ⟨trivial, hlog⟩
    | some counter =>
      simp only [hc] at h ⊢
      cases hp : m.m_domainParticipant with
      | none =>
        simp only [hp]
        exact ⟨trivial, hlog⟩
      | some dp =>
        simp only [hp] at h ⊢
        exfalso
        generalize ((rt2.record (Event.delete_contained_entities none)).call
            (Event.delete_datareader subscriber none)).2.create_contentfilteredtopic
          (t ++ "_" ++ R ++ "_" ++ to_string counter) g1.topic filter [] = p at h
        obtain ⟨res, rt5⟩ := p
        cases res with
        | none => simp at h
        | some cft =>
          simp only at h
          exact createReplacementReaderRun_returns m t R subscriber emitter
            (some (TopicDescription.filtered cft))
            (TopicGroup.mk g1.domain g1.topic g1.publisher g1.subscriber g1.writer g1.qosPreset
              g1.topicQos g1.dataReaderQos g1.dataWriterQos g1.pubQos g1.subQos g1.readers
              (mapAssign g1.filteredTopics (t ++ "_" ++ R ++ "_" ++ to_string counter) cft)
              g1.emitters g1.m_readerListeners g1.m_writerListener) rt5 listener hl h


/-- Every run of `replaceFilter` on a registered reader, returning or not: the registry it
leaves and the calls it issued, by the codes of the two deletions and by whether the call
through the nil handle of line 1050 is survived. -/
theorem replaceFilterRun_trace (m : DDSManager) (rt : Runtime) (t R filter : String)
    (g : TopicGroup) (subscriber : Ref) (dataReader : DataReader)
    (listener : GenericReaderListener) (hR : R ≠ "")
    (hg : mapFind m.m_topics t = some (some g)) (hs : g.subscriber = some subscriber)
    (hr : mapFind g.readers R = some dataReader)
    (hl : mapFind g.m_readerListeners R = some listener) :
    ∃ stops tail g1,
      (replaceFilterRun m rt t R filter).runtime.log = rt.log ++ (stops ++ tail) ∧
      (∀ x ∈ stops, ∃ i, x = Event.emitter_stop i) ∧
      (∀ e, mapFind g.emitters R = some e → e.running = true →
        stops = [Event.emitter_stop e.id]) ∧
      (replaceFilterRun m rt t R filter).manager.m_topics =
        mapAssign m.m_topics t (some g1) ∧
      g1.m_readerListeners = g.m_readerListeners ∧
      (g1.readers = g.readers ∨ ∃ r, g1.readers = mapAssign g.readers R r) ∧
      ((rt.codeAt 0 ≠ ReturnCode.RETCODE_OK ∧
          (replaceFilterRun m rt t R filter).returned = some false ∧
          tail = [Event.delete_contained_entities (some dataReader)] ∧
          g1.filteredTopics = g.filteredTopics ∧ g1.readers = g.readers) ∨
        (rt.codeAt 0 = ReturnCode.RETCODE_OK ∧ rt.codeAt 1 ≠ ReturnCode.RETCODE_OK ∧
          (replaceFilterRun m rt t R filter).returned = some false ∧
          tail = [Event.delete_contained_entities (some dataReader),
            Event.delete_datareader subscriber (some dataReader)] ∧
          g1.filteredTopics = g.filteredTopics ∧ g1.readers = g.readers) ∨
        (rt.codeAt 0 = ReturnCode.RETCODE_OK ∧ rt.codeAt 1 = ReturnCode.RETCODE_OK ∧
          ∃ dels, (∀ x ∈ dels, ∃ cft, x = Event.delete_contentfilteredtopic cft) ∧
            ((rt.survivesNilCall = false ∧
                (replaceFilterRun m rt t R filter).returned = none ∧
                tail = Event.delete_contained_entities (some dataReader) ::
                  Event.delete_datareader subscriber (some dataReader) :: dels ∧
                g1.readers = g.readers) ∨
              (rt.survivesNilCall = true ∧ ∃ creates,
                tail = Event.delete_contained_entities (some dataReader) ::
                  Event.delete_datareader subscriber (some dataReader) ::
                  (dels ++ Event.delete_contained_entities none ::
                    Event.delete_datareader subscriber none :: creates) ∧
                FollowsOrder replaceStage creates ∧
                (∀ n ∈ creates.filterMap replaceStage, 6 ≤ n))))) := by
  obtain ⟨stops, hrt0, hstops, hrunning⟩ := stopEmitter_stops g rt R
  obtain ⟨f1, f2, f3, -⟩ := stopEmitter_fields g rt R
  have hcode1 := call_codeAt (stopEmitter g rt R).2.2
    (Event.delete_contained_entities (some dataReader))
  have hcode2 := call_codeAt
    ((stopEmitter g rt R).2.2.call (Event.delete_contained_entities (some dataReader))).2
    (Event.delete_datareader subscriber (some dataReader))
  have hc0 : (stopEmitter g rt R).2.2.codeAt 0 = rt.codeAt 0 := by rw [hrt0]; rfl
  have hc1 : (stopEmitter g rt R).2.2.codeAt 1 = rt.codeAt 1 := by rw [hrt0]; rfl
  have hlog0 : (stopEmitter g rt R).2.2.log = rt.log ++ stops := by rw [hrt0]
  have hsurv0 : (stopEmitter g rt R).2.2.survivesNilCall = rt.survivesNilCall := by rw [hrt0]
  have hlogA := call_log (stopEmitter g rt R).2.2
    (Event.delete_contained_entities (some dataReader))
  have hlogB := call_log
    ((stopEmitter g rt R).2.2.call (Event.delete_contained_entities (some dataReader))).2
    (Event.delete_datareader subscriber (some dataReader))
  by_cases h1 : ((stopEmitter g rt R).2.2.call
      (Event.delete_contained_entities (some dataReader))).1 = ReturnCode.RETCODE_OK
  · by_cases h2 : (((stopEmitter g rt R).2.2.call
          (Event.delete_contained_entities (some dataReader))).2.call
        (Event.delete_datareader subscriber (some dataReader))).1 = ReturnCode.RETCODE_OK
    · have hk0 : rt.codeAt 0 = ReturnCode.RETCODE_OK := by rw [← hc0, ← hcode1.1]; exact h1
      have hk1 : rt.codeAt 1 = ReturnCode.RETCODE_OK := by
        rw [← hc1, ← hcode1.2 0, ← hcode2.1]; exact h2
      rw [replaceFilterRun_deleted m rt t R filter g subscriber dataReader listener hR hg hs hr
        hl h1 h2]
      obtain ⟨r1, r2, -⟩ := removeOldFilter_fields m (narrow dataReader.topicdescription)
        (stopEmitter g rt R).2.1
        (((stopEmitter g rt R).2.2.call
            (Event.delete_contained_entities (some dataReader))).2.call
          (Event.delete_datareader subscriber (some dataReader))).2
      obtain ⟨⟨dels, hdl, hdels⟩, hds⟩ := removeOldFilter_log m
        (narrow dataReader.topicdescription) (stopEmitter g rt R).2.1
        (((stopEmitter g rt R).2.2.call
            (Event.delete_contained_entities (some dataReader))).2.call
          (Event.delete_datareader subscriber (some dataReader))).2
      rw [call_survives, call_survives, hsurv0] at hds
      rw [hlogB, hlogA, hlog0] at hdl
      generalize removeOldFilter m (narrow dataReader.topicdescription) (stopEmitter g rt R).2.1
        (((stopEmitter g rt R).2.2.call
            (Event.delete_contained_entities (some dataReader))).2.call
          (Event.delete_datareader subscriber (some dataReader))).2 = removed at r1 r2 hdl hds ⊢
      have hlr : mapFind removed.2.1.m_readerListeners R = some listener := by
        rw [r2, f3]; exact hl
      by_cases hn : rt.survivesNilCall = true
      · cases hret : (rebuildReaderRun m t R filter subscriber (stopEmitter g rt R).1 removed.1
            removed.2.1 removed.2.2).returned with
        | none =>
          obtain ⟨hman, hlogE⟩ := rebuildReaderRun_ended m t R filter subscriber
            (stopEmitter g rt R).1 removed.1 removed.2.1 removed.2.2 listener hlr
            (by rw [hds]; exact hn) hret
          refine ⟨stops, _, removed.2.1, ?_, hstops, hrunning, by rw [hman]; rfl,
            by rw [r2, f3], Or.inl (by rw [r1, f1]), Or.inr (Or.inr ⟨hk0, hk1, dels, hdels,
              Or.inr ⟨hn, [], rfl, by simp [FollowsOrder], by simp⟩⟩)⟩
          rw [hlogE, hdl]
          simp
        | some b =>
          have hres := rebuildReaderRun_result m t R filter subscriber (stopEmitter g rt R).1
            removed.1 removed.2.1 removed.2.2
          rw [result_of_returned _ b hret] at hres
          obtain ⟨-, gN, creates, hN, hNl, hNr, hNlog, o1, o2, -, -⟩ :=
            rebuildReader_trace _ _ _ _ _ _ _ _ _ _ _ listener b hlr hres
          refine ⟨stops, _, gN, ?_, hstops, hrunning, hN, by rw [hNl, r2, f3], ?_,
            Or.inr (Or.inr ⟨hk0, hk1, dels, hdels, Or.inr ⟨hn, creates, rfl, o1, o2⟩⟩)⟩
          · rw [hNlog, hdl]
            simp
          · rcases hNr with hNr | ⟨r, hNr⟩
            · exact Or.inl (by rw [hNr, r1, f1])
            · exact Or.inr ⟨r, by rw [hNr, r1, f1]⟩
      · have hn2 : rt.survivesNilCall = false := by simpa using hn
        rw [rebuildReaderRun_nil m t R filter subscriber (stopEmitter g rt R).1 removed.1
          removed.2.1 removed.2.2 (by rw [hds]; exact hn2)]
        refine ⟨stops, _, removed.2.1, ?_, hstops, hrunning, rfl, by rw [r2, f3],
          Or.inl (by rw [r1, f1]), Or.inr (Or.inr ⟨hk0, hk1, dels, hdels,
            Or.inl ⟨hn2, rfl, rfl, by rw [r1, f1]⟩⟩)⟩
        simp only
        rw [hdl]
        simp
    · have hres := replaceFilter_reader_refused m rt t R filter g subscriber dataReader
        listener hR hg hs hr hl h1 h2
      rw [replaceFilterRun_result] at hres
      obtain ⟨hb, hm, hrt⟩ := returned_of_result _ _ _ _ hres
      rw [hb, hm, hrt]
      refine ⟨stops, _, (stopEmitter g rt R).2.1, ?_, hstops, hrunning, rfl, f3, Or.inl f1,
        Or.inr (Or.inl ⟨by rw [← hc0, ← hcode1.1]; exact h1,
          by rw [← hc1, ← hcode1.2 0, ← hcode2.1]; exact h2, rfl, rfl, f2, f1⟩)⟩
      rw [hlogB, hlogA, hlog0]
      simp
  · have hres := replaceFilter_contained_refused m rt t R filter g subscriber dataReader
      listener hR hg hs hr hl h1
    rw [replaceFilterRun_result] at hres
    obtain ⟨hb, hm, hrt⟩ := returned_of_result _ _ _ _ hres
    rw [hb, hm, hrt]
    refine ⟨stops, _, (stopEmitter g rt R).2.1, ?_, hstops, hrunning, rfl, f3, Or.inl f1,
      Or.inl ⟨by rw [← hc0, ← hcode1.1]; exact h1, rfl, rfl, f2, f1⟩⟩
    rw [hlogA, hlog0]
    simp

/-- A run of `replaceFilter` that does not get past its checks issues no call and changes
nothing; it returns false, or nothing when the registry holds a null group under the
topic name. -/
theorem replaceFilterRun_unregistered (m : DDSManager) (rt : Runtime) (t R filter : String) :
    ((replaceFilterRun m rt t R filter).returned ≠ some true ∧
        (replaceFilterRun m rt t R filter).manager = m ∧
        (replaceFilterRun m rt t R filter).runtime = rt) ∨
      ∃ g subscriber dataReader listener, R ≠ "" ∧ mapFind m.m_topics t = some (some g) ∧
        g.subscriber = some subscriber ∧ mapFind g.readers R = some dataReader ∧
        mapFind g.m_readerListeners R = some listener := by
  by_cases hR : R = ""
  · left
    unfold replaceFilterRun
    rw [if_pos hR]
    simp
  · cases hg : mapFind m.m_topics t with
    | none =>
      left
      unfold replaceFilterRun
      rw [if_neg hR]
      simp [getSubscriber, hg]
    | some og =>
      cases og with
      | none =>
        left
        unfold replaceFilterRun
        rw [if_neg hR]
        simp [getSubscriber, hg]
      | some g =>
        cases hs : g.subscriber with
        | none =>
          left
          unfold replaceFilterRun
          rw [if_neg hR]
          simp [getSubscriber, hg, hs]
        | some subscriber =>
          cases hr : mapFind g.readers R with
          | none =>
            left
            unfold replaceFilterRun
            rw [if_neg hR, getReader_eq m t R g hR hg]
            simp [getSubscriber, hg, hs, hr]
          | some dataReader =>
            cases hl : mapFind g.m_readerListeners R with
            | none =>
              left
              unfold replaceFilterRun
              rw [if_neg hR, getReader_eq m t R g hR hg]
              simp [getSubscriber, hg, hs, hr, hl]
            | some listener =>
              exact Or.inr ⟨g, subscriber, dataReader, listener, hR, rfl, hs, hr, hl⟩

/-- The calls of a run that ends at the call through the nil handle are in protocol order,
from stage 1 on. -/
theorem replaceFilter_prefix_order (subscriber : Ref) (dataReader : DataReader)
    (dels : List Event)
    (hdels : ∀ x ∈ dels, ∃ cft, x = Event.delete_contentfilteredtopic cft) :
    FollowsOrder replaceStage
        (Event.delete_contained_entities (some dataReader) ::
          Event.delete_datareader subscriber (some dataReader) :: dels) ∧
      ∀ n ∈ (Event.delete_contained_entities (some dataReader) ::
          Event.delete_datareader subscriber (some dataReader) :: dels).filterMap replaceStage,
        1 ≤ n := by
  have a3 := stage_block replaceStage 3 dels []
    (by
      intro x hx
      obtain ⟨cft, hc⟩ := hdels x hx
      rw [hc]
      exact Or.inl rfl)
    (by simp [FollowsOrder]) (by simp)
  rw [List.append_nil] at a3
  have a2 := stage_cons replaceStage 2 3 (Event.delete_datareader subscriber (some dataReader))
    _ rfl (by omega) a3.1 a3.2
  exact stage_cons replaceStage 1 2 (Event.delete_contained_entities (some dataReader)) _ rfl
    (by omega) a2.1 a2.2

/-- C26: in every run of `replaceFilter`, whether it returns or ends at the call through
the nil handle of line 1050, the calls issued are in the order of the protocol: worker
stop, deletion of the entities contained in the old reader, deletion of the old reader,
deletion of the old filter topic, the repeated deletions, then creation of the new filter
topic and of the new reader, then the worker restart.  A running worker bound to the
reader is stopped by the first call issued; a call from the deletion of the old filter
topic on is issued, and the filter map of the group is changed, only when
`delete_contained_entities` and `delete_datareader` on the old reader both returned
`RETCODE_OK`, and `delete_datareader` on the old reader is then among the calls.  The run
returns what `replaceFilter` returns. -/
theorem replaceFilter_call_order (m : DDSManager) (rt : Runtime) (t R filter : String) :
    replaceFilter m rt t R filter = (replaceFilterRun m rt t R filter).result ∧
    ∃ calls, (replaceFilterRun m rt t R filter).runtime.log = rt.log ++ calls ∧
      FollowsOrder replaceStage calls ∧
      (∀ g e, mapFind m.m_topics t = some (some g) → mapFind g.emitters R = some e →
        e.running = true → calls = [] ∨ ∃ rest, calls = Event.emitter_stop e.id :: rest) ∧
      ((∃ x ∈ calls, ∃ n, replaceStage x = some n ∧ 3 ≤ n) →
        rt.codeAt 0 = ReturnCode.RETCODE_OK ∧ rt.codeAt 1 = ReturnCode.RETCODE_OK ∧
        ∃ subscriber old, getReader m t R = some old ∧
          Event.delete_datareader subscriber (some old) ∈ calls) ∧
      (∀ g g1, mapFind m.m_topics t = some (some g) →
        mapFind (replaceFilterRun m rt t R filter).manager.m_topics t = some (some g1) →
        g1.filteredTopics ≠ g.filteredTopics →
        rt.codeAt 0 = ReturnCode.RETCODE_OK ∧ rt.codeAt 1 = ReturnCode.RETCODE_OK) := by
  refine ⟨replaceFilterRun_result m rt t R filter, ?_⟩
  rcases replaceFilterRun_unregistered m rt t R filter with
    ⟨-, hm, hrt⟩ | ⟨g, subscriber, dataReader, listener, hR, hg, hs, hr, hl⟩
  · refine ⟨[], by rw [hrt]; simp, by simp [FollowsOrder], fun _ _ _ _ _ => Or.inl rfl,
      ?_, ?_⟩
    · rintro ⟨x, hx, -⟩
      simp at hx
    · intro g g1 hg hg1 hne
      rw [hm, hg] at hg1
      simp only [Option.some.injEq] at hg1
      rw [hg1] at hne
      exact absurd rfl hne
  · obtain ⟨stops, tail, g1, hlog, hstops, hrunning, hreg, -, -, hcases⟩ :=
      replaceFilterRun_trace m rt t R filter g subscriber dataReader listener hR hg hs hr hl
    have hst : ∀ x ∈ stops, replaceStage x = some 0 ∨ replaceStage x = none := by
      intro x hx
      obtain ⟨i, hi⟩ := hstops x hx
      rw [hi]
      exact Or.inl rfl
    have hfind1 : mapFind (replaceFilterRun m rt t R filter).manager.m_topics t =
        some (some g1) := by
      rw [hreg]
      exact mapFind_mapAssign_self _ _ _
    have hhead : ∀ g2 e, mapFind m.m_topics t = some (some g2) →
        mapFind g2.emitters R = some e → e.running = true → tail ≠ [] →
        stops ++ tail = [] ∨ ∃ rest, stops ++ tail = Event.emitter_stop e.id :: rest := by
      intro g2 e hg2 he hrun _
      rw [hg] at hg2
      simp only [Option.some.injEq] at hg2
      rw [← hg2] at he
      rw [hrunning e he hrun]
      exact Or.inr ⟨tail, rfl⟩
    have hold : getReader m t R = some dataReader := by
      rw [getReader_eq m t R g hR hg]
      exact hr
    have hmap : ∀ g2 g3, mapFind m.m_topics t = some (some g2) →
        mapFind (replaceFilterRun m rt t R filter).manager.m_topics t = some (some g3) →
        g1.filteredTopics = g.filteredTopics →
        g3.filteredTopics ≠ g2.filteredTopics → False := by
      intro g2 g3 hg2 hg3 heq hne
      rw [hg] at hg2
      rw [hfind1] at hg3
      simp only [Option.some.injEq] at hg2 hg3
      rw [← hg2, ← hg3] at hne
      exact hne heq
    have hlow : ∀ x ∈ stops, ∀ n, replaceStage x = some n → 3 ≤ n → False := by
      intro x hx n hn h3
      rcases hst x hx with h0 | h0
      · rw [h0] at hn
        simp only [Option.some.injEq] at hn
        omega
      · rw [h0] at hn
        cases hn
    rcases hcases with ⟨hc0, -, htail, hft, -⟩ | ⟨hc0, hc1, -, htail, hft, -⟩ |
      ⟨hc0, hc1, dels, hdels, hcase⟩
    · refine ⟨stops ++ tail, hlog, ?_, fun g2 e hg2 he hrun =>
        hhead g2 e hg2 he hrun (by rw [htail]; simp), ?_, ?_⟩
      · rw [htail]
        exact (stage_block replaceStage 0 stops _ hst (by simp [FollowsOrder, replaceStage])
          (by simp [replaceStage])).1
      · rintro ⟨x, hx, n, hn, h3⟩
        exfalso
        rw [htail] at hx
        rcases List.mem_append.mp hx with hx | hx
        · exact hlow x hx n hn h3
        · rw [List.mem_singleton.mp hx] at hn
          simp only [replaceStage, Option.some.injEq] at hn
          omega
      · intro g2 g3 hg2 hg3 hne
        exact absurd hne (fun hne => hmap g2 g3 hg2 hg3 hft hne)
    · refine ⟨stops ++ tail, hlog, ?_, fun g2 e hg2 he hrun =>
        hhead g2 e hg2 he hrun (by rw [htail]; simp), ?_, ?_⟩
      · rw [htail]
        exact (stage_block replaceStage 0 stops _ hst (by simp [FollowsOrder, replaceStage])
          (by simp [replaceStage])).1
      · rintro ⟨x, hx, n, hn, h3⟩
        exfalso
        rw [htail] at hx
        rcases List.mem_append.mp hx with hx | hx
        · exact hlow x hx n hn h3
        · simp only [List.mem_cons, List.mem_singleton, List.not_mem_nil, or_false] at hx
          rcases hx with hx | hx
          · rw [hx] at hn
            simp only [replaceStage, Option.some.injEq] at hn
            omega
          · rw [hx] at hn
            simp only [replaceStage, Option.some.injEq] at hn
            omega
      · intro g2 g3 hg2 hg3 hne
        exact absurd hne (fun hne => hmap g2 g3 hg2 hg3 hft hne)
    · have hdel : ∀ rest, tail = Event.delete_contained_entities (some dataReader) ::
            Event.delete_datareader subscriber (some dataReader) :: rest →
          Event.delete_datareader subscriber (some dataReader) ∈ stops ++ tail := by
        intro rest htail
        rw [htail]
        exact List.mem_append_right _ (List.mem_cons_of_mem _ (List.mem_cons_self _ _))
      rcases hcase with ⟨-, -, htail, -⟩ | ⟨-, creates, htail, o1, o2⟩
      · obtain ⟨t1, t2⟩ := replaceFilter_prefix_order subscriber dataReader dels hdels
        refine ⟨stops ++ tail, hlog, ?_, fun g2 e hg2 he hrun =>
          hhead g2 e hg2 he hrun (by rw [htail]; simp), ?_, ?_⟩
        · rw [htail]
          exact (stage_block replaceStage 0 stops _ hst t1
            (fun n hn => by have := t2 n hn; omega)).1
        · intro _
          exact ⟨hc0, hc1, subscriber, dataReader, hold, hdel _ htail⟩
        · intro _ _ _ _ _
          exact ⟨hc0, hc1⟩
      · obtain ⟨t1, t2⟩ :=
          replaceFilter_tail_order subscriber dataReader dels creates hdels o1 o2
        refine ⟨stops ++ tail, hlog, ?_, fun g2 e hg2 he hrun =>
          hhead g2 e hg2 he hrun (by rw [htail]; simp), ?_, ?_⟩
        · rw [htail]
          exact (stage_block replaceStage 0 stops _ hst t1
            (fun n hn => by have := t2 n hn; omega)).1
        · intro _
          exact ⟨hc0, hc1, subscriber, dataReader, hold, hdel _ htail⟩
        · intro _ _ _ _ _
          exact ⟨hc0, hc1⟩

theorem replaceFilter_call_order_witness :
    (replaceFilterRun workerManager { sampleReaderRuntime with survivesNilCall := false }
        "T" "R" "x > 1").returned = none ∧
    (replaceFilterRun workerManager { sampleReaderRuntime with survivesNilCall := false }
        "T" "R" "x > 1").runtime.log =
      [Event.emitter_stop 7,
        Event.delete_contained_entities
          (some ⟨101, some (TopicDescription.filtered ⟨99, "T_R_0"⟩)⟩),
        Event.delete_datareader 100
          (some ⟨101, some (TopicDescription.filtered ⟨99, "T_R_0"⟩)⟩),
        Event.delete_contentfilteredtopic ⟨99, "T_R_0"⟩] ∧
    (replaceFilterRun workerManager sampleReaderRuntime "T" "R" "x > 1").returned = some true ∧
    (replaceFilterRun workerManager sampleReaderRuntime "T" "R" "x > 1").runtime.log =
      [Event.emitter_stop 7,
        Event.delete_contained_entities
          (some ⟨101, some (TopicDescription.filtered ⟨99, "T_R_0"⟩)⟩),
        Event.delete_datareader 100
          (some ⟨101, some (TopicDescription.filtered ⟨99, "T_R_0"⟩)⟩),
        Event.delete_contentfilteredtopic ⟨99, "T_R_0"⟩,
        Event.delete_contained_entities none,
        Event.delete_datareader 100 none,
        Event.create_contentfilteredtopic "T_R_1" (some 1) "x > 1" [],
        Event.create_datareader 100 (some (TopicDescription.filtered ⟨102, "T_R_1"⟩))
          workerGroup.dataReaderQos 0,
        Event.emitter_setReader 7 ⟨103, some (TopicDescription.filtered ⟨102, "T_R_1"⟩)⟩,
        Event.emitter_run 7] ∧
    (replaceFilter workerManager { sampleReaderRuntime with survivesNilCall := false }
        "T" "R" "x > 1" =
      (replaceFilterRun workerManager { sampleReaderRuntime with survivesNilCall := false }
        "T" "R" "x > 1").result ∧
    ∃ calls, (replaceFilterRun workerManager
          { sampleReaderRuntime with survivesNilCall := false } "T" "R" "x > 1").runtime.log =
        ({ sampleReaderRuntime with survivesNilCall := false } : Runtime).log ++ calls ∧
      FollowsOrder replaceStage calls ∧
      (∀ g e, mapFind workerManager.m_topics "T" = some (some g) →
        mapFind g.emitters "R" = some e → e.running = true →
        calls = [] ∨ ∃ rest, calls = Event.emitter_stop e.id :: rest) ∧
      ((∃ x ∈ calls, ∃ n, replaceStage x = some n ∧ 3 ≤ n) →
        ({ sampleReaderRuntime with survivesNilCall := false } : Runtime).codeAt 0 =
          ReturnCode.RETCODE_OK ∧
        ({ sampleReaderRuntime with survivesNilCall := false } : Runtime).codeAt 1 =
          ReturnCode.RETCODE_OK ∧
        ∃ subscriber old, getReader workerManager "T" "R" = some old ∧
          Event.delete_datareader subscriber (some old) ∈ calls) ∧
      (∀ g g1, mapFind workerManager.m_topics "T" = some (some g) →
        mapFind (replaceFilterRun workerManager
          { sampleReaderRuntime with survivesNilCall := false } "T" "R"
          "x > 1").manager.m_topics "T" = some (some g1) →
        g1.filteredTopics ≠ g.filteredTopics →
        ({ sampleReaderRuntime with survivesNilCall := false } : Runtime).codeAt 0 =
          ReturnCode.RETCODE_OK ∧
        ({ sampleReaderRuntime with survivesNilCall := false } : Runtime).codeAt 1 =
          ReturnCode.RETCODE_OK)) :=
  ⟨rfl, rfl, rfl, rfl,
    replaceFilter_call_order workerManager { sampleReaderRuntime with survivesNilCall := false }
      "T" "R" "x > 1"⟩

end OpenDDW
